import Mathlib

/-!
# Verification of the fiet intent-policy engine

A shallow embedding of the `fiet-maker-policy` Stylus contract:
the check-program decoder (`decoder.rs`), the off-chain encoder
(`tools/fiet-maker-policy-encoder/src/encoder.rs`), the evaluator
(`evaluator.rs`), the policy envelope parser (`utils/policy_envelope.rs`),
ECDSA-recovery plumbing (`utils/crypto.rs`), the on-chain facts provider
(`facts/onchain.rs`) and the policy controller (`intent_policy.rs`).

Bytes are modelled as `Nat` (a real byte is `< 256`; encodings produced by the
embedded encoders only emit values `< 256`).  Machine integers (`u16`, `u32`,
`u64`, `u128`, `U256`) are `Nat` with explicit bounds where overflow matters;
`i32` is `Int`.  External calls (`RawCall`) are modelled by an explicit world
function `List Nat → List Nat → Except Unit (List Nat)` mapping
`(target, calldata)` to the raw return bytes; `keccak256` and the 4-byte
function-selector derivation are uninterpreted parameter functions, since no
claim depends on concrete hash values.
-/

namespace Fiet

/-- Big-endian interpretation of a byte list, as in `u64::from_be_bytes`,
`U256::from_be_slice`, etc. -/
def beBytesToNat (l : List Nat) : Nat :=
  l.foldl (fun acc b => acc * 256 + b) 0

/-- Big-endian encoding of `v` into exactly `w` bytes, as in
`to_be_bytes` on the various Rust integer widths. -/
def natToBeBytes : Nat → Nat → List Nat
  | 0, _ => []
  | w + 1, v => natToBeBytes w (v / 256) ++ [v % 256]

theorem natToBeBytes_length (w v : Nat) : (natToBeBytes w v).length = w := by
  induction w generalizing v with
  | zero => rfl
  | succ w ih => simp [natToBeBytes, ih]

theorem beBytesToNat_append_one (l : List Nat) (b : Nat) :
    beBytesToNat (l ++ [b]) = beBytesToNat l * 256 + b := by
  simp [beBytesToNat, List.foldl_append]

theorem beBytesToNat_natToBeBytes (w v : Nat) (h : v < 256 ^ w) :
    beBytesToNat (natToBeBytes w v) = v := by
  induction w generalizing v with
  | zero =>
    simp [natToBeBytes, beBytesToNat]
    omega
  | succ w ih =>
    have hdiv : v / 256 < 256 ^ w := by
      rw [Nat.div_lt_iff_lt_mul (by norm_num)]
      calc v < 256 ^ (w + 1) := h
        _ = 256 ^ w * 256 := by ring
    rw [natToBeBytes, beBytesToNat_append_one, ih _ hdiv]
    omega

theorem natToBeBytes_lt (w v : Nat) : ∀ b ∈ natToBeBytes w v, b < 256 := by
  induction w generalizing v with
  | zero => simp [natToBeBytes]
  | succ w ih =>
    intro b hb
    rw [natToBeBytes] at hb
    rcases List.mem_append.1 hb with h | h
    · exact ih _ _ h
    · simp at h; omega

/-- Two's-complement image of an `i32`, as produced by `i32::to_be_bytes`
(modelled as an unsigned 32-bit value). -/
def i32ToTwos (v : Int) : Nat := (v % (2 ^ 32 : Int)).toNat

/-- Signed reading of an unsigned 32-bit value, as in `i32::from_be_bytes`. -/
def i32FromTwos (n : Nat) : Int :=
  if n < 2 ^ 31 then (n : Int) else (n : Int) - 2 ^ 32

theorem i32FromTwos_i32ToTwos (v : Int) (hlo : -(2 ^ 31) ≤ v) (hhi : v < 2 ^ 31) :
    i32FromTwos (i32ToTwos v) = v := by
  unfold i32FromTwos i32ToTwos
  split <;> omega

theorem i32ToTwos_lt (v : Int) : i32ToTwos v < 2 ^ 32 := by
  unfold i32ToTwos
  omega

/-! ## List slicing helpers

The Rust readers take `&bytes[i..i+k]` slices; in the embedding this is
`(bytes.drop i).take k`.  The lemmas below let us evaluate such slices when the
byte string is an explicit concatenation, and relate slices of a truncated
string to slices of the original. -/

theorem slice_chunk (pre enc post : List Nat) (off k : Nat) (h : off + k ≤ enc.length) :
    (((pre ++ (enc ++ post)).drop (pre.length + off)).take k) = (enc.drop off).take k := by
  rw [List.drop_append, List.drop_append_eq_append_drop]
  rw [List.take_append_of_le_length]
  simp
  omega

theorem getD_chunk (pre enc post : List Nat) (off : Nat) (h : off < enc.length) :
    (pre ++ (enc ++ post)).getD (pre.length + off) 0 = enc.getD off 0 := by
  have h1 : (pre ++ (enc ++ post)).getD (pre.length + off) 0 = (enc ++ post).getD off 0 := by
    simp [List.getD, List.getElem?_append]
  rw [h1]
  simp [List.getD, List.getElem?_append, h]

theorem slice_take (l : List Nat) (i k p : Nat) (h : i + k ≤ p) :
    ((l.take p).drop i).take k = (l.drop i).take k := by
  rw [List.drop_take]
  rw [List.take_take]
  congr 1
  omega

theorem getD_take (l : List Nat) (i p : Nat) (h : i < p) :
    (l.take p).getD i 0 = l.getD i 0 := by
  simp [List.getD, List.getElem?_take, h]

theorem getD_cons_append (pre rest : List Nat) (b j : Nat) (hj : j = pre.length) :
    (pre ++ b :: rest).getD j 0 = b := by
  subst hj
  simp [List.getD, List.getElem?_append, List.getElem?_cons_zero]
  exact List.getElem_of_append rfl rfl

/-- `bytes[i]` with default 0 (reads in the source are always in bounds when
this is consulted). -/
def byteAt (bytes : List Nat) (i : Nat) : Nat := bytes.getD i 0

theorem byteAt_cons_append (pre rest : List Nat) (b j : Nat) (hj : j = pre.length) :
    byteAt (pre ++ b :: rest) j = b := by
  unfold byteAt
  exact getD_cons_append pre rest b j hj

theorem byteAt_take (l : List Nat) (i p : Nat) (h : i < p) :
    byteAt (l.take p) i = byteAt l i := by
  unfold byteAt
  exact getD_take l i p h

/-! ## Opcode model (`shared/fiet-maker-policy-types/src/opcodes.rs`) -/

/-- Comparison operators for numeric checks (`CompOp`). -/
inductive CompOp
  | Lt | Lte | Gt | Gte | Eq | Neq
  deriving DecidableEq, Repr

/-- Opcodes supported by the v0 check program (`Opcode`). -/
inductive Opcode
  | CheckDeadline | CheckNonce | CheckCallBundleHash
  | CheckTokenAmountLte | CheckNativeValueLte | CheckLiquidityDeltaLte
  | CheckSlot0TickBounds | CheckSlot0SqrtPriceBounds
  | CheckRfsClosed | CheckQueueLte | CheckReserveGte | CheckSettledGte
  | CheckCommitmentDeficitLte | CheckGracePeriodGte
  | CheckStaticCallU256
  deriving DecidableEq, Repr

/-- `Opcode as u8`: the fixed wire byte of each opcode. -/
def Opcode.toByte : Opcode → Nat
  | .CheckDeadline => 0x01
  | .CheckNonce => 0x02
  | .CheckCallBundleHash => 0x03
  | .CheckTokenAmountLte => 0x11
  | .CheckNativeValueLte => 0x12
  | .CheckLiquidityDeltaLte => 0x13
  | .CheckSlot0TickBounds => 0x20
  | .CheckSlot0SqrtPriceBounds => 0x21
  | .CheckRfsClosed => 0x30
  | .CheckQueueLte => 0x31
  | .CheckReserveGte => 0x32
  | .CheckSettledGte => 0x33
  | .CheckCommitmentDeficitLte => 0x34
  | .CheckGracePeriodGte => 0x35
  | .CheckStaticCallU256 => 0xF0

/-- `impl TryFrom<u8> for Opcode`. -/
def Opcode.fromByte : Nat → Option Opcode
  | 0x01 => some .CheckDeadline
  | 0x02 => some .CheckNonce
  | 0x03 => some .CheckCallBundleHash
  | 0x11 => some .CheckTokenAmountLte
  | 0x12 => some .CheckNativeValueLte
  | 0x13 => some .CheckLiquidityDeltaLte
  | 0x20 => some .CheckSlot0TickBounds
  | 0x21 => some .CheckSlot0SqrtPriceBounds
  | 0x30 => some .CheckRfsClosed
  | 0x31 => some .CheckQueueLte
  | 0x32 => some .CheckReserveGte
  | 0x33 => some .CheckSettledGte
  | 0x34 => some .CheckCommitmentDeficitLte
  | 0x35 => some .CheckGracePeriodGte
  | 0xF0 => some .CheckStaticCallU256
  | _ => none

/-- Decoded representation of a single check (`Check`).  A 20-byte `Address`
is modelled as its big-endian value (`< 2^160`), a `bytes32` / `FixedBytes<32>`
as its big-endian value (`< 2^256`), a 4-byte selector as its value
(`< 2^32`); `u64`/`u128`/`u256` operands are `Nat`, `i32` operands are `Int`,
and the dynamic `args` of `StaticCallU256` stay a raw byte list.  These fixed
byte strings are only ever copied and compared for equality in the source, so
the big-endian value is a faithful representation. -/
inductive Check
  | Deadline (deadline : Nat)
  | Nonce (expected : Nat)
  | CallBundleHash (hash : Nat)
  | TokenAmountLte (token : Nat) (max : Nat)
  | NativeValueLte (max : Nat)
  | LiquidityDeltaLte (max : Nat)
  | Slot0TickBounds (pool_id : Nat) (min max : Int)
  | Slot0SqrtPriceBounds (pool_id : Nat) (min max : Nat)
  | RfsClosed (position_id : Nat)
  | QueueLte (lcc owner : Nat) (max : Nat)
  | ReserveGte (lcc : Nat) (min : Nat)
  | SettledGte (position_id : Nat) (min_amount0 min_amount1 : Nat)
  | CommitmentDeficitLte (position_id : Nat) (max_deficit0 max_deficit1 : Nat)
  | GracePeriodGte (position_id : Nat) (min_seconds : Nat)
  | StaticCallU256 (target : Nat) (selector : Nat) (args : List Nat)
      (op : CompOp) (rhs : Nat)
  deriving DecidableEq, Repr

/-! ## Decode errors (`errors.rs`) -/

/-- Errors during program decoding (`DecodeError`). -/
inductive DecodeError
  | UnknownOpcode (b : Nat)
  | Truncated
  | TooManyChecks
  deriving DecidableEq, Repr

/-! ## Program decoder (`decoder.rs`)

The Rust decoder threads a cursor `i` by mutable reference through the
`read_*` helpers; here each reader takes the byte string and an absolute
position and returns the decoded value, and `decodeOne` advances the cursor
by the fixed operand widths (`read_vec` additionally by the dynamic `args`
length), exactly mirroring the cursor increments in the source. -/

/-- Common shape of `read_u16` / `read_u64` / `read_u128` / `read_u256` /
`read_i32` (before sign interpretation) and — under the value representation
of fixed byte strings — of `read_b32` / `read_address` / `read_selector`:
bounds-check, then big-endian read of `width` bytes at `i`. -/
def readBeNat (bytes : List Nat) (i width : Nat) : Except DecodeError Nat :=
  if i + width ≤ bytes.length then
    .ok (beBytesToNat ((bytes.drop i).take width))
  else
    .error .Truncated

/-- `read_vec`: bounds-check, then copy `len` raw bytes at `i`. -/
def readBytesAt (bytes : List Nat) (i len : Nat) : Except DecodeError (List Nat) :=
  if i + len ≤ bytes.length then
    .ok ((bytes.drop i).take len)
  else
    .error .Truncated

/-- `read_i32`: big-endian 4-byte read, interpreted as two's complement. -/
def readI32 (bytes : List Nat) (i : Nat) : Except DecodeError Int := do
  let n ← readBeNat bytes i 4
  .ok (i32FromTwos n)

/-- `read_comp_op`. -/
def readCompOp (bytes : List Nat) (i : Nat) : Except DecodeError CompOp :=
  if bytes.length ≤ i then
    .error .Truncated
  else
    match byteAt bytes i with
    | 0 => .ok .Lt
    | 1 => .ok .Lte
    | 2 => .ok .Gt
    | 3 => .ok .Gte
    | 4 => .ok .Eq
    | 5 => .ok .Neq
    | b => .error (.UnknownOpcode b)

/-- One iteration of the `decode_program_with_limit` loop body: read the
opcode byte at `i`, then the variant's operands in declared order.  Returns
the decoded check and the cursor position after it. -/
def decodeOne (bytes : List Nat) (i : Nat) : Except DecodeError (Check × Nat) :=
  if i < bytes.length then
    match Opcode.fromByte (byteAt bytes i) with
    | none => .error (.UnknownOpcode (byteAt bytes i))
    | some op =>
      match op with
      | .CheckDeadline => do
        let deadline ← readBeNat bytes (i + 1) 8
        .ok (.Deadline deadline, i + 9)
      | .CheckNonce => do
        let nonce ← readBeNat bytes (i + 1) 32
        .ok (.Nonce nonce, i + 33)
      | .CheckCallBundleHash => do
        let hash ← readBeNat bytes (i + 1) 32
        .ok (.CallBundleHash hash, i + 33)
      | .CheckTokenAmountLte => do
        let token ← readBeNat bytes (i + 1) 20
        let max ← readBeNat bytes (i + 21) 32
        .ok (.TokenAmountLte token max, i + 53)
      | .CheckNativeValueLte => do
        let max ← readBeNat bytes (i + 1) 32
        .ok (.NativeValueLte max, i + 33)
      | .CheckLiquidityDeltaLte => do
        let max ← readBeNat bytes (i + 1) 16
        .ok (.LiquidityDeltaLte max, i + 17)
      | .CheckSlot0TickBounds => do
        let pool_id ← readBeNat bytes (i + 1) 32
        let min ← readI32 bytes (i + 33)
        let max ← readI32 bytes (i + 37)
        .ok (.Slot0TickBounds pool_id min max, i + 41)
      | .CheckSlot0SqrtPriceBounds => do
        let pool_id ← readBeNat bytes (i + 1) 32
        let min ← readBeNat bytes (i + 33) 32
        let max ← readBeNat bytes (i + 65) 32
        .ok (.Slot0SqrtPriceBounds pool_id min max, i + 97)
      | .CheckRfsClosed => do
        let position_id ← readBeNat bytes (i + 1) 32
        .ok (.RfsClosed position_id, i + 33)
      | .CheckQueueLte => do
        let lcc ← readBeNat bytes (i + 1) 20
        let owner ← readBeNat bytes (i + 21) 20
        let max ← readBeNat bytes (i + 41) 32
        .ok (.QueueLte lcc owner max, i + 73)
      | .CheckReserveGte => do
        let lcc ← readBeNat bytes (i + 1) 20
        let min ← readBeNat bytes (i + 21) 32
        .ok (.ReserveGte lcc min, i + 53)
      | .CheckSettledGte => do
        let position_id ← readBeNat bytes (i + 1) 32
        let min_amount0 ← readBeNat bytes (i + 33) 32
        let min_amount1 ← readBeNat bytes (i + 65) 32
        .ok (.SettledGte position_id min_amount0 min_amount1, i + 97)
      | .CheckCommitmentDeficitLte => do
        let position_id ← readBeNat bytes (i + 1) 32
        let max_deficit0 ← readBeNat bytes (i + 33) 32
        let max_deficit1 ← readBeNat bytes (i + 65) 32
        .ok (.CommitmentDeficitLte position_id max_deficit0 max_deficit1, i + 97)
      | .CheckGracePeriodGte => do
        let position_id ← readBeNat bytes (i + 1) 32
        let min_seconds ← readBeNat bytes (i + 33) 8
        .ok (.GracePeriodGte position_id min_seconds, i + 41)
      | .CheckStaticCallU256 => do
        let target ← readBeNat bytes (i + 1) 20
        let selector ← readBeNat bytes (i + 21) 4
        let args_len ← readBeNat bytes (i + 25) 2
        let args ← readBytesAt bytes (i + 27) args_len
        let op ← readCompOp bytes (i + 27 + args_len)
        let rhs ← readBeNat bytes (i + 28 + args_len) 32
        .ok (.StaticCallU256 target selector args op rhs, i + 60 + args_len)
  else
    .error .Truncated

/-- Inversion for a successful `Except` bind. -/
theorem bind_ok {ε α β : Type} {x : Except ε α} {f : α → Except ε β} {y : β}
    (h : (x >>= f) = .ok y) : ∃ a, x = .ok a ∧ f a = .ok y := by
  cases x <;> simp_all [bind, Except.bind]

/-- A successfully decoded check strictly advances the cursor. -/
theorem decodeOne_lt {bytes : List Nat} {i : Nat} {c : Check} {j : Nat}
    (h : decodeOne bytes i = .ok (c, j)) : i < j := by
  unfold decodeOne at h
  split at h
  case isFalse => exact absurd h (by simp)
  split at h
  case h_1 => exact absurd h (by simp)
  case h_2 op hop =>
    cases op <;>
      ((repeat (obtain ⟨_, _, h⟩ := bind_ok h)) <;> simp at h <;> omega)

/-- The `while i < bytes.len()` loop of `decode_program_with_limit`:
check the `max_checks` bound, decode one check, push it, continue at the new
cursor.  Terminates because `decodeOne` strictly advances the cursor. -/
def decodeLoop (bytes : List Nat) (i : Nat) (checks : List Check) (maxChecks : Nat) :
    Except DecodeError (List Check) :=
  if i < bytes.length then
    if checks.length ≥ maxChecks then
      .error .TooManyChecks
    else
      match hdec : decodeOne bytes i with
      | .error e => .error e
      | .ok (c, i2) => decodeLoop bytes i2 (checks ++ [c]) maxChecks
  else
    .ok checks
termination_by bytes.length - i
decreasing_by
  have := decodeOne_lt hdec
  omega

/-- `decode_program_with_limit`. -/
def decode_program_with_limit (bytes : List Nat) (maxChecks : Nat) :
    Except DecodeError (List Check) :=
  decodeLoop bytes 0 [] maxChecks

/-- `MAX_CHECKS_DEFAULT`. -/
def MAX_CHECKS_DEFAULT : Nat := 64

/-- `decode_program`. -/
def decode_program (bytes : List Nat) : Except DecodeError (List Check) :=
  decode_program_with_limit bytes MAX_CHECKS_DEFAULT

/-! ## Off-chain program encoder
(`tools/fiet-maker-policy-encoder/src/encoder.rs`) -/

/-- `comp_op_to_u8`. -/
def comp_op_to_u8 : CompOp → Nat
  | .Lt => 0
  | .Lte => 1
  | .Gt => 2
  | .Gte => 3
  | .Eq => 4
  | .Neq => 5

/-- The bytes `encode_program` appends for one check: the opcode byte followed
by the operands in declared order. -/
def encodeCheck : Check → List Nat
  | .Deadline deadline =>
    Opcode.toByte .CheckDeadline :: natToBeBytes 8 deadline
  | .Nonce expected =>
    Opcode.toByte .CheckNonce :: natToBeBytes 32 expected
  | .CallBundleHash hash =>
    Opcode.toByte .CheckCallBundleHash :: natToBeBytes 32 hash
  | .TokenAmountLte token max =>
    Opcode.toByte .CheckTokenAmountLte :: (natToBeBytes 20 token ++ natToBeBytes 32 max)
  | .NativeValueLte max =>
    Opcode.toByte .CheckNativeValueLte :: natToBeBytes 32 max
  | .LiquidityDeltaLte max =>
    Opcode.toByte .CheckLiquidityDeltaLte :: natToBeBytes 16 max
  | .Slot0TickBounds pool_id min max =>
    Opcode.toByte .CheckSlot0TickBounds ::
      (natToBeBytes 32 pool_id ++ natToBeBytes 4 (i32ToTwos min) ++
        natToBeBytes 4 (i32ToTwos max))
  | .Slot0SqrtPriceBounds pool_id min max =>
    Opcode.toByte .CheckSlot0SqrtPriceBounds ::
      (natToBeBytes 32 pool_id ++ natToBeBytes 32 min ++ natToBeBytes 32 max)
  | .RfsClosed position_id =>
    Opcode.toByte .CheckRfsClosed :: natToBeBytes 32 position_id
  | .QueueLte lcc owner max =>
    Opcode.toByte .CheckQueueLte ::
      (natToBeBytes 20 lcc ++ natToBeBytes 20 owner ++ natToBeBytes 32 max)
  | .ReserveGte lcc min =>
    Opcode.toByte .CheckReserveGte :: (natToBeBytes 20 lcc ++ natToBeBytes 32 min)
  | .SettledGte position_id min_amount0 min_amount1 =>
    Opcode.toByte .CheckSettledGte ::
      (natToBeBytes 32 position_id ++ natToBeBytes 32 min_amount0 ++
        natToBeBytes 32 min_amount1)
  | .CommitmentDeficitLte position_id max_deficit0 max_deficit1 =>
    Opcode.toByte .CheckCommitmentDeficitLte ::
      (natToBeBytes 32 position_id ++ natToBeBytes 32 max_deficit0 ++
        natToBeBytes 32 max_deficit1)
  | .GracePeriodGte position_id min_seconds =>
    Opcode.toByte .CheckGracePeriodGte ::
      (natToBeBytes 32 position_id ++ natToBeBytes 8 min_seconds)
  | .StaticCallU256 target selector args op rhs =>
    Opcode.toByte .CheckStaticCallU256 ::
      (natToBeBytes 20 target ++ natToBeBytes 4 selector ++
        natToBeBytes 2 args.length ++ args ++
        (comp_op_to_u8 op :: natToBeBytes 32 rhs))

/-- `encode_program`: concatenation of the per-check encodings, in order. -/
def encode_program (checks : List Check) : List Nat :=
  (checks.map encodeCheck).flatten

/-- Type-level invariants a `Check` value carries for free in Rust
(value ranges of `u64`/`u128`/`u256`/`i32`, 20-byte addresses, 32-byte ids,
4-byte selectors) plus the `args.len() as u16` cast soundness bound for
`StaticCallU256`. -/
def Check.WF : Check → Prop
  | .Deadline deadline => deadline < 2 ^ 64
  | .Nonce expected => expected < 2 ^ 256
  | .CallBundleHash hash => hash < 2 ^ 256
  | .TokenAmountLte token max => token < 2 ^ 160 ∧ max < 2 ^ 256
  | .NativeValueLte max => max < 2 ^ 256
  | .LiquidityDeltaLte max => max < 2 ^ 128
  | .Slot0TickBounds pool_id min max =>
    pool_id < 2 ^ 256 ∧ -(2 ^ 31) ≤ min ∧ min < 2 ^ 31 ∧ -(2 ^ 31) ≤ max ∧ max < 2 ^ 31
  | .Slot0SqrtPriceBounds pool_id min max =>
    pool_id < 2 ^ 256 ∧ min < 2 ^ 256 ∧ max < 2 ^ 256
  | .RfsClosed position_id => position_id < 2 ^ 256
  | .QueueLte lcc owner max => lcc < 2 ^ 160 ∧ owner < 2 ^ 160 ∧ max < 2 ^ 256
  | .ReserveGte lcc min => lcc < 2 ^ 160 ∧ min < 2 ^ 256
  | .SettledGte position_id min_amount0 min_amount1 =>
    position_id < 2 ^ 256 ∧ min_amount0 < 2 ^ 256 ∧ min_amount1 < 2 ^ 256
  | .CommitmentDeficitLte position_id max_deficit0 max_deficit1 =>
    position_id < 2 ^ 256 ∧ max_deficit0 < 2 ^ 256 ∧ max_deficit1 < 2 ^ 256
  | .GracePeriodGte position_id min_seconds =>
    position_id < 2 ^ 256 ∧ min_seconds < 2 ^ 64
  | .StaticCallU256 target selector args _op rhs =>
    target < 2 ^ 160 ∧ selector < 2 ^ 32 ∧ args.length < 2 ^ 16 ∧ rhs < 2 ^ 256

instance : DecidablePred Check.WF := by
  intro c
  cases c <;> (unfold Check.WF) <;> infer_instance

/-! ## Round-trip helper lemmas: reading back an encoded chunk -/


theorem slice_exact (pre l post : List Nat) (w : Nat) (hw : l.length = w) :
    ((pre ++ (l ++ post)).drop pre.length).take w = l := by
  rw [List.drop_append_eq_append_drop]
  simp [hw]

theorem readBeNat_append (pre post : List Nat) (w v j : Nat)
    (hj : j = pre.length) (hv : v < 256 ^ w) :
    readBeNat (pre ++ (natToBeBytes w v ++ post)) j w = .ok v := by
  subst hj
  unfold readBeNat
  rw [if_pos (by simp [natToBeBytes_length])]
  rw [slice_exact pre _ post w (natToBeBytes_length w v)]
  rw [beBytesToNat_natToBeBytes w v hv]

theorem readBytesAt_append (pre args post : List Nat) (j len : Nat)
    (hj : j = pre.length) (hlen : len = args.length) :
    readBytesAt (pre ++ (args ++ post)) j len = .ok args := by
  subst hj; subst hlen
  unfold readBytesAt
  rw [if_pos (by simp)]
  rw [slice_exact pre args post args.length rfl]

theorem readI32_append (pre post : List Nat) (v : Int) (j : Nat)
    (hj : j = pre.length) (hlo : -(2 ^ 31) ≤ v) (hhi : v < 2 ^ 31) :
    readI32 (pre ++ (natToBeBytes 4 (i32ToTwos v) ++ post)) j = .ok v := by
  unfold readI32
  rw [readBeNat_append pre post 4 (i32ToTwos v) j hj (i32ToTwos_lt v)]
  show Except.ok (i32FromTwos (i32ToTwos v)) = _
  rw [i32FromTwos_i32ToTwos v hlo hhi]

theorem readCompOp_append (pre post : List Nat) (op : CompOp) (j : Nat)
    (hj : j = pre.length) :
    readCompOp (pre ++ (comp_op_to_u8 op :: post)) j = .ok op := by
  subst hj
  unfold readCompOp
  rw [if_neg (by simp)]
  rw [byteAt_cons_append pre post (comp_op_to_u8 op) pre.length rfl]
  cases op <;> rfl

/-- Decoding at the start of an encoded well-formed check yields that check
back and leaves the cursor at the end of its encoding. -/
theorem decodeOne_encodeCheck (c : Check) (hwf : c.WF) (pre post : List Nat) :
    decodeOne (pre ++ (encodeCheck c ++ post)) pre.length
      = .ok (c, pre.length + (encodeCheck c).length) := by
  cases c with
  | Deadline d =>
    have h1 := hwf
    unfold decodeOne
    rw [if_pos (by simp [encodeCheck, natToBeBytes_length]; try omega)]
    rw [show byteAt (pre ++ (encodeCheck (.Deadline d) ++ post)) pre.length
          = Opcode.toByte .CheckDeadline from byteAt_cons_append pre _ _ _ rfl]
    have e1 : readBeNat (pre ++ (encodeCheck (.Deadline d) ++ post)) (pre.length + 1) 8 = .ok (d) := by
      rw [show pre ++ (encodeCheck (.Deadline d) ++ post)
            = (pre ++ [Opcode.toByte .CheckDeadline]) ++ (natToBeBytes 8 d ++ (post)) from by
          simp [encodeCheck]]
      exact readBeNat_append _ _ _ _ _ (by simp [natToBeBytes_length]; try omega)
        (lt_of_lt_of_le h1 (by norm_num))
    simp only [Opcode.fromByte, Opcode.toByte, e1, bind, Except.bind]
    simp [encodeCheck, natToBeBytes_length]
    try omega
  | Nonce v =>
    have h1 := hwf
    unfold decodeOne
    rw [if_pos (by simp [encodeCheck, natToBeBytes_length]; try omega)]
    rw [show byteAt (pre ++ (encodeCheck (.Nonce v) ++ post)) pre.length
          = Opcode.toByte .CheckNonce from byteAt_cons_append pre _ _ _ rfl]
    have e1 : readBeNat (pre ++ (encodeCheck (.Nonce v) ++ post)) (pre.length + 1) 32 = .ok (v) := by
      rw [show pre ++ (encodeCheck (.Nonce v) ++ post)
            = (pre ++ [Opcode.toByte .CheckNonce]) ++ (natToBeBytes 32 v ++ (post)) from by
          simp [encodeCheck]]
      exact readBeNat_append _ _ _ _ _ (by simp [natToBeBytes_length]; try omega)
        (lt_of_lt_of_le h1 (by norm_num))
    simp only [Opcode.fromByte, Opcode.toByte, e1, bind, Except.bind]
    simp [encodeCheck, natToBeBytes_length]
    try omega
  | CallBundleHash h =>
    have h1 := hwf
    unfold decodeOne
    rw [if_pos (by simp [encodeCheck, natToBeBytes_length]; try omega)]
    rw [show byteAt (pre ++ (encodeCheck (.CallBundleHash h) ++ post)) pre.length
          = Opcode.toByte .CheckCallBundleHash from byteAt_cons_append pre _ _ _ rfl]
    have e1 : readBeNat (pre ++ (encodeCheck (.CallBundleHash h) ++ post)) (pre.length + 1) 32 = .ok (h) := by
      rw [show pre ++ (encodeCheck (.CallBundleHash h) ++ post)
            = (pre ++ [Opcode.toByte .CheckCallBundleHash]) ++ (natToBeBytes 32 h ++ (post)) from by
          simp [encodeCheck]]
      exact readBeNat_append _ _ _ _ _ (by simp [natToBeBytes_length]; try omega)
        (lt_of_lt_of_le h1 (by norm_num))
    simp only [Opcode.fromByte, Opcode.toByte, e1, bind, Except.bind]
    simp [encodeCheck, natToBeBytes_length]
    try omega
  | TokenAmountLte t m =>
    obtain ⟨h1, h2⟩ := hwf
    unfold decodeOne
    rw [if_pos (by simp [encodeCheck, natToBeBytes_length]; try omega)]
    rw [show byteAt (pre ++ (encodeCheck (.TokenAmountLte t m) ++ post)) pre.length
          = Opcode.toByte .CheckTokenAmountLte from byteAt_cons_append pre _ _ _ rfl]
    have e1 : readBeNat (pre ++ (encodeCheck (.TokenAmountLte t m) ++ post)) (pre.length + 1) 20 = .ok (t) := by
      rw [show pre ++ (encodeCheck (.TokenAmountLte t m) ++ post)
            = (pre ++ [Opcode.toByte .CheckTokenAmountLte]) ++ (natToBeBytes 20 t ++ (natToBeBytes 32 m ++ post)) from by
          simp [encodeCheck]]
      exact readBeNat_append _ _ _ _ _ (by simp [natToBeBytes_length]; try omega)
        (lt_of_lt_of_le h1 (by norm_num))
    have e2 : readBeNat (pre ++ (encodeCheck (.TokenAmountLte t m) ++ post)) (pre.length + 21) 32 = .ok (m) := by
      rw [show pre ++ (encodeCheck (.TokenAmountLte t m) ++ post)
            = (pre ++ [Opcode.toByte .CheckTokenAmountLte] ++ natToBeBytes 20 t) ++ (natToBeBytes 32 m ++ (post)) from by
          simp [encodeCheck]]
      exact readBeNat_append _ _ _ _ _ (by simp [natToBeBytes_length]; try omega)
        (lt_of_lt_of_le h2 (by norm_num))
    simp only [Opcode.fromByte, Opcode.toByte, e1, e2, bind, Except.bind]
    simp [encodeCheck, natToBeBytes_length]
    try omega
  | NativeValueLte m =>
    have h1 := hwf
    unfold decodeOne
    rw [if_pos (by simp [encodeCheck, natToBeBytes_length]; try omega)]
    rw [show byteAt (pre ++ (encodeCheck (.NativeValueLte m) ++ post)) pre.length
          = Opcode.toByte .CheckNativeValueLte from byteAt_cons_append pre _ _ _ rfl]
    have e1 : readBeNat (pre ++ (encodeCheck (.NativeValueLte m) ++ post)) (pre.length + 1) 32 = .ok (m) := by
      rw [show pre ++ (encodeCheck (.NativeValueLte m) ++ post)
            = (pre ++ [Opcode.toByte .CheckNativeValueLte]) ++ (natToBeBytes 32 m ++ (post)) from by
          simp [encodeCheck]]
      exact readBeNat_append _ _ _ _ _ (by simp [natToBeBytes_length]; try omega)
        (lt_of_lt_of_le h1 (by norm_num))
    simp only [Opcode.fromByte, Opcode.toByte, e1, bind, Except.bind]
    simp [encodeCheck, natToBeBytes_length]
    try omega
  | LiquidityDeltaLte m =>
    have h1 := hwf
    unfold decodeOne
    rw [if_pos (by simp [encodeCheck, natToBeBytes_length]; try omega)]
    rw [show byteAt (pre ++ (encodeCheck (.LiquidityDeltaLte m) ++ post)) pre.length
          = Opcode.toByte .CheckLiquidityDeltaLte from byteAt_cons_append pre _ _ _ rfl]
    have e1 : readBeNat (pre ++ (encodeCheck (.LiquidityDeltaLte m) ++ post)) (pre.length + 1) 16 = .ok (m) := by
      rw [show pre ++ (encodeCheck (.LiquidityDeltaLte m) ++ post)
            = (pre ++ [Opcode.toByte .CheckLiquidityDeltaLte]) ++ (natToBeBytes 16 m ++ (post)) from by
          simp [encodeCheck]]
      exact readBeNat_append _ _ _ _ _ (by simp [natToBeBytes_length]; try omega)
        (lt_of_lt_of_le h1 (by norm_num))
    simp only [Opcode.fromByte, Opcode.toByte, e1, bind, Except.bind]
    simp [encodeCheck, natToBeBytes_length]
    try omega
  | Slot0TickBounds p mn mx =>
    obtain ⟨h1, h2, h3, h4, h5⟩ := hwf
    unfold decodeOne
    rw [if_pos (by simp [encodeCheck, natToBeBytes_length]; try omega)]
    rw [show byteAt (pre ++ (encodeCheck (.Slot0TickBounds p mn mx) ++ post)) pre.length
          = Opcode.toByte .CheckSlot0TickBounds from byteAt_cons_append pre _ _ _ rfl]
    have e1 : readBeNat (pre ++ (encodeCheck (.Slot0TickBounds p mn mx) ++ post)) (pre.length + 1) 32 = .ok (p) := by
      rw [show pre ++ (encodeCheck (.Slot0TickBounds p mn mx) ++ post)
            = (pre ++ [Opcode.toByte .CheckSlot0TickBounds]) ++ (natToBeBytes 32 p ++ (natToBeBytes 4 (i32ToTwos mn) ++ natToBeBytes 4 (i32ToTwos mx) ++ post)) from by
          simp [encodeCheck]]
      exact readBeNat_append _ _ _ _ _ (by simp [natToBeBytes_length]; try omega)
        (lt_of_lt_of_le h1 (by norm_num))
    have e2 : readI32 (pre ++ (encodeCheck (.Slot0TickBounds p mn mx) ++ post)) (pre.length + 33) = .ok (mn) := by
      rw [show pre ++ (encodeCheck (.Slot0TickBounds p mn mx) ++ post)
            = (pre ++ [Opcode.toByte .CheckSlot0TickBounds] ++ natToBeBytes 32 p) ++ (natToBeBytes 4 (i32ToTwos mn) ++ (natToBeBytes 4 (i32ToTwos mx) ++ post)) from by
          simp [encodeCheck]]
      exact readI32_append _ _ _ _ (by simp [natToBeBytes_length]; try omega) h2 h3
    have e3 : readI32 (pre ++ (encodeCheck (.Slot0TickBounds p mn mx) ++ post)) (pre.length + 37) = .ok (mx) := by
      rw [show pre ++ (encodeCheck (.Slot0TickBounds p mn mx) ++ post)
            = (pre ++ [Opcode.toByte .CheckSlot0TickBounds] ++ natToBeBytes 32 p ++ natToBeBytes 4 (i32ToTwos mn)) ++ (natToBeBytes 4 (i32ToTwos mx) ++ (post)) from by
          simp [encodeCheck]]
      exact readI32_append _ _ _ _ (by simp [natToBeBytes_length]; try omega) h4 h5
    simp only [Opcode.fromByte, Opcode.toByte, e1, e2, e3, bind, Except.bind]
    simp [encodeCheck, natToBeBytes_length]
    try omega
  | Slot0SqrtPriceBounds p mn mx =>
    obtain ⟨h1, h2, h3⟩ := hwf
    unfold decodeOne
    rw [if_pos (by simp [encodeCheck, natToBeBytes_length]; try omega)]
    rw [show byteAt (pre ++ (encodeCheck (.Slot0SqrtPriceBounds p mn mx) ++ post)) pre.length
          = Opcode.toByte .CheckSlot0SqrtPriceBounds from byteAt_cons_append pre _ _ _ rfl]
    have e1 : readBeNat (pre ++ (encodeCheck (.Slot0SqrtPriceBounds p mn mx) ++ post)) (pre.length + 1) 32 = .ok (p) := by
      rw [show pre ++ (encodeCheck (.Slot0SqrtPriceBounds p mn mx) ++ post)
            = (pre ++ [Opcode.toByte .CheckSlot0SqrtPriceBounds]) ++ (natToBeBytes 32 p ++ (natToBeBytes 32 mn ++ natToBeBytes 32 mx ++ post)) from by
          simp [encodeCheck]]
      exact readBeNat_append _ _ _ _ _ (by simp [natToBeBytes_length]; try omega)
        (lt_of_lt_of_le h1 (by norm_num))
    have e2 : readBeNat (pre ++ (encodeCheck (.Slot0SqrtPriceBounds p mn mx) ++ post)) (pre.length + 33) 32 = .ok (mn) := by
      rw [show pre ++ (encodeCheck (.Slot0SqrtPriceBounds p mn mx) ++ post)
            = (pre ++ [Opcode.toByte .CheckSlot0SqrtPriceBounds] ++ natToBeBytes 32 p) ++ (natToBeBytes 32 mn ++ (natToBeBytes 32 mx ++ post)) from by
          simp [encodeCheck]]
      exact readBeNat_append _ _ _ _ _ (by simp [natToBeBytes_length]; try omega)
        (lt_of_lt_of_le h2 (by norm_num))
    have e3 : readBeNat (pre ++ (encodeCheck (.Slot0SqrtPriceBounds p mn mx) ++ post)) (pre.length + 65) 32 = .ok (mx) := by
      rw [show pre ++ (encodeCheck (.Slot0SqrtPriceBounds p mn mx) ++ post)
            = (pre ++ [Opcode.toByte .CheckSlot0SqrtPriceBounds] ++ natToBeBytes 32 p ++ natToBeBytes 32 mn) ++ (natToBeBytes 32 mx ++ (post)) from by
          simp [encodeCheck]]
      exact readBeNat_append _ _ _ _ _ (by simp [natToBeBytes_length]; try omega)
        (lt_of_lt_of_le h3 (by norm_num))
    simp only [Opcode.fromByte, Opcode.toByte, e1, e2, e3, bind, Except.bind]
    simp [encodeCheck, natToBeBytes_length]
    try omega
  | RfsClosed p =>
    have h1 := hwf
    unfold decodeOne
    rw [if_pos (by simp [encodeCheck, natToBeBytes_length]; try omega)]
    rw [show byteAt (pre ++ (encodeCheck (.RfsClosed p) ++ post)) pre.length
          = Opcode.toByte .CheckRfsClosed from byteAt_cons_append pre _ _ _ rfl]
    have e1 : readBeNat (pre ++ (encodeCheck (.RfsClosed p) ++ post)) (pre.length + 1) 32 = .ok (p) := by
      rw [show pre ++ (encodeCheck (.RfsClosed p) ++ post)
            = (pre ++ [Opcode.toByte .CheckRfsClosed]) ++ (natToBeBytes 32 p ++ (post)) from by
          simp [encodeCheck]]
      exact readBeNat_append _ _ _ _ _ (by simp [natToBeBytes_length]; try omega)
        (lt_of_lt_of_le h1 (by norm_num))
    simp only [Opcode.fromByte, Opcode.toByte, e1, bind, Except.bind]
    simp [encodeCheck, natToBeBytes_length]
    try omega
  | QueueLte l o m =>
    obtain ⟨h1, h2, h3⟩ := hwf
    unfold decodeOne
    rw [if_pos (by simp [encodeCheck, natToBeBytes_length]; try omega)]
    rw [show byteAt (pre ++ (encodeCheck (.QueueLte l o m) ++ post)) pre.length
          = Opcode.toByte .CheckQueueLte from byteAt_cons_append pre _ _ _ rfl]
    have e1 : readBeNat (pre ++ (encodeCheck (.QueueLte l o m) ++ post)) (pre.length + 1) 20 = .ok (l) := by
      rw [show pre ++ (encodeCheck (.QueueLte l o m) ++ post)
            = (pre ++ [Opcode.toByte .CheckQueueLte]) ++ (natToBeBytes 20 l ++ (natToBeBytes 20 o ++ natToBeBytes 32 m ++ post)) from by
          simp [encodeCheck]]
      exact readBeNat_append _ _ _ _ _ (by simp [natToBeBytes_length]; try omega)
        (lt_of_lt_of_le h1 (by norm_num))
    have e2 : readBeNat (pre ++ (encodeCheck (.QueueLte l o m) ++ post)) (pre.length + 21) 20 = .ok (o) := by
      rw [show pre ++ (encodeCheck (.QueueLte l o m) ++ post)
            = (pre ++ [Opcode.toByte .CheckQueueLte] ++ natToBeBytes 20 l) ++ (natToBeBytes 20 o ++ (natToBeBytes 32 m ++ post)) from by
          simp [encodeCheck]]
      exact readBeNat_append _ _ _ _ _ (by simp [natToBeBytes_length]; try omega)
        (lt_of_lt_of_le h2 (by norm_num))
    have e3 : readBeNat (pre ++ (encodeCheck (.QueueLte l o m) ++ post)) (pre.length + 41) 32 = .ok (m) := by
      rw [show pre ++ (encodeCheck (.QueueLte l o m) ++ post)
            = (pre ++ [Opcode.toByte .CheckQueueLte] ++ natToBeBytes 20 l ++ natToBeBytes 20 o) ++ (natToBeBytes 32 m ++ (post)) from by
          simp [encodeCheck]]
      exact readBeNat_append _ _ _ _ _ (by simp [natToBeBytes_length]; try omega)
        (lt_of_lt_of_le h3 (by norm_num))
    simp only [Opcode.fromByte, Opcode.toByte, e1, e2, e3, bind, Except.bind]
    simp [encodeCheck, natToBeBytes_length]
    try omega
  | ReserveGte l m =>
    obtain ⟨h1, h2⟩ := hwf
    unfold decodeOne
    rw [if_pos (by simp [encodeCheck, natToBeBytes_length]; try omega)]
    rw [show byteAt (pre ++ (encodeCheck (.ReserveGte l m) ++ post)) pre.length
          = Opcode.toByte .CheckReserveGte from byteAt_cons_append pre _ _ _ rfl]
    have e1 : readBeNat (pre ++ (encodeCheck (.ReserveGte l m) ++ post)) (pre.length + 1) 20 = .ok (l) := by
      rw [show pre ++ (encodeCheck (.ReserveGte l m) ++ post)
            = (pre ++ [Opcode.toByte .CheckReserveGte]) ++ (natToBeBytes 20 l ++ (natToBeBytes 32 m ++ post)) from by
          simp [encodeCheck]]
      exact readBeNat_append _ _ _ _ _ (by simp [natToBeBytes_length]; try omega)
        (lt_of_lt_of_le h1 (by norm_num))
    have e2 : readBeNat (pre ++ (encodeCheck (.ReserveGte l m) ++ post)) (pre.length + 21) 32 = .ok (m) := by
      rw [show pre ++ (encodeCheck (.ReserveGte l m) ++ post)
            = (pre ++ [Opcode.toByte .CheckReserveGte] ++ natToBeBytes 20 l) ++ (natToBeBytes 32 m ++ (post)) from by
          simp [encodeCheck]]
      exact readBeNat_append _ _ _ _ _ (by simp [natToBeBytes_length]; try omega)
        (lt_of_lt_of_le h2 (by norm_num))
    simp only [Opcode.fromByte, Opcode.toByte, e1, e2, bind, Except.bind]
    simp [encodeCheck, natToBeBytes_length]
    try omega
  | SettledGte p a0 a1 =>
    obtain ⟨h1, h2, h3⟩ := hwf
    unfold decodeOne
    rw [if_pos (by simp [encodeCheck, natToBeBytes_length]; try omega)]
    rw [show byteAt (pre ++ (encodeCheck (.SettledGte p a0 a1) ++ post)) pre.length
          = Opcode.toByte .CheckSettledGte from byteAt_cons_append pre _ _ _ rfl]
    have e1 : readBeNat (pre ++ (encodeCheck (.SettledGte p a0 a1) ++ post)) (pre.length + 1) 32 = .ok (p) := by
      rw [show pre ++ (encodeCheck (.SettledGte p a0 a1) ++ post)
            = (pre ++ [Opcode.toByte .CheckSettledGte]) ++ (natToBeBytes 32 p ++ (natToBeBytes 32 a0 ++ natToBeBytes 32 a1 ++ post)) from by
          simp [encodeCheck]]
      exact readBeNat_append _ _ _ _ _ (by simp [natToBeBytes_length]; try omega)
        (lt_of_lt_of_le h1 (by norm_num))
    have e2 : readBeNat (pre ++ (encodeCheck (.SettledGte p a0 a1) ++ post)) (pre.length + 33) 32 = .ok (a0) := by
      rw [show pre ++ (encodeCheck (.SettledGte p a0 a1) ++ post)
            = (pre ++ [Opcode.toByte .CheckSettledGte] ++ natToBeBytes 32 p) ++ (natToBeBytes 32 a0 ++ (natToBeBytes 32 a1 ++ post)) from by
          simp [encodeCheck]]
      exact readBeNat_append _ _ _ _ _ (by simp [natToBeBytes_length]; try omega)
        (lt_of_lt_of_le h2 (by norm_num))
    have e3 : readBeNat (pre ++ (encodeCheck (.SettledGte p a0 a1) ++ post)) (pre.length + 65) 32 = .ok (a1) := by
      rw [show pre ++ (encodeCheck (.SettledGte p a0 a1) ++ post)
            = (pre ++ [Opcode.toByte .CheckSettledGte] ++ natToBeBytes 32 p ++ natToBeBytes 32 a0) ++ (natToBeBytes 32 a1 ++ (post)) from by
          simp [encodeCheck]]
      exact readBeNat_append _ _ _ _ _ (by simp [natToBeBytes_length]; try omega)
        (lt_of_lt_of_le h3 (by norm_num))
    simp only [Opcode.fromByte, Opcode.toByte, e1, e2, e3, bind, Except.bind]
    simp [encodeCheck, natToBeBytes_length]
    try omega
  | CommitmentDeficitLte p d0 d1 =>
    obtain ⟨h1, h2, h3⟩ := hwf
    unfold decodeOne
    rw [if_pos (by simp [encodeCheck, natToBeBytes_length]; try omega)]
    rw [show byteAt (pre ++ (encodeCheck (.CommitmentDeficitLte p d0 d1) ++ post)) pre.length
          = Opcode.toByte .CheckCommitmentDeficitLte from byteAt_cons_append pre _ _ _ rfl]
    have e1 : readBeNat (pre ++ (encodeCheck (.CommitmentDeficitLte p d0 d1) ++ post)) (pre.length + 1) 32 = .ok (p) := by
      rw [show pre ++ (encodeCheck (.CommitmentDeficitLte p d0 d1) ++ post)
            = (pre ++ [Opcode.toByte .CheckCommitmentDeficitLte]) ++ (natToBeBytes 32 p ++ (natToBeBytes 32 d0 ++ natToBeBytes 32 d1 ++ post)) from by
          simp [encodeCheck]]
      exact readBeNat_append _ _ _ _ _ (by simp [natToBeBytes_length]; try omega)
        (lt_of_lt_of_le h1 (by norm_num))
    have e2 : readBeNat (pre ++ (encodeCheck (.CommitmentDeficitLte p d0 d1) ++ post)) (pre.length + 33) 32 = .ok (d0) := by
      rw [show pre ++ (encodeCheck (.CommitmentDeficitLte p d0 d1) ++ post)
            = (pre ++ [Opcode.toByte .CheckCommitmentDeficitLte] ++ natToBeBytes 32 p) ++ (natToBeBytes 32 d0 ++ (natToBeBytes 32 d1 ++ post)) from by
          simp [encodeCheck]]
      exact readBeNat_append _ _ _ _ _ (by simp [natToBeBytes_length]; try omega)
        (lt_of_lt_of_le h2 (by norm_num))
    have e3 : readBeNat (pre ++ (encodeCheck (.CommitmentDeficitLte p d0 d1) ++ post)) (pre.length + 65) 32 = .ok (d1) := by
      rw [show pre ++ (encodeCheck (.CommitmentDeficitLte p d0 d1) ++ post)
            = (pre ++ [Opcode.toByte .CheckCommitmentDeficitLte] ++ natToBeBytes 32 p ++ natToBeBytes 32 d0) ++ (natToBeBytes 32 d1 ++ (post)) from by
          simp [encodeCheck]]
      exact readBeNat_append _ _ _ _ _ (by simp [natToBeBytes_length]; try omega)
        (lt_of_lt_of_le h3 (by norm_num))
    simp only [Opcode.fromByte, Opcode.toByte, e1, e2, e3, bind, Except.bind]
    simp [encodeCheck, natToBeBytes_length]
    try omega
  | GracePeriodGte p m =>
    obtain ⟨h1, h2⟩ := hwf
    unfold decodeOne
    rw [if_pos (by simp [encodeCheck, natToBeBytes_length]; try omega)]
    rw [show byteAt (pre ++ (encodeCheck (.GracePeriodGte p m) ++ post)) pre.length
          = Opcode.toByte .CheckGracePeriodGte from byteAt_cons_append pre _ _ _ rfl]
    have e1 : readBeNat (pre ++ (encodeCheck (.GracePeriodGte p m) ++ post)) (pre.length + 1) 32 = .ok (p) := by
      rw [show pre ++ (encodeCheck (.GracePeriodGte p m) ++ post)
            = (pre ++ [Opcode.toByte .CheckGracePeriodGte]) ++ (natToBeBytes 32 p ++ (natToBeBytes 8 m ++ post)) from by
          simp [encodeCheck]]
      exact readBeNat_append _ _ _ _ _ (by simp [natToBeBytes_length]; try omega)
        (lt_of_lt_of_le h1 (by norm_num))
    have e2 : readBeNat (pre ++ (encodeCheck (.GracePeriodGte p m) ++ post)) (pre.length + 33) 8 = .ok (m) := by
      rw [show pre ++ (encodeCheck (.GracePeriodGte p m) ++ post)
            = (pre ++ [Opcode.toByte .CheckGracePeriodGte] ++ natToBeBytes 32 p) ++ (natToBeBytes 8 m ++ (post)) from by
          simp [encodeCheck]]
      exact readBeNat_append _ _ _ _ _ (by simp [natToBeBytes_length]; try omega)
        (lt_of_lt_of_le h2 (by norm_num))
    simp only [Opcode.fromByte, Opcode.toByte, e1, e2, bind, Except.bind]
    simp [encodeCheck, natToBeBytes_length]
    try omega
  | StaticCallU256 t s args op r =>
    obtain ⟨h1, h2, h3, h4⟩ := hwf
    unfold decodeOne
    rw [if_pos (by simp [encodeCheck, natToBeBytes_length]; try omega)]
    rw [show byteAt (pre ++ (encodeCheck (.StaticCallU256 t s args op r) ++ post)) pre.length
          = Opcode.toByte .CheckStaticCallU256 from byteAt_cons_append pre _ _ _ rfl]
    have e1 : readBeNat (pre ++ (encodeCheck (.StaticCallU256 t s args op r) ++ post)) (pre.length + 1) 20 = .ok (t) := by
      rw [show pre ++ (encodeCheck (.StaticCallU256 t s args op r) ++ post)
            = (pre ++ [Opcode.toByte .CheckStaticCallU256]) ++ (natToBeBytes 20 t ++ (natToBeBytes 4 s ++ natToBeBytes 2 (args.length) ++ args ++ (comp_op_to_u8 op :: natToBeBytes 32 r) ++ post)) from by
          simp [encodeCheck]]
      exact readBeNat_append _ _ _ _ _ (by simp [natToBeBytes_length]; try omega)
        (lt_of_lt_of_le h1 (by norm_num))
    have e2 : readBeNat (pre ++ (encodeCheck (.StaticCallU256 t s args op r) ++ post)) (pre.length + 21) 4 = .ok (s) := by
      rw [show pre ++ (encodeCheck (.StaticCallU256 t s args op r) ++ post)
            = (pre ++ [Opcode.toByte .CheckStaticCallU256] ++ natToBeBytes 20 t) ++ (natToBeBytes 4 s ++ (natToBeBytes 2 (args.length) ++ args ++ (comp_op_to_u8 op :: natToBeBytes 32 r) ++ post)) from by
          simp [encodeCheck]]
      exact readBeNat_append _ _ _ _ _ (by simp [natToBeBytes_length]; try omega)
        (lt_of_lt_of_le h2 (by norm_num))
    have e3 : readBeNat (pre ++ (encodeCheck (.StaticCallU256 t s args op r) ++ post)) (pre.length + 25) 2 = .ok (args.length) := by
      rw [show pre ++ (encodeCheck (.StaticCallU256 t s args op r) ++ post)
            = (pre ++ [Opcode.toByte .CheckStaticCallU256] ++ natToBeBytes 20 t ++ natToBeBytes 4 s) ++ (natToBeBytes 2 (args.length) ++ (args ++ (comp_op_to_u8 op :: natToBeBytes 32 r) ++ post)) from by
          simp [encodeCheck]]
      exact readBeNat_append _ _ _ _ _ (by simp [natToBeBytes_length]; try omega)
        (lt_of_lt_of_le h3 (by norm_num))
    have e4 : readBytesAt (pre ++ (encodeCheck (.StaticCallU256 t s args op r) ++ post)) (pre.length + 27) args.length = .ok args := by
      rw [show pre ++ (encodeCheck (.StaticCallU256 t s args op r) ++ post)
            = (pre ++ [Opcode.toByte .CheckStaticCallU256] ++ natToBeBytes 20 t ++ natToBeBytes 4 s ++ natToBeBytes 2 (args.length)) ++ (args ++ ((comp_op_to_u8 op :: natToBeBytes 32 r) ++ post)) from by
          simp [encodeCheck]]
      exact readBytesAt_append _ _ _ _ _ (by simp [natToBeBytes_length]; try omega) rfl
    have e5 : readCompOp (pre ++ (encodeCheck (.StaticCallU256 t s args op r) ++ post)) (pre.length + 27 + args.length) = .ok op := by
      rw [show pre ++ (encodeCheck (.StaticCallU256 t s args op r) ++ post)
            = (pre ++ [Opcode.toByte .CheckStaticCallU256] ++ natToBeBytes 20 t ++ natToBeBytes 4 s ++ natToBeBytes 2 (args.length) ++ args) ++ (comp_op_to_u8 op :: (natToBeBytes 32 r ++ post)) from by
          simp [encodeCheck]]
      exact readCompOp_append _ _ op _ (by simp [natToBeBytes_length]; try omega)
    have e6 : readBeNat (pre ++ (encodeCheck (.StaticCallU256 t s args op r) ++ post)) (pre.length + 28 + args.length) 32 = .ok (r) := by
      rw [show pre ++ (encodeCheck (.StaticCallU256 t s args op r) ++ post)
            = (pre ++ [Opcode.toByte .CheckStaticCallU256] ++ natToBeBytes 20 t ++ natToBeBytes 4 s ++ natToBeBytes 2 (args.length) ++ args ++ [comp_op_to_u8 op]) ++ (natToBeBytes 32 r ++ (post)) from by
          simp [encodeCheck]]
      exact readBeNat_append _ _ _ _ _ (by simp [natToBeBytes_length]; try omega)
        (lt_of_lt_of_le h4 (by norm_num))
    simp only [Opcode.fromByte, Opcode.toByte, e1, e2, e3, e4, e5, e6, bind, Except.bind]
    simp [encodeCheck, natToBeBytes_length]
    try omega


/-! ## Unfolding equations for the decode loop -/

theorem decodeLoop_done (bytes : List Nat) (i : Nat) (acc : List Check) (max : Nat)
    (h : ¬ i < bytes.length) : decodeLoop bytes i acc max = .ok acc := by
  unfold decodeLoop
  simp [h]

theorem decodeLoop_toomany (bytes : List Nat) (i : Nat) (acc : List Check) (max : Nat)
    (h1 : i < bytes.length) (h2 : acc.length ≥ max) :
    decodeLoop bytes i acc max = .error .TooManyChecks := by
  unfold decodeLoop
  simp [h1, h2]

theorem decodeLoop_err (bytes : List Nat) (i : Nat) (acc : List Check) (max : Nat)
    (e : DecodeError) (h1 : i < bytes.length) (h2 : ¬ acc.length ≥ max)
    (hdec : decodeOne bytes i = .error e) :
    decodeLoop bytes i acc max = .error e := by
  unfold decodeLoop
  rw [if_pos h1, if_neg h2]
  split
  next e2 heq =>
    rw [hdec] at heq
    injection heq with h
    rw [← h]
  next c2 i2 heq =>
    rw [hdec] at heq
    simp at heq

theorem decodeLoop_step (bytes : List Nat) (i : Nat) (acc : List Check) (max : Nat)
    (c : Check) (j : Nat) (h1 : i < bytes.length) (h2 : ¬ acc.length ≥ max)
    (hdec : decodeOne bytes i = .ok (c, j)) :
    decodeLoop bytes i acc max = decodeLoop bytes j (acc ++ [c]) max := by
  unfold decodeLoop
  rw [if_pos h1, if_neg h2]
  split
  next e2 heq =>
    rw [hdec] at heq
    simp at heq
  next c2 i2 heq =>
    rw [hdec] at heq
    simp at heq
    obtain ⟨h3, h4⟩ := heq
    subst h3
    subst h4
    conv_lhs => unfold decodeLoop

theorem encodeCheck_length_pos (c : Check) : 0 < (encodeCheck c).length := by
  cases c <;> simp [encodeCheck]

theorem encode_program_cons (c : Check) (L : List Check) :
    encode_program (c :: L) = encodeCheck c ++ encode_program L := by
  simp [encode_program]

theorem encode_program_nil : encode_program [] = [] := rfl

/-- Round trip of the decode loop over an encoded tail, from any reachable
loop state. -/
theorem decodeLoop_encode (L : List Check) (pre : List Nat) (acc : List Check)
    (max : Nat) (hlen : acc.length + L.length ≤ max) (hwf : ∀ c ∈ L, c.WF) :
    decodeLoop (pre ++ encode_program L) pre.length acc max = .ok (acc ++ L) := by
  induction L generalizing pre acc with
  | nil =>
    rw [encode_program_nil, List.append_nil]
    rw [decodeLoop_done pre pre.length acc max (by omega)]
    simp
  | cons c L ih =>
    rw [encode_program_cons]
    have hwfc : c.WF := hwf c (by simp)
    have hdec := decodeOne_encodeCheck c hwfc pre (encode_program L)
    rw [decodeLoop_step _ _ acc max c (pre.length + (encodeCheck c).length)
      (by simp; have := encodeCheck_length_pos c; omega)
      (by simp at hlen ⊢; omega) hdec]
    have hassoc : pre ++ (encodeCheck c ++ encode_program L)
        = (pre ++ encodeCheck c) ++ encode_program L := by
      simp
    rw [hassoc]
    rw [show pre.length + (encodeCheck c).length = (pre ++ encodeCheck c).length from by simp]
    rw [ih (pre ++ encodeCheck c) (acc ++ [c])
      (by simp at hlen ⊢; omega) (fun x hx => hwf x (by simp [hx]))]
    simp

/-! ## Reads on a truncated byte string -/

theorem ebind_ok {ε α β : Type} (a : α) (f : α → Except ε β) :
    ((Except.ok a : Except ε α) >>= f) = f a := rfl

theorem ebind_err {ε α β : Type} (e : ε) (f : α → Except ε β) :
    ((Except.error e : Except ε α) >>= f) = .error e := rfl

theorem readBeNat_take_err (P : List Nat) (i w p : Nat) (h : p < i + w) :
    readBeNat (P.take p) i w = .error .Truncated := by
  unfold readBeNat
  rw [if_neg]
  simp [List.length_take]
  omega

theorem readBeNat_take_eq (P : List Nat) (i w p : Nat) (h1 : i + w ≤ p)
    (h2 : p ≤ P.length) :
    readBeNat (P.take p) i w = readBeNat P i w := by
  unfold readBeNat
  rw [slice_take P i w p h1]
  simp only [List.length_take]
  rw [show min p P.length = p from by omega]
  rw [if_pos (by omega), if_pos (by omega)]

theorem readBytesAt_take_err (P : List Nat) (i len p : Nat) (h : p < i + len) :
    readBytesAt (P.take p) i len = .error .Truncated := by
  unfold readBytesAt
  rw [if_neg]
  simp [List.length_take]
  omega

theorem readBytesAt_take_eq (P : List Nat) (i len p : Nat) (h1 : i + len ≤ p)
    (h2 : p ≤ P.length) :
    readBytesAt (P.take p) i len = readBytesAt P i len := by
  unfold readBytesAt
  rw [slice_take P i len p h1]
  simp only [List.length_take]
  rw [show min p P.length = p from by omega]
  rw [if_pos (by omega), if_pos (by omega)]

theorem readI32_take_err (P : List Nat) (i p : Nat) (h : p < i + 4) :
    readI32 (P.take p) i = .error .Truncated := by
  unfold readI32
  rw [readBeNat_take_err P i 4 p h]
  rfl

theorem readI32_take_eq (P : List Nat) (i p : Nat) (h1 : i + 4 ≤ p)
    (h2 : p ≤ P.length) :
    readI32 (P.take p) i = readI32 P i := by
  unfold readI32
  rw [readBeNat_take_eq P i 4 p h1 h2]

theorem readCompOp_take_err (P : List Nat) (i p : Nat) (h : p ≤ i) :
    readCompOp (P.take p) i = .error .Truncated := by
  unfold readCompOp
  rw [if_pos]
  simp [List.length_take]
  omega

theorem readCompOp_take_eq (P : List Nat) (i p : Nat) (h1 : i < p)
    (h2 : p ≤ P.length) :
    readCompOp (P.take p) i = readCompOp P i := by
  unfold readCompOp
  rw [byteAt_take P i p h1]
  simp only [List.length_take]
  rw [show min p P.length = p from by omega]
  rw [if_neg (by omega), if_neg (by omega)]

/-- If decoding a check succeeds on `P` and the byte string is cut strictly
inside that check's encoding, decoding the cut string at the same cursor
reports `Truncated`. -/
theorem decodeOne_truncate (P : List Nat) (i p : Nat) (c : Check) (j : Nat)
    (hdec : decodeOne P i = .ok (c, j)) (hip : i < p) (hpj : p < j)
    (hpl : p ≤ P.length) :
    decodeOne (P.take p) i = .error .Truncated := by
  unfold decodeOne at hdec ⊢
  split at hdec
  case isFalse => simp at hdec
  case isTrue hiP =>
    rw [if_pos (show i < (P.take p).length from by simp [List.length_take]; omega)]
    rw [byteAt_take P i p hip]
    cases hop : Opcode.fromByte (byteAt P i) with
    | none => simp [hop] at hdec
    | some op =>
      simp only [hop] at hdec ⊢
      cases op with
      | CheckDeadline =>
        obtain ⟨v1, hv1, hdec⟩ := bind_ok hdec
        simp at hdec
        obtain ⟨-, hj⟩ := hdec
        simp only [readBeNat_take_err P (i + 1) 8 p (by omega), ebind_err]
      | CheckNonce =>
        obtain ⟨v1, hv1, hdec⟩ := bind_ok hdec
        simp at hdec
        obtain ⟨-, hj⟩ := hdec
        simp only [readBeNat_take_err P (i + 1) 32 p (by omega), ebind_err]
      | CheckCallBundleHash =>
        obtain ⟨v1, hv1, hdec⟩ := bind_ok hdec
        simp at hdec
        obtain ⟨-, hj⟩ := hdec
        simp only [readBeNat_take_err P (i + 1) 32 p (by omega), ebind_err]
      | CheckTokenAmountLte =>
        obtain ⟨v1, hv1, hdec⟩ := bind_ok hdec
        obtain ⟨v2, hv2, hdec⟩ := bind_ok hdec
        simp at hdec
        obtain ⟨-, hj⟩ := hdec
        rcases Nat.lt_or_ge p (i + 1 + 20) with hc1 | hc1
        · simp only [readBeNat_take_err P (i + 1) 20 p (by omega), ebind_err]
        · simp only [readBeNat_take_eq P (i + 1) 20 p (by omega) hpl, hv1, ebind_ok]
          simp only [readBeNat_take_err P (i + 21) 32 p (by omega), ebind_err]
      | CheckNativeValueLte =>
        obtain ⟨v1, hv1, hdec⟩ := bind_ok hdec
        simp at hdec
        obtain ⟨-, hj⟩ := hdec
        simp only [readBeNat_take_err P (i + 1) 32 p (by omega), ebind_err]
      | CheckLiquidityDeltaLte =>
        obtain ⟨v1, hv1, hdec⟩ := bind_ok hdec
        simp at hdec
        obtain ⟨-, hj⟩ := hdec
        simp only [readBeNat_take_err P (i + 1) 16 p (by omega), ebind_err]
      | CheckSlot0TickBounds =>
        obtain ⟨v1, hv1, hdec⟩ := bind_ok hdec
        obtain ⟨v2, hv2, hdec⟩ := bind_ok hdec
        obtain ⟨v3, hv3, hdec⟩ := bind_ok hdec
        simp at hdec
        obtain ⟨-, hj⟩ := hdec
        rcases Nat.lt_or_ge p (i + 1 + 32) with hc1 | hc1
        · simp only [readBeNat_take_err P (i + 1) 32 p (by omega), ebind_err]
        · simp only [readBeNat_take_eq P (i + 1) 32 p (by omega) hpl, hv1, ebind_ok]
          rcases Nat.lt_or_ge p (i + 33 + 4) with hc2 | hc2
          · simp only [readI32_take_err P (i + 33) p (by omega), ebind_err]
          · simp only [readI32_take_eq P (i + 33) p (by omega) hpl, hv2, ebind_ok]
            simp only [readI32_take_err P (i + 37) p (by omega), ebind_err]
      | CheckSlot0SqrtPriceBounds =>
        obtain ⟨v1, hv1, hdec⟩ := bind_ok hdec
        obtain ⟨v2, hv2, hdec⟩ := bind_ok hdec
        obtain ⟨v3, hv3, hdec⟩ := bind_ok hdec
        simp at hdec
        obtain ⟨-, hj⟩ := hdec
        rcases Nat.lt_or_ge p (i + 1 + 32) with hc1 | hc1
        · simp only [readBeNat_take_err P (i + 1) 32 p (by omega), ebind_err]
        · simp only [readBeNat_take_eq P (i + 1) 32 p (by omega) hpl, hv1, ebind_ok]
          rcases Nat.lt_or_ge p (i + 33 + 32) with hc2 | hc2
          · simp only [readBeNat_take_err P (i + 33) 32 p (by omega), ebind_err]
          · simp only [readBeNat_take_eq P (i + 33) 32 p (by omega) hpl, hv2, ebind_ok]
            simp only [readBeNat_take_err P (i + 65) 32 p (by omega), ebind_err]
      | CheckRfsClosed =>
        obtain ⟨v1, hv1, hdec⟩ := bind_ok hdec
        simp at hdec
        obtain ⟨-, hj⟩ := hdec
        simp only [readBeNat_take_err P (i + 1) 32 p (by omega), ebind_err]
      | CheckQueueLte =>
        obtain ⟨v1, hv1, hdec⟩ := bind_ok hdec
        obtain ⟨v2, hv2, hdec⟩ := bind_ok hdec
        obtain ⟨v3, hv3, hdec⟩ := bind_ok hdec
        simp at hdec
        obtain ⟨-, hj⟩ := hdec
        rcases Nat.lt_or_ge p (i + 1 + 20) with hc1 | hc1
        · simp only [readBeNat_take_err P (i + 1) 20 p (by omega), ebind_err]
        · simp only [readBeNat_take_eq P (i + 1) 20 p (by omega) hpl, hv1, ebind_ok]
          rcases Nat.lt_or_ge p (i + 21 + 20) with hc2 | hc2
          · simp only [readBeNat_take_err P (i + 21) 20 p (by omega), ebind_err]
          · simp only [readBeNat_take_eq P (i + 21) 20 p (by omega) hpl, hv2, ebind_ok]
            simp only [readBeNat_take_err P (i + 41) 32 p (by omega), ebind_err]
      | CheckReserveGte =>
        obtain ⟨v1, hv1, hdec⟩ := bind_ok hdec
        obtain ⟨v2, hv2, hdec⟩ := bind_ok hdec
        simp at hdec
        obtain ⟨-, hj⟩ := hdec
        rcases Nat.lt_or_ge p (i + 1 + 20) with hc1 | hc1
        · simp only [readBeNat_take_err P (i + 1) 20 p (by omega), ebind_err]
        · simp only [readBeNat_take_eq P (i + 1) 20 p (by omega) hpl, hv1, ebind_ok]
          simp only [readBeNat_take_err P (i + 21) 32 p (by omega), ebind_err]
      | CheckSettledGte =>
        obtain ⟨v1, hv1, hdec⟩ := bind_ok hdec
        obtain ⟨v2, hv2, hdec⟩ := bind_ok hdec
        obtain ⟨v3, hv3, hdec⟩ := bind_ok hdec
        simp at hdec
        obtain ⟨-, hj⟩ := hdec
        rcases Nat.lt_or_ge p (i + 1 + 32) with hc1 | hc1
        · simp only [readBeNat_take_err P (i + 1) 32 p (by omega), ebind_err]
        · simp only [readBeNat_take_eq P (i + 1) 32 p (by omega) hpl, hv1, ebind_ok]
          rcases Nat.lt_or_ge p (i + 33 + 32) with hc2 | hc2
          · simp only [readBeNat_take_err P (i + 33) 32 p (by omega), ebind_err]
          · simp only [readBeNat_take_eq P (i + 33) 32 p (by omega) hpl, hv2, ebind_ok]
            simp only [readBeNat_take_err P (i + 65) 32 p (by omega), ebind_err]
      | CheckCommitmentDeficitLte =>
        obtain ⟨v1, hv1, hdec⟩ := bind_ok hdec
        obtain ⟨v2, hv2, hdec⟩ := bind_ok hdec
        obtain ⟨v3, hv3, hdec⟩ := bind_ok hdec
        simp at hdec
        obtain ⟨-, hj⟩ := hdec
        rcases Nat.lt_or_ge p (i + 1 + 32) with hc1 | hc1
        · simp only [readBeNat_take_err P (i + 1) 32 p (by omega), ebind_err]
        · simp only [readBeNat_take_eq P (i + 1) 32 p (by omega) hpl, hv1, ebind_ok]
          rcases Nat.lt_or_ge p (i + 33 + 32) with hc2 | hc2
          · simp only [readBeNat_take_err P (i + 33) 32 p (by omega), ebind_err]
          · simp only [readBeNat_take_eq P (i + 33) 32 p (by omega) hpl, hv2, ebind_ok]
            simp only [readBeNat_take_err P (i + 65) 32 p (by omega), ebind_err]
      | CheckGracePeriodGte =>
        obtain ⟨v1, hv1, hdec⟩ := bind_ok hdec
        obtain ⟨v2, hv2, hdec⟩ := bind_ok hdec
        simp at hdec
        obtain ⟨-, hj⟩ := hdec
        rcases Nat.lt_or_ge p (i + 1 + 32) with hc1 | hc1
        · simp only [readBeNat_take_err P (i + 1) 32 p (by omega), ebind_err]
        · simp only [readBeNat_take_eq P (i + 1) 32 p (by omega) hpl, hv1, ebind_ok]
          simp only [readBeNat_take_err P (i + 33) 8 p (by omega), ebind_err]
      | CheckStaticCallU256 =>
        obtain ⟨v1, hv1, hdec⟩ := bind_ok hdec
        obtain ⟨v2, hv2, hdec⟩ := bind_ok hdec
        obtain ⟨v3, hv3, hdec⟩ := bind_ok hdec
        obtain ⟨v4, hv4, hdec⟩ := bind_ok hdec
        obtain ⟨v5, hv5, hdec⟩ := bind_ok hdec
        obtain ⟨v6, hv6, hdec⟩ := bind_ok hdec
        simp at hdec
        obtain ⟨-, hj⟩ := hdec
        rcases Nat.lt_or_ge p (i + 1 + 20) with hc1 | hc1
        · simp only [readBeNat_take_err P (i + 1) 20 p (by omega), ebind_err]
        · simp only [readBeNat_take_eq P (i + 1) 20 p (by omega) hpl, hv1, ebind_ok]
          rcases Nat.lt_or_ge p (i + 21 + 4) with hc2 | hc2
          · simp only [readBeNat_take_err P (i + 21) 4 p (by omega), ebind_err]
          · simp only [readBeNat_take_eq P (i + 21) 4 p (by omega) hpl, hv2, ebind_ok]
            rcases Nat.lt_or_ge p (i + 25 + 2) with hc3 | hc3
            · simp only [readBeNat_take_err P (i + 25) 2 p (by omega), ebind_err]
            · simp only [readBeNat_take_eq P (i + 25) 2 p (by omega) hpl, hv3, ebind_ok]
              rcases Nat.lt_or_ge p (i + 27 + v3) with hc4 | hc4
              · simp only [readBytesAt_take_err P (i + 27) v3 p (by omega), ebind_err]
              · simp only [readBytesAt_take_eq P (i + 27) v3 p (by omega) hpl, hv4, ebind_ok]
                rcases Nat.lt_or_ge p (i + 27 + v3 + 1) with hc5 | hc5
                · simp only [readCompOp_take_err P (i + 27 + v3) p (by omega), ebind_err]
                · simp only [readCompOp_take_eq P (i + 27 + v3) p (by omega) hpl, hv5, ebind_ok]
                  simp only [readBeNat_take_err P (i + 28 + v3) 32 p (by omega), ebind_err]


/-- If decoding a check succeeds on `P` and the byte string is cut at or
after the end of that check's encoding, decoding the cut string at the same
cursor gives the same result. -/
theorem decodeOne_take_eq (P : List Nat) (i p : Nat) (c : Check) (j : Nat)
    (hdec : decodeOne P i = .ok (c, j)) (hpj : j ≤ p) (hpl : p ≤ P.length) :
    decodeOne (P.take p) i = .ok (c, j) := by
  have hij := decodeOne_lt hdec
  unfold decodeOne at hdec ⊢
  split at hdec
  case isFalse => simp at hdec
  case isTrue hiP =>
    rw [if_pos (show i < (P.take p).length from by simp [List.length_take]; omega)]
    rw [byteAt_take P i p (by omega)]
    cases hop : Opcode.fromByte (byteAt P i) with
    | none => simp [hop] at hdec
    | some op =>
      simp only [hop] at hdec ⊢
      cases op with
      | CheckDeadline =>
        obtain ⟨v1, hv1, hdec⟩ := bind_ok hdec
        have hj2 := hdec
        simp at hj2
        obtain ⟨-, hj⟩ := hj2
        simp only [readBeNat_take_eq P (i + 1) 8 p (by omega) hpl, hv1, ebind_ok]
        exact hdec
      | CheckNonce =>
        obtain ⟨v1, hv1, hdec⟩ := bind_ok hdec
        have hj2 := hdec
        simp at hj2
        obtain ⟨-, hj⟩ := hj2
        simp only [readBeNat_take_eq P (i + 1) 32 p (by omega) hpl, hv1, ebind_ok]
        exact hdec
      | CheckCallBundleHash =>
        obtain ⟨v1, hv1, hdec⟩ := bind_ok hdec
        have hj2 := hdec
        simp at hj2
        obtain ⟨-, hj⟩ := hj2
        simp only [readBeNat_take_eq P (i + 1) 32 p (by omega) hpl, hv1, ebind_ok]
        exact hdec
      | CheckTokenAmountLte =>
        obtain ⟨v1, hv1, hdec⟩ := bind_ok hdec
        obtain ⟨v2, hv2, hdec⟩ := bind_ok hdec
        have hj2 := hdec
        simp at hj2
        obtain ⟨-, hj⟩ := hj2
        simp only [readBeNat_take_eq P (i + 1) 20 p (by omega) hpl, hv1, ebind_ok]
        simp only [readBeNat_take_eq P (i + 21) 32 p (by omega) hpl, hv2, ebind_ok]
        exact hdec
      | CheckNativeValueLte =>
        obtain ⟨v1, hv1, hdec⟩ := bind_ok hdec
        have hj2 := hdec
        simp at hj2
        obtain ⟨-, hj⟩ := hj2
        simp only [readBeNat_take_eq P (i + 1) 32 p (by omega) hpl, hv1, ebind_ok]
        exact hdec
      | CheckLiquidityDeltaLte =>
        obtain ⟨v1, hv1, hdec⟩ := bind_ok hdec
        have hj2 := hdec
        simp at hj2
        obtain ⟨-, hj⟩ := hj2
        simp only [readBeNat_take_eq P (i + 1) 16 p (by omega) hpl, hv1, ebind_ok]
        exact hdec
      | CheckSlot0TickBounds =>
        obtain ⟨v1, hv1, hdec⟩ := bind_ok hdec
        obtain ⟨v2, hv2, hdec⟩ := bind_ok hdec
        obtain ⟨v3, hv3, hdec⟩ := bind_ok hdec
        have hj2 := hdec
        simp at hj2
        obtain ⟨-, hj⟩ := hj2
        simp only [readBeNat_take_eq P (i + 1) 32 p (by omega) hpl, hv1, ebind_ok]
        simp only [readI32_take_eq P (i + 33) p (by omega) hpl, hv2, ebind_ok]
        simp only [readI32_take_eq P (i + 37) p (by omega) hpl, hv3, ebind_ok]
        exact hdec
      | CheckSlot0SqrtPriceBounds =>
        obtain ⟨v1, hv1, hdec⟩ := bind_ok hdec
        obtain ⟨v2, hv2, hdec⟩ := bind_ok hdec
        obtain ⟨v3, hv3, hdec⟩ := bind_ok hdec
        have hj2 := hdec
        simp at hj2
        obtain ⟨-, hj⟩ := hj2
        simp only [readBeNat_take_eq P (i + 1) 32 p (by omega) hpl, hv1, ebind_ok]
        simp only [readBeNat_take_eq P (i + 33) 32 p (by omega) hpl, hv2, ebind_ok]
        simp only [readBeNat_take_eq P (i + 65) 32 p (by omega) hpl, hv3, ebind_ok]
        exact hdec
      | CheckRfsClosed =>
        obtain ⟨v1, hv1, hdec⟩ := bind_ok hdec
        have hj2 := hdec
        simp at hj2
        obtain ⟨-, hj⟩ := hj2
        simp only [readBeNat_take_eq P (i + 1) 32 p (by omega) hpl, hv1, ebind_ok]
        exact hdec
      | CheckQueueLte =>
        obtain ⟨v1, hv1, hdec⟩ := bind_ok hdec
        obtain ⟨v2, hv2, hdec⟩ := bind_ok hdec
        obtain ⟨v3, hv3, hdec⟩ := bind_ok hdec
        have hj2 := hdec
        simp at hj2
        obtain ⟨-, hj⟩ := hj2
        simp only [readBeNat_take_eq P (i + 1) 20 p (by omega) hpl, hv1, ebind_ok]
        simp only [readBeNat_take_eq P (i + 21) 20 p (by omega) hpl, hv2, ebind_ok]
        simp only [readBeNat_take_eq P (i + 41) 32 p (by omega) hpl, hv3, ebind_ok]
        exact hdec
      | CheckReserveGte =>
        obtain ⟨v1, hv1, hdec⟩ := bind_ok hdec
        obtain ⟨v2, hv2, hdec⟩ := bind_ok hdec
        have hj2 := hdec
        simp at hj2
        obtain ⟨-, hj⟩ := hj2
        simp only [readBeNat_take_eq P (i + 1) 20 p (by omega) hpl, hv1, ebind_ok]
        simp only [readBeNat_take_eq P (i + 21) 32 p (by omega) hpl, hv2, ebind_ok]
        exact hdec
      | CheckSettledGte =>
        obtain ⟨v1, hv1, hdec⟩ := bind_ok hdec
        obtain ⟨v2, hv2, hdec⟩ := bind_ok hdec
        obtain ⟨v3, hv3, hdec⟩ := bind_ok hdec
        have hj2 := hdec
        simp at hj2
        obtain ⟨-, hj⟩ := hj2
        simp only [readBeNat_take_eq P (i + 1) 32 p (by omega) hpl, hv1, ebind_ok]
        simp only [readBeNat_take_eq P (i + 33) 32 p (by omega) hpl, hv2, ebind_ok]
        simp only [readBeNat_take_eq P (i + 65) 32 p (by omega) hpl, hv3, ebind_ok]
        exact hdec
      | CheckCommitmentDeficitLte =>
        obtain ⟨v1, hv1, hdec⟩ := bind_ok hdec
        obtain ⟨v2, hv2, hdec⟩ := bind_ok hdec
        obtain ⟨v3, hv3, hdec⟩ := bind_ok hdec
        have hj2 := hdec
        simp at hj2
        obtain ⟨-, hj⟩ := hj2
        simp only [readBeNat_take_eq P (i + 1) 32 p (by omega) hpl, hv1, ebind_ok]
        simp only [readBeNat_take_eq P (i + 33) 32 p (by omega) hpl, hv2, ebind_ok]
        simp only [readBeNat_take_eq P (i + 65) 32 p (by omega) hpl, hv3, ebind_ok]
        exact hdec
      | CheckGracePeriodGte =>
        obtain ⟨v1, hv1, hdec⟩ := bind_ok hdec
        obtain ⟨v2, hv2, hdec⟩ := bind_ok hdec
        have hj2 := hdec
        simp at hj2
        obtain ⟨-, hj⟩ := hj2
        simp only [readBeNat_take_eq P (i + 1) 32 p (by omega) hpl, hv1, ebind_ok]
        simp only [readBeNat_take_eq P (i + 33) 8 p (by omega) hpl, hv2, ebind_ok]
        exact hdec
      | CheckStaticCallU256 =>
        obtain ⟨v1, hv1, hdec⟩ := bind_ok hdec
        obtain ⟨v2, hv2, hdec⟩ := bind_ok hdec
        obtain ⟨v3, hv3, hdec⟩ := bind_ok hdec
        obtain ⟨v4, hv4, hdec⟩ := bind_ok hdec
        obtain ⟨v5, hv5, hdec⟩ := bind_ok hdec
        obtain ⟨v6, hv6, hdec⟩ := bind_ok hdec
        have hj2 := hdec
        simp at hj2
        obtain ⟨-, hj⟩ := hj2
        simp only [readBeNat_take_eq P (i + 1) 20 p (by omega) hpl, hv1, ebind_ok]
        simp only [readBeNat_take_eq P (i + 21) 4 p (by omega) hpl, hv2, ebind_ok]
        simp only [readBeNat_take_eq P (i + 25) 2 p (by omega) hpl, hv3, ebind_ok]
        simp only [readBytesAt_take_eq P (i + 27) v3 p (by omega) hpl, hv4, ebind_ok]
        simp only [readCompOp_take_eq P (i + 27 + v3) p (by omega) hpl, hv5, ebind_ok]
        simp only [readBeNat_take_eq P (i + 28 + v3) 32 p (by omega) hpl, hv6, ebind_ok]
        exact hdec


/-! ## Check-boundary positions of a byte string -/

/-- Cursor positions the decoder reaches starting from `i`: the boundaries
between encoded checks.  `ReachFrom P 0 p` says `p` is a boundary of `P`. -/
inductive ReachFrom (P : List Nat) : Nat → Nat → Prop
  | refl (i : Nat) : ReachFrom P i i
  | step {i j k : Nat} {c : Check} (hdec : decodeOne P i = .ok (c, j))
      (h : ReachFrom P j k) : ReachFrom P i k

theorem reachFrom_cases {P : List Nat} {i k : Nat} (h : ReachFrom P i k) :
    i = k ∨ ∃ c j, decodeOne P i = .ok (c, j) ∧ ReachFrom P j k := by
  cases h with
  | refl => left; rfl
  | step hdec hrest => right; exact ⟨_, _, hdec, hrest⟩

/-- If the decode loop accepts `P` from state `(i, acc)` and `P` is cut at a
position `p` beyond `i` that the loop never visits, the loop on the cut
string fails with `Truncated`. -/
theorem decodeLoop_truncate (n : Nat) :
    ∀ (P : List Nat) (i : Nat) (acc L : List Check) (max : Nat),
    P.length - i ≤ n →
    decodeLoop P i acc max = .ok L →
    ∀ p, i ≤ p → p < P.length → ¬ ReachFrom P i p →
    decodeLoop (P.take p) i acc max = .error .Truncated := by
  induction n with
  | zero =>
    intro P i acc L max hn hrun p hip hpl hnr
    omega
  | succ n ih =>
    intro P i acc L max hn hrun p hip hpl hnr
    have hiP : i < P.length := by omega
    by_cases hacc : acc.length ≥ max
    · rw [decodeLoop_toomany P i acc max hiP hacc] at hrun
      simp at hrun
    · cases hdec : decodeOne P i with
      | error e =>
        rw [decodeLoop_err P i acc max e hiP hacc hdec] at hrun
        simp at hrun
      | ok cj =>
        obtain ⟨c, j⟩ := cj
        rw [decodeLoop_step P i acc max c j hiP hacc hdec] at hrun
        have hij := decodeOne_lt hdec
        have hpi : i ≠ p := fun h => hnr (h ▸ ReachFrom.refl i)
        have hip2 : i < p := by omega
        rcases Nat.lt_or_ge p j with hpj | hpj
        · have htr := decodeOne_truncate P i p c j hdec hip2 hpj (by omega)
          exact decodeLoop_err (P.take p) i acc max .Truncated
            (by simp [List.length_take]; omega) hacc htr
        · have hstep : ¬ ReachFrom P j p := fun h => hnr (ReachFrom.step hdec h)
          have hdect := decodeOne_take_eq P i p c j hdec hpj (by omega)
          rw [decodeLoop_step (P.take p) i acc max c j
            (by simp [List.length_take]; omega) hacc hdect]
          exact ih P j (acc ++ [c]) L max (by omega) hrun p (by omega) hpl hstep

/-! ## Claim C5: program encode/decode round trip -/

/-- **C5**: for every check list `L` with `|L| ≤ 64` whose `StaticCallU256`
entries have `args` of length at most 65535 (together with the Rust
type-level field ranges captured by `Check.WF`), decoding the bytes produced
by `encode_program L` with `max_checks = 64` succeeds and returns exactly
`L`. -/
theorem claim_C5_encode_decode_roundtrip (L : List Check) (hlen : L.length ≤ 64)
    (hwf : ∀ c ∈ L, c.WF) :
    decode_program_with_limit (encode_program L) 64 = .ok L := by
  have h := decodeLoop_encode L [] [] 64 (by simpa using hlen) hwf
  simpa [decode_program_with_limit] using h

/-- Witness for C5 at a concrete two-check list (one fixed-width check, one
`StaticCallU256` with a 2-byte dynamic argument). -/
theorem claim_C5_witness :
    decode_program_with_limit (encode_program
      [Check.Deadline 1000, Check.StaticCallU256 5 7 [1, 2] CompOp.Lte 9]) 64
      = .ok [Check.Deadline 1000, Check.StaticCallU256 5 7 [1, 2] CompOp.Lte 9] :=
  claim_C5_encode_decode_roundtrip _ (by decide) (by decide)

/-! ## Claim C6: truncation inside a check yields `Truncated` -/

/-- **C6**: for every byte string `P` that `decode_program` accepts and every
prefix of `P` cut at a position that is not a boundary between encoded checks
(`ReachFrom P 0`, the cursor positions the decoder visits), `decode_program`
on the prefix returns exactly the error `Truncated` (never `UnknownOpcode`,
`TooManyChecks`, or success). -/
theorem claim_C6_truncated_prefix (P : List Nat) (L : List Check) (p : Nat)
    (hacc : decode_program P = .ok L) (hp : p < P.length)
    (hnb : ¬ ReachFrom P 0 p) :
    decode_program (P.take p) = .error .Truncated := by
  simp only [decode_program, decode_program_with_limit, MAX_CHECKS_DEFAULT] at hacc ⊢
  exact decodeLoop_truncate P.length P 0 [] L 64 (by omega) hacc p (Nat.zero_le p) hp hnb

/-- Witness for C6: the 9-byte encoding of `[Deadline 5]` cut at position 4
(inside the deadline operand). -/
theorem claim_C6_witness :
    decode_program ((encode_program [Check.Deadline 5]).take 4)
      = .error DecodeError.Truncated := by
  apply claim_C6_truncated_prefix (encode_program [Check.Deadline 5]) [Check.Deadline 5] 4
  · have h := decodeLoop_encode [Check.Deadline 5] [] [] 64 (by decide) (by decide)
    simpa [decode_program, decode_program_with_limit, MAX_CHECKS_DEFAULT] using h
  · decide
  · intro h
    rcases reachFrom_cases h with h0 | ⟨c, j, hdec, hrest⟩
    · omega
    · have h9 : decodeOne (encode_program [Check.Deadline 5]) 0
          = .ok (Check.Deadline 5, 9) := by rfl
      rw [h9] at hdec
      simp at hdec
      obtain ⟨hc, hj⟩ := hdec
      have hj9 : j = 9 := by omega
      subst hj9
      rcases reachFrom_cases hrest with h1 | ⟨c2, j2, hdec2, hrest2⟩
      · omega
      · have h9e : decodeOne (encode_program [Check.Deadline 5]) 9
            = .error DecodeError.Truncated := by rfl
        rw [h9e] at hdec2
        simp at hdec2

/-! ## Facts model (`shared/fiet-maker-policy-types/src/facts.rs`,
`errors.rs`) -/

/-- Errors during fact acquisition (`FactsError`).  The `ForbiddenCall`
payload carries the 20-byte target (as its value) and the 4-byte selector
(as its value). -/
inductive FactsError
  | NotImplemented
  | ForbiddenCall (target : Nat) (selector : Nat)
  | CallFailed
  | MalformedReturn
  deriving DecidableEq, Repr

/-- Slot0 snapshot (`Slot0`): `sqrt_price_x96 : U256` as `Nat`, `tick : i32`
as `Int`, the two 24-bit fees as `Nat`. -/
structure Slot0 where
  sqrt_price_x96 : Nat
  tick : Int
  protocol_fee : Nat
  lp_fee : Nat
  deriving DecidableEq, Repr

/-- The `FactsProvider` trait, as a record of its methods (positions are
`bytes32` values, addresses are 20-byte values, `args` raw bytes). -/
structure FactsProvider where
  block_timestamp : Nat
  get_slot0 : Nat → Except FactsError Slot0
  is_rfs_closed : Nat → Except FactsError Bool
  queue_amount : Nat → Nat → Except FactsError Nat
  reserve_of : Nat → Except FactsError Nat
  get_settled_amounts : Nat → Except FactsError (Nat × Nat)
  get_commitment_maxima : Nat → Except FactsError (Nat × Nat)
  grace_period_remaining : Nat → Except FactsError Nat
  staticcall_u256 : Nat → Nat → List Nat → Except FactsError Nat

/-- Errors during validation/evaluation (`ValidationError`). -/
inductive ValidationError
  | UnsupportedCheck
  | DeadlineExpired
  | NonceMismatch
  | CallBundleMismatch
  | TokenNotAllowed
  | TokenAmountExceeded
  | NativeValueExceeded
  | LiquidityDeltaExceeded
  | TickOutOfBounds
  | PriceOutOfBounds
  | RfsNotClosed
  | QueueExceeded
  | ReserveTooLow
  | StaticCallFailed
  deriving DecidableEq, Repr

/-! ## Evaluator (`evaluator.rs`) -/

/-- `compare`. -/
def compare (lhs : Nat) (op : CompOp) (rhs : Nat) : Bool :=
  match op with
  | .Lt => lhs < rhs
  | .Lte => lhs ≤ rhs
  | .Gt => lhs > rhs
  | .Gte => lhs ≥ rhs
  | .Eq => lhs = rhs
  | .Neq => lhs ≠ rhs

/-- `u64::MAX`. -/
def U64_MAX : Nat := 2 ^ 64 - 1

/-- `evaluate_program`: walk the checks in order, first failure wins. -/
def evaluate_program (checks : List Check) (facts : FactsProvider) :
    Except ValidationError Unit :=
  match checks with
  | [] => .ok ()
  | check :: rest =>
    match evalCheck check facts with
    | .error e => .error e
    | .ok () => evaluate_program rest facts
where
  /-- The body of the `for check in checks` loop: the per-check predicate. -/
  evalCheck (check : Check) (facts : FactsProvider) : Except ValidationError Unit :=
    match check with
    | .Deadline deadline =>
      if facts.block_timestamp > deadline then .error .DeadlineExpired else .ok ()
    | .Nonce _ => .ok ()
    | .CallBundleHash _ => .ok ()
    | .TokenAmountLte _ _ => .error .UnsupportedCheck
    | .NativeValueLte _ => .error .UnsupportedCheck
    | .LiquidityDeltaLte _ => .error .UnsupportedCheck
    | .Slot0TickBounds pool_id min max =>
      match facts.get_slot0 pool_id with
      | .error _ => .error .TickOutOfBounds
      | .ok slot0 =>
        if slot0.tick < min ∨ slot0.tick > max then .error .TickOutOfBounds else .ok ()
    | .Slot0SqrtPriceBounds pool_id min max =>
      match facts.get_slot0 pool_id with
      | .error _ => .error .PriceOutOfBounds
      | .ok slot0 =>
        if slot0.sqrt_price_x96 < min ∨ slot0.sqrt_price_x96 > max then
          .error .PriceOutOfBounds
        else .ok ()
    | .RfsClosed position_id =>
      match facts.is_rfs_closed position_id with
      | .error _ => .error .RfsNotClosed
      | .ok closed => if ¬ closed then .error .RfsNotClosed else .ok ()
    | .QueueLte lcc owner max =>
      match facts.queue_amount lcc owner with
      | .error _ => .error .QueueExceeded
      | .ok queued => if queued > max then .error .QueueExceeded else .ok ()
    | .ReserveGte lcc min =>
      match facts.reserve_of lcc with
      | .error _ => .error .ReserveTooLow
      | .ok reserve => if reserve < min then .error .ReserveTooLow else .ok ()
    | .SettledGte position_id min_amount0 min_amount1 =>
      match facts.get_settled_amounts position_id with
      | .error _ => .error .StaticCallFailed
      | .ok (amount0, amount1) =>
        if amount0 < min_amount0 ∨ amount1 < min_amount1 then
          .error .StaticCallFailed
        else .ok ()
    | .CommitmentDeficitLte position_id max_deficit0 max_deficit1 =>
      match facts.get_commitment_maxima position_id with
      | .error _ => .error .StaticCallFailed
      | .ok (commitment0, commitment1) =>
        match facts.get_settled_amounts position_id with
        | .error _ => .error .StaticCallFailed
        | .ok (settled0, settled1) =>
          let deficit0 := if commitment0 > settled0 then commitment0 - settled0 else 0
          let deficit1 := if commitment1 > settled1 then commitment1 - settled1 else 0
          if deficit0 > max_deficit0 ∨ deficit1 > max_deficit1 then
            .error .StaticCallFailed
          else .ok ()
    | .GracePeriodGte position_id min_seconds =>
      match facts.grace_period_remaining position_id with
      | .error _ => .error .StaticCallFailed
      | .ok remaining =>
        if remaining ≠ U64_MAX ∧ remaining < min_seconds then
          .error .StaticCallFailed
        else .ok ()
    | .StaticCallU256 target selector args op rhs =>
      match facts.staticcall_u256 target selector args with
      | .error _ => .error .StaticCallFailed
      | .ok lhs => if ¬ compare lhs op rhs then .error .StaticCallFailed else .ok ()

/-! ## Claim C3: oracle failures are fail-closed, with the semantic error -/

/-- **C3**: for every oracle-consulting check variant and every `FactsError`
the oracle returns for that check's queries, `evaluate_program` rejects, and
with exactly the semantic rejection variant of that check
(`Slot0TickBounds → TickOutOfBounds`, `Slot0SqrtPriceBounds →
PriceOutOfBounds`, `RfsClosed → RfsNotClosed`, `QueueLte → QueueExceeded`,
`ReserveGte → ReserveTooLow`, and `StaticCallFailed` for `SettledGte`,
`CommitmentDeficitLte` (on either of its two queries), `GracePeriodGte` and
`StaticCallU256`). -/
theorem claim_C3_fail_closed (f : FactsProvider)
    (eS eR eQ eV eSe eCm eCs eG eSc : FactsError)
    (pidS pidR pidSe pidCm pidCs pidG : Nat) (lccQ ownQ lccR tgt sel : Nat)
    (args : List Nat) (mnT mxT : Int)
    (mnP mxP mQ mR s0 s1 d0 d1 d0b d1b gmin rhs cm0 cm1 : Nat) (op : CompOp)
    (hs : f.get_slot0 pidS = .error eS)
    (hr : f.is_rfs_closed pidR = .error eR)
    (hq : f.queue_amount lccQ ownQ = .error eQ)
    (hv : f.reserve_of lccR = .error eV)
    (hse : f.get_settled_amounts pidSe = .error eSe)
    (hcm : f.get_commitment_maxima pidCm = .error eCm)
    (hcok : f.get_commitment_maxima pidCs = .ok (cm0, cm1))
    (hcse : f.get_settled_amounts pidCs = .error eCs)
    (hg : f.grace_period_remaining pidG = .error eG)
    (hsc : f.staticcall_u256 tgt sel args = .error eSc) :
    evaluate_program [.Slot0TickBounds pidS mnT mxT] f = .error .TickOutOfBounds ∧
    evaluate_program [.Slot0SqrtPriceBounds pidS mnP mxP] f = .error .PriceOutOfBounds ∧
    evaluate_program [.RfsClosed pidR] f = .error .RfsNotClosed ∧
    evaluate_program [.QueueLte lccQ ownQ mQ] f = .error .QueueExceeded ∧
    evaluate_program [.ReserveGte lccR mR] f = .error .ReserveTooLow ∧
    evaluate_program [.SettledGte pidSe s0 s1] f = .error .StaticCallFailed ∧
    evaluate_program [.CommitmentDeficitLte pidCm d0 d1] f = .error .StaticCallFailed ∧
    evaluate_program [.CommitmentDeficitLte pidCs d0b d1b] f = .error .StaticCallFailed ∧
    evaluate_program [.GracePeriodGte pidG gmin] f = .error .StaticCallFailed ∧
    evaluate_program [.StaticCallU256 tgt sel args op rhs] f = .error .StaticCallFailed := by
  refine ⟨?_, ?_, ?_, ?_, ?_, ?_, ?_, ?_, ?_, ?_⟩ <;>
    simp [evaluate_program, evaluate_program.evalCheck, hs, hr, hq, hv, hse,
      hcm, hcok, hcse, hg, hsc]

/-- A provider whose every query fails with `CallFailed`, except that
`get_commitment_maxima` succeeds for position 2 (to exercise the
`CommitmentDeficitLte` path where only the settled-amounts query fails). -/
def errFacts : FactsProvider where
  block_timestamp := 0
  get_slot0 := fun _ => .error .CallFailed
  is_rfs_closed := fun _ => .error .CallFailed
  queue_amount := fun _ _ => .error .CallFailed
  reserve_of := fun _ => .error .CallFailed
  get_settled_amounts := fun _ => .error .CallFailed
  get_commitment_maxima := fun pid => if pid = 2 then .ok (0, 0) else .error .CallFailed
  grace_period_remaining := fun _ => .error .CallFailed
  staticcall_u256 := fun _ _ _ => .error .CallFailed

/-- Witness for C3 at the concrete all-failing provider. -/
theorem claim_C3_witness :
    evaluate_program [.Slot0TickBounds 1 0 0] errFacts = .error .TickOutOfBounds ∧
    evaluate_program [.Slot0SqrtPriceBounds 1 0 0] errFacts = .error .PriceOutOfBounds ∧
    evaluate_program [.RfsClosed 1] errFacts = .error .RfsNotClosed ∧
    evaluate_program [.QueueLte 1 1 0] errFacts = .error .QueueExceeded ∧
    evaluate_program [.ReserveGte 1 0] errFacts = .error .ReserveTooLow ∧
    evaluate_program [.SettledGte 1 0 0] errFacts = .error .StaticCallFailed ∧
    evaluate_program [.CommitmentDeficitLte 1 0 0] errFacts = .error .StaticCallFailed ∧
    evaluate_program [.CommitmentDeficitLte 2 0 0] errFacts = .error .StaticCallFailed ∧
    evaluate_program [.GracePeriodGte 1 0] errFacts = .error .StaticCallFailed ∧
    evaluate_program [.StaticCallU256 1 1 [] CompOp.Lt 0] errFacts = .error .StaticCallFailed :=
  claim_C3_fail_closed errFacts .CallFailed .CallFailed .CallFailed .CallFailed
    .CallFailed .CallFailed .CallFailed .CallFailed .CallFailed
    1 1 1 1 2 1 1 1 1 1 1 [] 0 0 0 0 0 0 0 0 0 0 0 0 0 0 0 0 CompOp.Lt
    rfl rfl rfl rfl rfl rfl rfl rfl rfl rfl

/-! ## Claim C8: CommitmentDeficitLte uses saturating subtraction -/

/-- **C8**: `CommitmentDeficitLte` computes each deficit by saturating
subtraction (the check's verdict is exactly the comparison of the truncated
differences `commitment_i - settled_i` against the bounds); consequently,
whenever the oracle reports `commitment_i ≤ settled_i` for both `i`, the
check passes for every `max_deficit0`, `max_deficit1`. -/
theorem claim_C8_commitment_deficit_saturating :
    (∀ (f : FactsProvider) (pid m0 m1 c0 c1 s0 s1 : Nat),
      f.get_commitment_maxima pid = .ok (c0, c1) →
      f.get_settled_amounts pid = .ok (s0, s1) →
      evaluate_program [.CommitmentDeficitLte pid m0 m1] f
        = if c0 - s0 > m0 ∨ c1 - s1 > m1 then .error .StaticCallFailed else .ok ()) ∧
    (∀ (f : FactsProvider) (pid m0 m1 c0 c1 s0 s1 : Nat),
      f.get_commitment_maxima pid = .ok (c0, c1) →
      f.get_settled_amounts pid = .ok (s0, s1) →
      c0 ≤ s0 → c1 ≤ s1 →
      evaluate_program [.CommitmentDeficitLte pid m0 m1] f = .ok ()) := by
  constructor
  · intro f pid m0 m1 c0 c1 s0 s1 h1 h2
    simp only [evaluate_program, evaluate_program.evalCheck, h1, h2]
    rw [show (if c0 > s0 then c0 - s0 else 0) = c0 - s0 from by split <;> omega]
    rw [show (if c1 > s1 then c1 - s1 else 0) = c1 - s1 from by split <;> omega]
    by_cases hC : c0 - s0 > m0 ∨ c1 - s1 > m1 <;> simp [hC]
  · intro f pid m0 m1 c0 c1 s0 s1 h1 h2 hle0 hle1
    simp only [evaluate_program, evaluate_program.evalCheck, h1, h2]
    rw [show (if c0 > s0 then c0 - s0 else 0) = c0 - s0 from by split <;> omega]
    rw [show (if c1 > s1 then c1 - s1 else 0) = c1 - s1 from by split <;> omega]
    rw [if_neg (by omega)]

/-- A provider for the C8 witness: settled amounts exceed commitments. -/
def c8Facts : FactsProvider :=
  { errFacts with
    get_commitment_maxima := fun _ => .ok (3, 5)
    get_settled_amounts := fun _ => .ok (7, 5) }

/-- Witness for C8: commitments `(3, 5)` against settled `(7, 5)` admit with
zero deficit bounds, and the verdict equals the saturating-subtraction
formula. -/
theorem claim_C8_witness :
    evaluate_program [.CommitmentDeficitLte 1 0 0] c8Facts
      = (if 3 - 7 > 0 ∨ 5 - 5 > 0 then .error .StaticCallFailed else .ok ()) ∧
    evaluate_program [.CommitmentDeficitLte 1 0 0] c8Facts = .ok () :=
  ⟨claim_C8_commitment_deficit_saturating.1 c8Facts 1 0 0 3 5 7 5 rfl rfl,
   claim_C8_commitment_deficit_saturating.2 c8Facts 1 0 0 3 5 7 5 rfl rfl
     (by omega) (by omega)⟩

/-! ## Policy envelope (`utils/bytes.rs`, `utils/policy_envelope.rs`) -/

/-- Common shape of the `utils/bytes.rs` big-endian readers
(`read_u16_be` / `read_u32_be` / `read_u64_be` / `read_u256_be` and — under
the value representation — `read_b32`): bounds-check, read `w` bytes at `i`,
return the value and the advanced cursor. -/
def readBeOpt (bytes : List Nat) (i w : Nat) : Option (Nat × Nat) :=
  if bytes.length < i + w then none
  else some (beBytesToNat ((bytes.drop i).take w), i + w)

/-- `read_vec` of `utils/bytes.rs`. -/
def read_vec (bytes : List Nat) (i len : Nat) : Option (List Nat × Nat) :=
  if bytes.length < i + len then none
  else some ((bytes.drop i).take len, i + len)

/-- Parsed policy envelope (`ParsedPolicyIntent`), with `nonce` and
`call_bundle_hash` as values and the 65-byte signature as a raw byte list. -/
structure ParsedPolicyIntent where
  version : Nat
  nonce : Nat
  deadline : Nat
  call_bundle_hash : Nat
  program_bytes : List Nat
  signature : List Nat
  deriving DecidableEq, Repr

/-- `parse_policy_envelope`. -/
def parse_policy_envelope (sig : List Nat) : Option ParsedPolicyIntent :=
  if sig.length < 2 + 32 + 8 + 32 + 4 + 2 then none else
  match readBeOpt sig 0 2 with
  | none => none
  | some (version, i1) =>
  match readBeOpt sig i1 32 with
  | none => none
  | some (nonce, i2) =>
  match readBeOpt sig i2 8 with
  | none => none
  | some (deadline, i3) =>
  match readBeOpt sig i3 32 with
  | none => none
  | some (call_bundle_hash, i4) =>
  match readBeOpt sig i4 4 with
  | none => none
  | some (program_len, i5) =>
  match read_vec sig i5 program_len with
  | none => none
  | some (program_bytes, i6) =>
  match readBeOpt sig i6 2 with
  | none => none
  | some (sig_len, i7) =>
  if sig_len ≠ 65 then none else
  match read_vec sig i7 sig_len with
  | none => none
  | some (sig_bytes, i8) =>
  if i8 ≠ sig.length then none else
  some ⟨version, nonce, deadline, call_bundle_hash, program_bytes, sig_bytes⟩

/-! ## Off-chain envelope type and encoder
(`tools/fiet-maker-policy-encoder/src/types.rs`, `encoder.rs`) -/

/-- `IntentEnvelope` (the encoder-side struct; the domain and scoping fields
are used only for digest construction, not by `encode_envelope`). -/
structure IntentEnvelope where
  version : Nat
  nonce : Nat
  deadline : Nat
  call_bundle_hash : Nat
  program_bytes : List Nat
  signature : List Nat
  domain_chain_id : Nat
  domain_verifying_contract : Nat
  wallet : Nat
  permission_id : Nat

/-- `encode_envelope`.  The `as u32` / `as u16` length casts wrap, hence the
explicit `% 2^32` / `% 2^16`. -/
def encode_envelope (e : IntentEnvelope) : List Nat :=
  natToBeBytes 2 e.version ++ natToBeBytes 32 e.nonce ++ natToBeBytes 8 e.deadline
    ++ natToBeBytes 32 e.call_bundle_hash
    ++ natToBeBytes 4 (e.program_bytes.length % 2 ^ 32)
    ++ e.program_bytes
    ++ natToBeBytes 2 (e.signature.length % 2 ^ 16)
    ++ e.signature

/-! ## Envelope reader lemmas -/

theorem readBeOpt_append (pre post : List Nat) (w v j : Nat)
    (hj : j = pre.length) (hv : v < 256 ^ w) :
    readBeOpt (pre ++ (natToBeBytes w v ++ post)) j w = some (v, j + w) := by
  subst hj
  unfold readBeOpt
  rw [if_neg (by simp [natToBeBytes_length])]
  rw [slice_exact pre _ post w (natToBeBytes_length w v)]
  rw [beBytesToNat_natToBeBytes w v hv]

theorem read_vec_append (pre l post : List Nat) (j len : Nat)
    (hj : j = pre.length) (hlen : len = l.length) :
    read_vec (pre ++ (l ++ post)) j len = some (l, j + len) := by
  subst hj; subst hlen
  unfold read_vec
  rw [if_neg (by simp)]
  rw [slice_exact pre l post l.length rfl]

theorem readBeOpt_mono (s t : List Nat) (i w v j : Nat)
    (h : readBeOpt s i w = some (v, j)) :
    readBeOpt (s ++ t) i w = some (v, j) := by
  unfold readBeOpt at h ⊢
  split at h
  · simp at h
  next hle =>
    rw [if_neg (by simp; omega)]
    rw [show ((s ++ t).drop i).take w = (s.drop i).take w from by
      rw [List.drop_append_eq_append_drop]
      rw [List.take_append_of_le_length (by simp; omega)]]
    exact h

theorem read_vec_mono (s t : List Nat) (i len : Nat) (l : List Nat) (j : Nat)
    (h : read_vec s i len = some (l, j)) :
    read_vec (s ++ t) i len = some (l, j) := by
  unfold read_vec at h ⊢
  split at h
  · simp at h
  next hle =>
    rw [if_neg (by simp; omega)]
    rw [show ((s ++ t).drop i).take len = (s.drop i).take len from by
      rw [List.drop_append_eq_append_drop]
      rw [List.take_append_of_le_length (by simp; omega)]]
    exact h

theorem readBeOpt_le (s : List Nat) (i w v j : Nat)
    (h : readBeOpt s i w = some (v, j)) : j ≤ s.length ∧ j = i + w := by
  unfold readBeOpt at h
  split at h
  · simp at h
  · simp at h
    omega

theorem read_vec_le (s : List Nat) (i len : Nat) (l : List Nat) (j : Nat)
    (h : read_vec s i len = some (l, j)) : j ≤ s.length ∧ j = i + len := by
  unfold read_vec at h
  split at h
  · simp at h
  · simp at h
    omega

set_option maxHeartbeats 1000000 in
/-- Round trip: parsing the encoder's output recovers the envelope
field-for-field (under the Rust type-level value ranges and a 65-byte
signature). -/
theorem parse_encode_envelope (E : IntentEnvelope)
    (hver : E.version < 2 ^ 16) (hnon : E.nonce < 2 ^ 256)
    (hdl : E.deadline < 2 ^ 64) (hcbh : E.call_bundle_hash < 2 ^ 256)
    (hpl : E.program_bytes.length < 2 ^ 32) (hsig : E.signature.length = 65) :
    parse_policy_envelope (encode_envelope E)
      = some ⟨E.version, E.nonce, E.deadline, E.call_bundle_hash,
          E.program_bytes, E.signature⟩ := by
  have e1 : readBeOpt (encode_envelope E) 0 2 = some (E.version, 2) := by
    have h := readBeOpt_append [] (natToBeBytes 32 E.nonce ++ natToBeBytes 8 E.deadline
        ++ natToBeBytes 32 E.call_bundle_hash
        ++ natToBeBytes 4 (E.program_bytes.length % 2 ^ 32) ++ E.program_bytes
        ++ natToBeBytes 2 (E.signature.length % 2 ^ 16) ++ E.signature)
      2 E.version 0 rfl (by omega)
    simpa [encode_envelope] using h
  have e2 : readBeOpt (encode_envelope E) 2 32 = some (E.nonce, 34) := by
    have h := readBeOpt_append (natToBeBytes 2 E.version)
      (natToBeBytes 8 E.deadline ++ natToBeBytes 32 E.call_bundle_hash
        ++ natToBeBytes 4 (E.program_bytes.length % 2 ^ 32) ++ E.program_bytes
        ++ natToBeBytes 2 (E.signature.length % 2 ^ 16) ++ E.signature)
      32 E.nonce 2 (by simp [natToBeBytes_length]) (by omega)
    simpa [encode_envelope] using h
  have e3 : readBeOpt (encode_envelope E) 34 8 = some (E.deadline, 42) := by
    have h := readBeOpt_append (natToBeBytes 2 E.version ++ natToBeBytes 32 E.nonce)
      (natToBeBytes 32 E.call_bundle_hash
        ++ natToBeBytes 4 (E.program_bytes.length % 2 ^ 32) ++ E.program_bytes
        ++ natToBeBytes 2 (E.signature.length % 2 ^ 16) ++ E.signature)
      8 E.deadline 34 (by simp [natToBeBytes_length]) (by omega)
    simpa [encode_envelope] using h
  have e4 : readBeOpt (encode_envelope E) 42 32 = some (E.call_bundle_hash, 74) := by
    have h := readBeOpt_append
      (natToBeBytes 2 E.version ++ natToBeBytes 32 E.nonce ++ natToBeBytes 8 E.deadline)
      (natToBeBytes 4 (E.program_bytes.length % 2 ^ 32) ++ E.program_bytes
        ++ natToBeBytes 2 (E.signature.length % 2 ^ 16) ++ E.signature)
      32 E.call_bundle_hash 42 (by simp [natToBeBytes_length]) (by omega)
    simpa [encode_envelope] using h
  have e5 : readBeOpt (encode_envelope E) 74 4 = some (E.program_bytes.length, 78) := by
    have h := readBeOpt_append
      (natToBeBytes 2 E.version ++ natToBeBytes 32 E.nonce ++ natToBeBytes 8 E.deadline
        ++ natToBeBytes 32 E.call_bundle_hash)
      (E.program_bytes ++ natToBeBytes 2 (E.signature.length % 2 ^ 16) ++ E.signature)
      4 (E.program_bytes.length % 2 ^ 32) 74 (by simp [natToBeBytes_length]) (by omega)
    conv at h => rhs; rw [Nat.mod_eq_of_lt hpl]
    simpa [encode_envelope] using h
  have e6 : read_vec (encode_envelope E) 78 E.program_bytes.length
      = some (E.program_bytes, 78 + E.program_bytes.length) := by
    have h := read_vec_append
      (natToBeBytes 2 E.version ++ natToBeBytes 32 E.nonce ++ natToBeBytes 8 E.deadline
        ++ natToBeBytes 32 E.call_bundle_hash
        ++ natToBeBytes 4 (E.program_bytes.length % 2 ^ 32))
      E.program_bytes
      (natToBeBytes 2 (E.signature.length % 2 ^ 16) ++ E.signature)
      78 E.program_bytes.length (by simp [natToBeBytes_length]) rfl
    simpa [encode_envelope] using h
  have e7 : readBeOpt (encode_envelope E) (78 + E.program_bytes.length) 2
      = some (65, 78 + E.program_bytes.length + 2) := by
    have h := readBeOpt_append
      (natToBeBytes 2 E.version ++ natToBeBytes 32 E.nonce ++ natToBeBytes 8 E.deadline
        ++ natToBeBytes 32 E.call_bundle_hash
        ++ natToBeBytes 4 (E.program_bytes.length % 2 ^ 32) ++ E.program_bytes)
      E.signature 2 (E.signature.length % 2 ^ 16) (78 + E.program_bytes.length)
      (by simp [natToBeBytes_length]; omega) (by omega)
    conv at h => rhs; rw [hsig]
    simpa [encode_envelope] using h
  have e8 : read_vec (encode_envelope E) (78 + E.program_bytes.length + 2) 65
      = some (E.signature, 78 + E.program_bytes.length + 2 + 65) := by
    have h := read_vec_append
      (natToBeBytes 2 E.version ++ natToBeBytes 32 E.nonce ++ natToBeBytes 8 E.deadline
        ++ natToBeBytes 32 E.call_bundle_hash
        ++ natToBeBytes 4 (E.program_bytes.length % 2 ^ 32) ++ E.program_bytes
        ++ natToBeBytes 2 (E.signature.length % 2 ^ 16))
      E.signature [] (78 + E.program_bytes.length + 2) 65
      (by simp [natToBeBytes_length]; omega) hsig.symm
    simpa [encode_envelope] using h
  unfold parse_policy_envelope
  rw [if_neg (by simp [encode_envelope, natToBeBytes_length]; omega)]
  simp only [e1, e2, e3, e4, e5, e6, e7, e8]
  rw [if_neg (by simp)]
  rw [if_neg (show ¬ (78 + E.program_bytes.length + 2 + 65 ≠ (encode_envelope E).length)
    from by simp [encode_envelope, natToBeBytes_length, hsig]; omega)]

/-- Any byte string the envelope parser accepts stops being accepted once one
or more bytes are appended. -/
theorem parse_envelope_trailing (s t : List Nat) (e : ParsedPolicyIntent)
    (h : parse_policy_envelope s = some e) (ht : t ≠ []) :
    parse_policy_envelope (s ++ t) = none := by
  have htlen : 0 < t.length := List.length_pos.mpr ht
  unfold parse_policy_envelope at h ⊢
  split at h
  next => simp at h
  next hg =>
    cases hr1 : readBeOpt s 0 2 with
    | none => rw [hr1] at h; simp at h
    | some p1 =>
    obtain ⟨v1, i1⟩ := p1
    simp only [hr1] at h
    cases hr2 : readBeOpt s i1 32 with
    | none => rw [hr2] at h; simp at h
    | some p2 =>
    obtain ⟨v2, i2⟩ := p2
    simp only [hr2] at h
    cases hr3 : readBeOpt s i2 8 with
    | none => rw [hr3] at h; simp at h
    | some p3 =>
    obtain ⟨v3, i3⟩ := p3
    simp only [hr3] at h
    cases hr4 : readBeOpt s i3 32 with
    | none => rw [hr4] at h; simp at h
    | some p4 =>
    obtain ⟨v4, i4⟩ := p4
    simp only [hr4] at h
    cases hr5 : readBeOpt s i4 4 with
    | none => rw [hr5] at h; simp at h
    | some p5 =>
    obtain ⟨v5, i5⟩ := p5
    simp only [hr5] at h
    cases hr6 : read_vec s i5 v5 with
    | none => rw [hr6] at h; simp at h
    | some p6 =>
    obtain ⟨v6, i6⟩ := p6
    simp only [hr6] at h
    cases hr7 : readBeOpt s i6 2 with
    | none => rw [hr7] at h; simp at h
    | some p7 =>
    obtain ⟨v7, i7⟩ := p7
    simp only [hr7] at h
    split at h
    next => simp at h
    next h65 =>
    cases hr8 : read_vec s i7 v7 with
    | none => rw [hr8] at h; simp at h
    | some p8 =>
    obtain ⟨v8, i8⟩ := p8
    simp only [hr8] at h
    split at h
    next => simp at h
    next hfin =>
    have hi8 : i8 = s.length := by omega
    rw [if_neg (by simp; omega)]
    simp only [readBeOpt_mono s t 0 2 v1 i1 hr1, readBeOpt_mono s t i1 32 v2 i2 hr2,
      readBeOpt_mono s t i2 8 v3 i3 hr3, readBeOpt_mono s t i3 32 v4 i4 hr4,
      readBeOpt_mono s t i4 4 v5 i5 hr5, read_vec_mono s t i5 v5 v6 i6 hr6,
      readBeOpt_mono s t i6 2 v7 i7 hr7, read_vec_mono s t i7 v7 v8 i8 hr8]
    rw [if_neg h65]
    rw [if_pos (by simp; omega)]

/-! ## Claim C4: envelope round trip and strict trailing-byte rejection -/

/-- **C4**: for every well-formed envelope `E` (65-byte signature,
`program_bytes` length fitting `u32`, fields within their Rust types),
parsing `encode_envelope E` succeeds and returns `E` field-for-field; and
for every byte string `parse_policy_envelope` accepts, appending one or more
extra bytes makes `parse_policy_envelope` fail. -/
theorem claim_C4_envelope_roundtrip_and_trailing :
    (∀ E : IntentEnvelope,
      E.version < 2 ^ 16 → E.nonce < 2 ^ 256 → E.deadline < 2 ^ 64 →
      E.call_bundle_hash < 2 ^ 256 → E.program_bytes.length < 2 ^ 32 →
      E.signature.length = 65 →
      parse_policy_envelope (encode_envelope E)
        = some ⟨E.version, E.nonce, E.deadline, E.call_bundle_hash,
            E.program_bytes, E.signature⟩) ∧
    (∀ (s t : List Nat) (e : ParsedPolicyIntent),
      parse_policy_envelope s = some e → t ≠ [] →
      parse_policy_envelope (s ++ t) = none) :=
  ⟨parse_encode_envelope, parse_envelope_trailing⟩

/-- A concrete envelope for the C4 witness. -/
def envC4 : IntentEnvelope :=
  { version := 1, nonce := 0, deadline := 1000, call_bundle_hash := 77
    program_bytes := [1, 2, 3], signature := List.replicate 65 0
    domain_chain_id := 1, domain_verifying_contract := 2, wallet := 3
    permission_id := 4 }

/-- Witness for C4: the round trip at `envC4`, and rejection of its encoding
with one byte appended. -/
theorem claim_C4_witness :
    parse_policy_envelope (encode_envelope envC4)
      = some ⟨1, 0, 1000, 77, [1, 2, 3], List.replicate 65 0⟩ ∧
    parse_policy_envelope (encode_envelope envC4 ++ [0]) = none := by
  have h1 := claim_C4_envelope_roundtrip_and_trailing.1 envC4 (by decide) (by decide)
    (by decide) (by decide) (by decide) (by decide)
  exact ⟨h1, claim_C4_envelope_roundtrip_and_trailing.2 _ [0] _ h1 (by simp)⟩

/-! ## ECDSA recovery (`utils/crypto.rs`)

`RawCall::new_static().gas(..).call(to, input)` is modelled by an explicit
world function from `(target, input)` to the raw return bytes (or a call
error). -/

/-- The external-call oracle: 20-byte target (as its value) and calldata in,
raw return bytes out; `.error ()` is a failed call. -/
def World : Type := Nat → List Nat → Except Unit (List Nat)

/-- The `ecrecover` precompile address `0x…01`. -/
def ECRECOVER_PRECOMPILE : Nat := 1

/-- The 128-byte precompile input: `digest(32) || 0^31 || v || r(32) || s(32)`. -/
def ecrecoverInput (digest v : Nat) (r s : List Nat) : List Nat :=
  natToBeBytes 32 digest ++ List.replicate 31 0 ++ [v] ++ r ++ s

/-- The candidate list for the recovery id: `{27,28}` kept, `{0,1}` mapped to
`v+27`, anything else replaced by both `27` and `28`. -/
def candidatesFor (v_raw : Nat) : List Nat :=
  let c : List Nat :=
    if v_raw = 27 ∨ v_raw = 28 then [v_raw]
    else if v_raw = 0 ∨ v_raw = 1 then [v_raw + 27]
    else []
  if c.isEmpty then [27, 28] else c

/-- The `for v in candidates` loop of `ecrecover_address`: call the
precompile; a call error aborts; short output or a zero address moves to the
next candidate; the first non-zero recovered address wins. -/
def tryRecover (world : World) (digest : Nat) (r s : List Nat) :
    List Nat → Except Unit Nat
  | [] => .error ()
  | v :: rest =>
    match world ECRECOVER_PRECOMPILE (ecrecoverInput digest v r s) with
    | .error _ => .error ()
    | .ok out =>
      if out.length < 32 then tryRecover world digest r s rest
      else
        let recovered := beBytesToNat ((out.drop 12).take 20)
        if recovered ≠ 0 then .ok recovered
        else tryRecover world digest r s rest

/-- `ecrecover_address` (the signature is 65 bytes `r(32) || s(32) || v`). -/
def ecrecover_address (world : World) (digest : Nat) (sig : List Nat) :
    Except Unit Nat :=
  tryRecover world digest (sig.take 32) ((sig.drop 32).take 32)
    (candidatesFor (sig.getD 64 0))

theorem candidatesFor_27_28 (v : Nat) (hv : v = 27 ∨ v = 28) :
    candidatesFor v = [v] := by
  rcases hv with h | h <;> subst h <;> rfl

theorem candidatesFor_0_1 (v : Nat) (hv : v = 0 ∨ v = 1) :
    candidatesFor v = [v + 27] := by
  rcases hv with h | h <;> subst h <;> rfl

theorem candidatesFor_out (v : Nat) (h27 : v ≠ 27) (h28 : v ≠ 28)
    (h0 : v ≠ 0) (h1 : v ≠ 1) : candidatesFor v = [27, 28] := by
  unfold candidatesFor
  simp [h27, h28, h0, h1]

/-! ## Claim C2: recovery-id tolerance of `ecrecover_address` -/

/-- The world used to refute C2 as stated: recovery with `v = 28` yields a
non-zero address, every other call yields the zero word. -/
def worldC2 : World := fun _ input =>
  if input.getD 63 0 = 28 then .ok (List.replicate 12 0 ++ List.replicate 20 1)
  else .ok (List.replicate 32 0)

/-- A 65-byte signature with `v = 27` (all `r`/`s` bytes zero). -/
def sigV27 : List Nat := List.replicate 64 0 ++ [27]

/-- **C2 counterexample**: the claim says that when the first candidate
recovers the zero address the function tries both `27` and `28` and accepts
the first non-zero recovered address.  For in-range `v` the code does not:
with `v = 27` recovering zero while `28` would recover a non-zero address,
`ecrecover_address` returns the opaque error. -/
theorem claim_C2_counterexample :
    ¬ (∀ (world : World) (digest : Nat) (sig : List Nat),
        sig.length = 65 →
        (sig.getD 64 0 = 27 ∨ sig.getD 64 0 = 28) →
        ∀ out1, world ECRECOVER_PRECOMPILE
            (ecrecoverInput digest (sig.getD 64 0) (sig.take 32) ((sig.drop 32).take 32))
            = .ok out1 →
        32 ≤ out1.length →
        beBytesToNat ((out1.drop 12).take 20) = 0 →
        ∀ out2, world ECRECOVER_PRECOMPILE
            (ecrecoverInput digest 28 (sig.take 32) ((sig.drop 32).take 32)) = .ok out2 →
        32 ≤ out2.length →
        beBytesToNat ((out2.drop 12).take 20) ≠ 0 →
        ecrecover_address world digest sig
          = .ok (beBytesToNat ((out2.drop 12).take 20))) := by
  intro hclaim
  have h := hclaim worldC2 0 sigV27 (by decide) (by decide)
    (List.replicate 32 0) (by rfl) (by decide) (by decide)
    (List.replicate 12 0 ++ List.replicate 20 1) (by rfl) (by decide) (by decide)
  rw [show ecrecover_address worldC2 0 sigV27 = .error () from rfl] at h
  exact absurd h (by simp)

/-- **C2 amended**: `ecrecover_address` accepts `v ∈ {27, 28}` directly and
maps `v ∈ {0, 1}` to `v + 27`, trying only that single candidate — if its
call succeeds but yields short output or the zero address the function fails
without trying the other parity; only when `v` is outside `{0, 1, 27, 28}`
does it try both `27` and `28` and accept the first non-zero recovered
address; a failing precompile call, or exhaustion of the candidates, yields
the single opaque error. -/
theorem claim_C2_amended :
    (∀ (world : World) (digest : Nat) (sig : List Nat) (out : List Nat),
      (sig.getD 64 0 = 27 ∨ sig.getD 64 0 = 28) →
      world ECRECOVER_PRECOMPILE
        (ecrecoverInput digest (sig.getD 64 0) (sig.take 32) ((sig.drop 32).take 32))
        = .ok out →
      32 ≤ out.length → beBytesToNat ((out.drop 12).take 20) ≠ 0 →
      ecrecover_address world digest sig
        = .ok (beBytesToNat ((out.drop 12).take 20))) ∧
    (∀ (world : World) (digest : Nat) (sig : List Nat) (out : List Nat),
      (sig.getD 64 0 = 0 ∨ sig.getD 64 0 = 1) →
      world ECRECOVER_PRECOMPILE
        (ecrecoverInput digest (sig.getD 64 0 + 27) (sig.take 32) ((sig.drop 32).take 32))
        = .ok out →
      32 ≤ out.length → beBytesToNat ((out.drop 12).take 20) ≠ 0 →
      ecrecover_address world digest sig
        = .ok (beBytesToNat ((out.drop 12).take 20))) ∧
    (∀ (world : World) (digest : Nat) (sig : List Nat) (out : List Nat),
      (sig.getD 64 0 = 27 ∨ sig.getD 64 0 = 28) →
      world ECRECOVER_PRECOMPILE
        (ecrecoverInput digest (sig.getD 64 0) (sig.take 32) ((sig.drop 32).take 32))
        = .ok out →
      (out.length < 32 ∨ beBytesToNat ((out.drop 12).take 20) = 0) →
      ecrecover_address world digest sig = .error ()) ∧
    (∀ (world : World) (digest : Nat) (sig : List Nat) (out : List Nat),
      (sig.getD 64 0 = 0 ∨ sig.getD 64 0 = 1) →
      world ECRECOVER_PRECOMPILE
        (ecrecoverInput digest (sig.getD 64 0 + 27) (sig.take 32) ((sig.drop 32).take 32))
        = .ok out →
      (out.length < 32 ∨ beBytesToNat ((out.drop 12).take 20) = 0) →
      ecrecover_address world digest sig = .error ()) ∧
    (∀ (world : World) (digest : Nat) (sig : List Nat) (out : List Nat),
      sig.getD 64 0 ≠ 27 → sig.getD 64 0 ≠ 28 →
      sig.getD 64 0 ≠ 0 → sig.getD 64 0 ≠ 1 →
      world ECRECOVER_PRECOMPILE
        (ecrecoverInput digest 27 (sig.take 32) ((sig.drop 32).take 32)) = .ok out →
      32 ≤ out.length → beBytesToNat ((out.drop 12).take 20) ≠ 0 →
      ecrecover_address world digest sig
        = .ok (beBytesToNat ((out.drop 12).take 20))) ∧
    (∀ (world : World) (digest : Nat) (sig : List Nat) (out27 out28 : List Nat),
      sig.getD 64 0 ≠ 27 → sig.getD 64 0 ≠ 28 →
      sig.getD 64 0 ≠ 0 → sig.getD 64 0 ≠ 1 →
      world ECRECOVER_PRECOMPILE
        (ecrecoverInput digest 27 (sig.take 32) ((sig.drop 32).take 32)) = .ok out27 →
      (out27.length < 32 ∨ beBytesToNat ((out27.drop 12).take 20) = 0) →
      world ECRECOVER_PRECOMPILE
        (ecrecoverInput digest 28 (sig.take 32) ((sig.drop 32).take 32)) = .ok out28 →
      32 ≤ out28.length → beBytesToNat ((out28.drop 12).take 20) ≠ 0 →
      ecrecover_address world digest sig
        = .ok (beBytesToNat ((out28.drop 12).take 20))) ∧
    (∀ (world : World) (digest : Nat) (sig : List Nat) (out27 out28 : List Nat),
      sig.getD 64 0 ≠ 27 → sig.getD 64 0 ≠ 28 →
      sig.getD 64 0 ≠ 0 → sig.getD 64 0 ≠ 1 →
      world ECRECOVER_PRECOMPILE
        (ecrecoverInput digest 27 (sig.take 32) ((sig.drop 32).take 32)) = .ok out27 →
      (out27.length < 32 ∨ beBytesToNat ((out27.drop 12).take 20) = 0) →
      world ECRECOVER_PRECOMPILE
        (ecrecoverInput digest 28 (sig.take 32) ((sig.drop 32).take 32)) = .ok out28 →
      (out28.length < 32 ∨ beBytesToNat ((out28.drop 12).take 20) = 0) →
      ecrecover_address world digest sig = .error ()) ∧
    (∀ (world : World) (digest : Nat) (sig : List Nat),
      (sig.getD 64 0 = 27 ∨ sig.getD 64 0 = 28) →
      world ECRECOVER_PRECOMPILE
        (ecrecoverInput digest (sig.getD 64 0) (sig.take 32) ((sig.drop 32).take 32))
        = .error () →
      ecrecover_address world digest sig = .error ()) := by
  refine ⟨?_, ?_, ?_, ?_, ?_, ?_, ?_, ?_⟩
  · intro world digest sig out hv hcall hlen ha
    unfold ecrecover_address
    rw [candidatesFor_27_28 _ hv]
    unfold tryRecover
    simp only [hcall]
    rw [if_neg (by omega)]
    simp [ha]
  · intro world digest sig out hv hcall hlen ha
    unfold ecrecover_address
    rw [candidatesFor_0_1 _ hv]
    unfold tryRecover
    simp only [hcall]
    rw [if_neg (by omega)]
    simp [ha]
  · intro world digest sig out hv hcall hdeg
    unfold ecrecover_address
    rw [candidatesFor_27_28 _ hv]
    unfold tryRecover
    simp only [hcall]
    rcases hdeg with hshort | hzero
    · rw [if_pos hshort]
      rfl
    · by_cases hlen2 : out.length < 32
      · rw [if_pos hlen2]
        rfl
      · rw [if_neg hlen2]
        simp [hzero, tryRecover]
  · intro world digest sig out hv hcall hdeg
    unfold ecrecover_address
    rw [candidatesFor_0_1 _ hv]
    unfold tryRecover
    simp only [hcall]
    rcases hdeg with hshort | hzero
    · rw [if_pos hshort]
      rfl
    · by_cases hlen2 : out.length < 32
      · rw [if_pos hlen2]
        rfl
      · rw [if_neg hlen2]
        simp [hzero, tryRecover]
  · intro world digest sig out h27 h28 h0 h1 hcall hlen ha
    unfold ecrecover_address
    rw [candidatesFor_out _ h27 h28 h0 h1]
    unfold tryRecover
    simp only [hcall]
    rw [if_neg (by omega)]
    simp [ha]
  · intro world digest sig out27 out28 h27 h28 h0 h1 hc27 hdeg hc28 hlen ha
    unfold ecrecover_address
    rw [candidatesFor_out _ h27 h28 h0 h1]
    unfold tryRecover
    simp only [hc27]
    have htail : tryRecover world digest (sig.take 32) ((sig.drop 32).take 32) [28]
        = .ok (beBytesToNat ((out28.drop 12).take 20)) := by
      unfold tryRecover
      simp only [hc28]
      rw [if_neg (by omega)]
      simp [ha]
    rcases hdeg with hshort | hzero
    · rw [if_pos hshort]
      exact htail
    · by_cases hlen2 : out27.length < 32
      · rw [if_pos hlen2]
        exact htail
      · rw [if_neg hlen2]
        simp only [hzero]
        simpa using htail
  · intro world digest sig out27 out28 h27 h28 h0 h1 hc27 hdeg27 hc28 hdeg28
    unfold ecrecover_address
    rw [candidatesFor_out _ h27 h28 h0 h1]
    unfold tryRecover
    simp only [hc27]
    have htail : tryRecover world digest (sig.take 32) ((sig.drop 32).take 32) [28]
        = .error () := by
      unfold tryRecover
      simp only [hc28]
      rcases hdeg28 with hshort | hzero
      · rw [if_pos hshort]
        rfl
      · by_cases hlen2 : out28.length < 32
        · rw [if_pos hlen2]
          rfl
        · rw [if_neg hlen2]
          simp [hzero, tryRecover]
    rcases hdeg27 with hshort | hzero
    · rw [if_pos hshort]
      exact htail
    · by_cases hlen2 : out27.length < 32
      · rw [if_pos hlen2]
        exact htail
      · rw [if_neg hlen2]
        simp only [hzero]
        simpa using htail
  · intro world digest sig hv hcall
    unfold ecrecover_address
    rw [candidatesFor_27_28 _ hv]
    unfold tryRecover
    simp only [hcall]

/-- A world for the C2 witness whose recovery calls always yield the address
`1`. -/
def worldOkC2 : World := fun _ _ =>
  .ok (List.replicate 12 0 ++ (List.replicate 19 0 ++ [1]))

/-- Witness for the amended C2, instantiating the direct-`v` acceptance, the
degenerate in-range failure, and the out-of-range fallback at concrete
worlds. -/
theorem claim_C2_witness :
    ecrecover_address worldOkC2 0 sigV27 = .ok 1 ∧
    ecrecover_address worldC2 0 sigV27 = .error () ∧
    ecrecover_address worldC2 0 (List.replicate 64 0 ++ [9]) = .ok
      (beBytesToNat ((List.replicate 12 0 ++ List.replicate 20 1).drop 12 |>.take 20)) :=
  ⟨by
    have h := claim_C2_amended.1 worldOkC2 0 sigV27
      (List.replicate 12 0 ++ (List.replicate 19 0 ++ [1]))
      (by decide) (by rfl) (by decide) (by decide)
    simpa using h,
   claim_C2_amended.2.2.1 worldC2 0 sigV27 (List.replicate 32 0)
     (by decide) (by rfl) (by decide),
   claim_C2_amended.2.2.2.2.2.1 worldC2 0 (List.replicate 64 0 ++ [9])
     (List.replicate 32 0) (List.replicate 12 0 ++ List.replicate 20 1)
     (by decide) (by decide) (by decide) (by decide)
     (by rfl) (by decide) (by rfl) (by decide) (by decide)⟩

/-! ## On-chain facts provider (`facts/onchain.rs`)

`selector(sig)` takes the first 4 bytes of `keccak256` of the ASCII
signature; keccak is uninterpreted here, so the selector derivation is an
uninterpreted parameter `sel : String → Nat` (the selector as a 4-byte
value).  `BTreeSet` is modelled as a list, since only `contains` is used. -/

/-- `FactSources` (addresses as 20-byte values). -/
structure FactSources where
  state_view : Nat
  vts_orchestrator : Nat
  liquidity_hub : Nat

/-- `OnchainFactsProvider` state. -/
structure OnchainFactsProvider where
  sources : FactSources
  gas_cap : Nat
  now : Nat
  allowlist : List (Nat × Nat)

/-- `OnchainFactsProvider::new`: build the `(target, selector)` allowlist
from the three fact sources. -/
def OnchainFactsProvider.new (sel : String → Nat) (sources : FactSources)
    (gas_cap now : Nat) : OnchainFactsProvider :=
  { sources := sources, gas_cap := gas_cap, now := now,
    allowlist := [
      (sources.state_view, sel "getSlot0(bytes32)"),
      (sources.vts_orchestrator, sel "positionToCheckpoint(bytes32)"),
      (sources.vts_orchestrator, sel "getPositionSettledAmounts(bytes32)"),
      (sources.vts_orchestrator, sel "getCommitmentMaxima(bytes32)"),
      (sources.vts_orchestrator, sel "getPosition(bytes32)"),
      (sources.vts_orchestrator, sel "getPool(bytes32)"),
      (sources.liquidity_hub, sel "reserveOfUnderlying(address)"),
      (sources.liquidity_hub, sel "settleQueue(address,address)")] }

/-- `OnchainFactsProvider::staticcall`: allowlist gate, then the raw call
with `selector || args` calldata; a non-success return is `CallFailed`. -/
def OnchainFactsProvider.staticcall (p : OnchainFactsProvider) (world : World)
    (target selector : Nat) (args : List Nat) : Except FactsError (List Nat) :=
  if (target, selector) ∈ p.allowlist then
    match world target (natToBeBytes 4 selector ++ args) with
    | .error _ => .error .CallFailed
    | .ok out => .ok out
  else
    .error (.ForbiddenCall target selector)

/-- `decode_u24`: the low 3 bytes of a 32-byte word, big-endian.  The
source's shift-and-or on byte values `< 256` equals this sum. -/
def decode_u24 (word : List Nat) : Nat :=
  (word.getD 29 0) * 65536 + (word.getD 30 0) * 256 + word.getD 31 0

/-- `decode_i24`: `decode_u24` sign-extended from 24 bits. -/
def decode_i24 (word : List Nat) : Int :=
  let v := decode_u24 word
  if v < 2 ^ 23 then (v : Int) else (v : Int) - 2 ^ 24

/-- ABI padding of an address argument: 12 zero bytes then the 20 address
bytes. -/
def abiAddress (a : Nat) : List Nat := List.replicate 12 0 ++ natToBeBytes 20 a

/-- `get_slot0`. -/
def OnchainFactsProvider.get_slot0 (p : OnchainFactsProvider)
    (sel : String → Nat) (world : World) (pool_id : Nat) :
    Except FactsError Slot0 :=
  match p.staticcall world p.sources.state_view (sel "getSlot0(bytes32)")
      (natToBeBytes 32 pool_id) with
  | .error e => .error e
  | .ok out =>
    if out.length < 32 * 4 then .error .MalformedReturn
    else
      .ok { sqrt_price_x96 := beBytesToNat (out.take 32)
            tick := decode_i24 ((out.drop 32).take 32)
            protocol_fee := decode_u24 ((out.drop 64).take 32)
            lp_fee := decode_u24 ((out.drop 96).take 32) }

/-- `is_rfs_closed`. -/
def OnchainFactsProvider.is_rfs_closed (p : OnchainFactsProvider)
    (sel : String → Nat) (world : World) (position_id : Nat) :
    Except FactsError Bool :=
  match p.staticcall world p.sources.vts_orchestrator
      (sel "positionToCheckpoint(bytes32)") (natToBeBytes 32 position_id) with
  | .error e => .error e
  | .ok out =>
    if out.length < 32 * 4 then .error .MalformedReturn
    else
      let is_open : Bool := beBytesToNat ((out.drop 32).take 32) != 0
      .ok (!is_open)

/-- `queue_amount`. -/
def OnchainFactsProvider.queue_amount (p : OnchainFactsProvider)
    (sel : String → Nat) (world : World) (lcc owner : Nat) :
    Except FactsError Nat :=
  match p.staticcall world p.sources.liquidity_hub
      (sel "settleQueue(address,address)") (abiAddress lcc ++ abiAddress owner) with
  | .error e => .error e
  | .ok out =>
    if out.length < 32 then .error .MalformedReturn
    else .ok (beBytesToNat (out.take 32))

/-- `reserve_of`. -/
def OnchainFactsProvider.reserve_of (p : OnchainFactsProvider)
    (sel : String → Nat) (world : World) (lcc : Nat) : Except FactsError Nat :=
  match p.staticcall world p.sources.liquidity_hub
      (sel "reserveOfUnderlying(address)") (abiAddress lcc) with
  | .error e => .error e
  | .ok out =>
    if out.length < 32 then .error .MalformedReturn
    else .ok (beBytesToNat (out.take 32))

/-- `get_settled_amounts`. -/
def OnchainFactsProvider.get_settled_amounts (p : OnchainFactsProvider)
    (sel : String → Nat) (world : World) (position_id : Nat) :
    Except FactsError (Nat × Nat) :=
  match p.staticcall world p.sources.vts_orchestrator
      (sel "getPositionSettledAmounts(bytes32)") (natToBeBytes 32 position_id) with
  | .error e => .error e
  | .ok out =>
    if out.length < 32 * 2 then .error .MalformedReturn
    else .ok (beBytesToNat (out.take 32), beBytesToNat ((out.drop 32).take 32))

/-- `get_commitment_maxima`. -/
def OnchainFactsProvider.get_commitment_maxima (p : OnchainFactsProvider)
    (sel : String → Nat) (world : World) (position_id : Nat) :
    Except FactsError (Nat × Nat) :=
  match p.staticcall world p.sources.vts_orchestrator
      (sel "getCommitmentMaxima(bytes32)") (natToBeBytes 32 position_id) with
  | .error e => .error e
  | .ok out =>
    if out.length < 32 * 2 then .error .MalformedReturn
    else .ok (beBytesToNat (out.take 32), beBytesToNat ((out.drop 32).take 32))

/-- `grace_period_remaining`: checkpoint, then (only when the RFS is open)
position and pool, then the remaining-time arithmetic.  The `U256` additions
`grace_i + grace_extension_i` wrap in release builds, hence `% 2^256`. -/
def OnchainFactsProvider.grace_period_remaining (p : OnchainFactsProvider)
    (sel : String → Nat) (world : World) (position_id : Nat) :
    Except FactsError Nat :=
  match p.staticcall world p.sources.vts_orchestrator
      (sel "positionToCheckpoint(bytes32)") (natToBeBytes 32 position_id) with
  | .error e => .error e
  | .ok out =>
    if out.length < 32 * 4 then .error .MalformedReturn
    else
      let time_of_last_transition := beBytesToNat (out.take 32)
      let is_open := beBytesToNat ((out.drop 32).take 32) ≠ 0
      let grace_extension0 := beBytesToNat ((out.drop 64).take 32)
      let grace_extension1 := beBytesToNat ((out.drop 96).take 32)
      if ¬ is_open then .ok U64_MAX
      else
        match p.staticcall world p.sources.vts_orchestrator
            (sel "getPosition(bytes32)") (natToBeBytes 32 position_id) with
        | .error e => .error e
        | .ok pos_out =>
          if pos_out.length < 64 then .error .MalformedReturn
          else
            let pool_id := beBytesToNat ((pos_out.drop 32).take 32)
            match p.staticcall world p.sources.vts_orchestrator
                (sel "getPool(bytes32)") (natToBeBytes 32 pool_id) with
            | .error e => .error e
            | .ok pool_out =>
              if pool_out.length < 32 * 14 then .error .MalformedReturn
              else
                let grace0 := beBytesToNat ((pool_out.drop (32 * 3)).take 32)
                let grace1 := beBytesToNat ((pool_out.drop (32 * 7)).take 32)
                let elapsed :=
                  if p.now > time_of_last_transition then
                    p.now - time_of_last_transition
                  else 0
                let total0 := (grace0 + grace_extension0) % 2 ^ 256
                let total1 := (grace1 + grace_extension1) % 2 ^ 256
                let earliest := if total0 < total1 then total0 else total1
                let remaining := if earliest > elapsed then earliest - elapsed else 0
                if remaining > U64_MAX then .ok U64_MAX else .ok remaining

/-- `staticcall_u256`. -/
def OnchainFactsProvider.staticcall_u256 (p : OnchainFactsProvider)
    (sel : String → Nat) (world : World) (target selector : Nat)
    (args : List Nat) : Except FactsError Nat :=
  match p.staticcall world target selector args with
  | .error e => .error e
  | .ok out =>
    if out.length < 32 then .error .MalformedReturn
    else .ok (beBytesToNat (out.take 32))

/-- The `FactsProvider` view of an `OnchainFactsProvider` (how the evaluator
consumes it). -/
def OnchainFactsProvider.toFactsProvider (p : OnchainFactsProvider)
    (sel : String → Nat) (world : World) : FactsProvider where
  block_timestamp := p.now
  get_slot0 := p.get_slot0 sel world
  is_rfs_closed := p.is_rfs_closed sel world
  queue_amount := p.queue_amount sel world
  reserve_of := p.reserve_of sel world
  get_settled_amounts := p.get_settled_amounts sel world
  get_commitment_maxima := p.get_commitment_maxima sel world
  grace_period_remaining := p.grace_period_remaining sel world
  staticcall_u256 := p.staticcall_u256 sel world

/-! ## Claim C7: closed RFS short-circuits to the `u64::MAX` sentinel -/

/-- **C7**: whenever the checkpoint fetched for a position reports
`is_open = false` (a zero second return word), `grace_period_remaining`
returns `u64::MAX` — the statement holds for *every* world agreeing with the
hypothesis on that single checkpoint query, so no further oracle call can
influence the result — and the `GracePeriodGte` check passes for every
`min_seconds` whenever the oracle returns `u64::MAX` for that position. -/
theorem claim_C7_grace_sentinel :
    (∀ (sel : String → Nat) (world : World) (sources : FactSources)
        (gcap now pid : Nat) (cp : List Nat),
      world sources.vts_orchestrator
          (natToBeBytes 4 (sel "positionToCheckpoint(bytes32)")
            ++ natToBeBytes 32 pid) = .ok cp →
      128 ≤ cp.length →
      beBytesToNat ((cp.drop 32).take 32) = 0 →
      (OnchainFactsProvider.new sel sources gcap now).grace_period_remaining
          sel world pid = .ok U64_MAX) ∧
    (∀ (f : FactsProvider) (pid min_seconds : Nat),
      f.grace_period_remaining pid = .ok U64_MAX →
      evaluate_program [.GracePeriodGte pid min_seconds] f = .ok ()) := by
  constructor
  · intro sel world sources gcap now pid cp hcall hlen hzero
    simp only [OnchainFactsProvider.grace_period_remaining,
      OnchainFactsProvider.staticcall, OnchainFactsProvider.new]
    rw [if_pos (by simp)]
    simp only [hcall]
    rw [if_neg (by omega)]
    simp [hzero]
  · intro f pid min_seconds hok
    simp [evaluate_program, evaluate_program.evalCheck, hok]

/-- A world whose every call returns 128 zero bytes (so every checkpoint
reads as closed). -/
def worldZero : World := fun _ _ => .ok (List.replicate 128 0)

set_option maxRecDepth 4000 in
/-- Witness for C7: the all-zeros world reports a closed checkpoint, the
derived fact is the sentinel, and `GracePeriodGte` with a huge
`min_seconds` admits. -/
theorem claim_C7_witness :
    (OnchainFactsProvider.new (fun _ => 0) ⟨1, 2, 3⟩ 200000 5).grace_period_remaining
        (fun _ => 0) worldZero 9 = .ok U64_MAX ∧
    evaluate_program [.GracePeriodGte 9 10000000]
      ((OnchainFactsProvider.new (fun _ => 0) ⟨1, 2, 3⟩ 200000 5).toFactsProvider
        (fun _ => 0) worldZero) = .ok () := by
  have hA := claim_C7_grace_sentinel.1 (fun _ => 0) worldZero ⟨1, 2, 3⟩ 200000 5 9
    (List.replicate 128 0) (by rfl) (by decide) (by decide)
  refine ⟨hA, ?_⟩
  exact claim_C7_grace_sentinel.2 _ 9 10000000
    (by simpa [OnchainFactsProvider.toFactsProvider] using hA)

theorem get_slot0_spec (sel : String → Nat) (world : World) (sources : FactSources)
    (gcap now : Nat) (pid : Nat) (out : List Nat)
    (hcall : world sources.state_view
      (natToBeBytes 4 (sel "getSlot0(bytes32)") ++ (natToBeBytes 32 pid)) = .ok out) :
    (OnchainFactsProvider.new sel sources gcap now).get_slot0 sel world pid
      = if out.length < 32 * 4 then .error .MalformedReturn
        else .ok ⟨beBytesToNat (out.take 32), decode_i24 ((out.drop 32).take 32), decode_u24 ((out.drop 64).take 32), decode_u24 ((out.drop 96).take 32)⟩ := by
  simp only [OnchainFactsProvider.get_slot0, OnchainFactsProvider.staticcall,
    OnchainFactsProvider.new]
  rw [if_pos (by simp)]
  simp only [hcall]

theorem is_rfs_closed_spec (sel : String → Nat) (world : World) (sources : FactSources)
    (gcap now : Nat) (pid : Nat) (out : List Nat)
    (hcall : world sources.vts_orchestrator
      (natToBeBytes 4 (sel "positionToCheckpoint(bytes32)") ++ (natToBeBytes 32 pid)) = .ok out) :
    (OnchainFactsProvider.new sel sources gcap now).is_rfs_closed sel world pid
      = if out.length < 32 * 4 then .error .MalformedReturn
        else .ok (!(beBytesToNat ((out.drop 32).take 32) != 0)) := by
  simp only [OnchainFactsProvider.is_rfs_closed, OnchainFactsProvider.staticcall,
    OnchainFactsProvider.new]
  rw [if_pos (by simp)]
  simp only [hcall]

theorem queue_amount_spec (sel : String → Nat) (world : World) (sources : FactSources)
    (gcap now : Nat) (lcc owner : Nat) (out : List Nat)
    (hcall : world sources.liquidity_hub
      (natToBeBytes 4 (sel "settleQueue(address,address)") ++ (abiAddress lcc ++ abiAddress owner)) = .ok out) :
    (OnchainFactsProvider.new sel sources gcap now).queue_amount sel world lcc owner
      = if out.length < 32 then .error .MalformedReturn
        else .ok (beBytesToNat (out.take 32)) := by
  simp only [OnchainFactsProvider.queue_amount, OnchainFactsProvider.staticcall,
    OnchainFactsProvider.new]
  rw [if_pos (by simp)]
  simp only [hcall]

theorem reserve_of_spec (sel : String → Nat) (world : World) (sources : FactSources)
    (gcap now : Nat) (lcc : Nat) (out : List Nat)
    (hcall : world sources.liquidity_hub
      (natToBeBytes 4 (sel "reserveOfUnderlying(address)") ++ (abiAddress lcc)) = .ok out) :
    (OnchainFactsProvider.new sel sources gcap now).reserve_of sel world lcc
      = if out.length < 32 then .error .MalformedReturn
        else .ok (beBytesToNat (out.take 32)) := by
  simp only [OnchainFactsProvider.reserve_of, OnchainFactsProvider.staticcall,
    OnchainFactsProvider.new]
  rw [if_pos (by simp)]
  simp only [hcall]

theorem get_settled_amounts_spec (sel : String → Nat) (world : World) (sources : FactSources)
    (gcap now : Nat) (pid : Nat) (out : List Nat)
    (hcall : world sources.vts_orchestrator
      (natToBeBytes 4 (sel "getPositionSettledAmounts(bytes32)") ++ (natToBeBytes 32 pid)) = .ok out) :
    (OnchainFactsProvider.new sel sources gcap now).get_settled_amounts sel world pid
      = if out.length < 32 * 2 then .error .MalformedReturn
        else .ok (beBytesToNat (out.take 32), beBytesToNat ((out.drop 32).take 32)) := by
  simp only [OnchainFactsProvider.get_settled_amounts, OnchainFactsProvider.staticcall,
    OnchainFactsProvider.new]
  rw [if_pos (by simp)]
  simp only [hcall]

theorem get_commitment_maxima_spec (sel : String → Nat) (world : World) (sources : FactSources)
    (gcap now : Nat) (pid : Nat) (out : List Nat)
    (hcall : world sources.vts_orchestrator
      (natToBeBytes 4 (sel "getCommitmentMaxima(bytes32)") ++ (natToBeBytes 32 pid)) = .ok out) :
    (OnchainFactsProvider.new sel sources gcap now).get_commitment_maxima sel world pid
      = if out.length < 32 * 2 then .error .MalformedReturn
        else .ok (beBytesToNat (out.take 32), beBytesToNat ((out.drop 32).take 32)) := by
  simp only [OnchainFactsProvider.get_commitment_maxima, OnchainFactsProvider.staticcall,
    OnchainFactsProvider.new]
  rw [if_pos (by simp)]
  simp only [hcall]


theorem staticcall_u256_spec (sel : String → Nat) (world : World)
    (sources : FactSources) (gcap now target selector : Nat) (args : List Nat)
    (out : List Nat)
    (hmem : (target, selector) ∈ (OnchainFactsProvider.new sel sources gcap now).allowlist)
    (hcall : world target (natToBeBytes 4 selector ++ args) = .ok out) :
    (OnchainFactsProvider.new sel sources gcap now).staticcall_u256 sel world
        target selector args
      = if out.length < 32 then .error .MalformedReturn
        else .ok (beBytesToNat (out.take 32)) := by
  simp only [OnchainFactsProvider.staticcall_u256, OnchainFactsProvider.staticcall]
  rw [if_pos hmem]
  simp only [hcall]

theorem slice_append_left (out extra : List Nat) (a k : Nat)
    (h : a + k ≤ out.length) :
    ((out ++ extra).drop a).take k = (out.drop a).take k := by
  rw [List.drop_append_eq_append_drop]
  rw [List.take_append_of_le_length (by simp; omega)]

/-- The arithmetic tail of `grace_period_remaining` once the checkpoint
(`cp`) and pool (`pool_out`) words are in hand (for an open RFS). -/
def graceRemaining (now : Nat) (cp pool_out : List Nat) : Nat :=
  let time_of_last_transition := beBytesToNat (cp.take 32)
  let grace_extension0 := beBytesToNat ((cp.drop 64).take 32)
  let grace_extension1 := beBytesToNat ((cp.drop 96).take 32)
  let grace0 := beBytesToNat ((pool_out.drop (32 * 3)).take 32)
  let grace1 := beBytesToNat ((pool_out.drop (32 * 7)).take 32)
  let elapsed :=
    if now > time_of_last_transition then now - time_of_last_transition else 0
  let total0 := (grace0 + grace_extension0) % 2 ^ 256
  let total1 := (grace1 + grace_extension1) % 2 ^ 256
  let earliest := if total0 < total1 then total0 else total1
  let remaining := if earliest > elapsed then earliest - elapsed else 0
  if remaining > U64_MAX then U64_MAX else remaining

/-- `grace_period_remaining` on an open RFS with all three calls resolved:
malformed pool data is reported, otherwise the remaining-time formula. -/
theorem grace_open_spec (sel : String → Nat) (world : World)
    (sources : FactSources) (gcap now pid : Nat) (cp pos_out pool_out : List Nat)
    (hcp : world sources.vts_orchestrator
      (natToBeBytes 4 (sel "positionToCheckpoint(bytes32)")
        ++ natToBeBytes 32 pid) = .ok cp)
    (hcplen : 32 * 4 ≤ cp.length)
    (hopen : beBytesToNat ((cp.drop 32).take 32) ≠ 0)
    (hpos : world sources.vts_orchestrator
      (natToBeBytes 4 (sel "getPosition(bytes32)")
        ++ natToBeBytes 32 pid) = .ok pos_out)
    (hposlen : 64 ≤ pos_out.length)
    (hpool : world sources.vts_orchestrator
      (natToBeBytes 4 (sel "getPool(bytes32)")
        ++ natToBeBytes 32 (beBytesToNat ((pos_out.drop 32).take 32)))
      = .ok pool_out) :
    (OnchainFactsProvider.new sel sources gcap now).grace_period_remaining
        sel world pid
      = if pool_out.length < 32 * 14 then .error .MalformedReturn
        else .ok (graceRemaining now cp pool_out) := by
  simp only [OnchainFactsProvider.grace_period_remaining,
    OnchainFactsProvider.staticcall, OnchainFactsProvider.new]
  rw [if_pos (by simp)]
  simp only [hcp]
  rw [if_neg (by omega)]
  rw [if_neg (by simpa using hopen)]
  rw [if_pos (by simp)]
  simp only [hpos]
  rw [if_neg (by omega)]
  rw [if_pos (by simp)]
  simp only [hpool]
  unfold graceRemaining
  split
  · rfl
  · simp only [apply_ite Except.ok]

/-! ## Claim C10: positional return decoders -/

theorem graceRemaining_ext (now : Nat) (cp e1 pool_out e3 : List Nat)
    (h1 : 128 ≤ cp.length) (h3 : 448 ≤ pool_out.length) :
    graceRemaining now (cp ++ e1) (pool_out ++ e3) = graceRemaining now cp pool_out := by
  unfold graceRemaining
  rw [List.take_append_of_le_length (by omega),
    slice_append_left cp e1 64 32 (by omega),
    slice_append_left cp e1 96 32 (by omega),
    slice_append_left pool_out e3 (32 * 3) 32 (by omega),
    slice_append_left pool_out e3 (32 * 7) 32 (by omega)]

/-- **C10**: every positional return decoder of `OnchainFactsProvider`
(`get_slot0`, `is_rfs_closed`, `queue_amount`, `reserve_of`,
`get_settled_amounts`, `get_commitment_maxima`, `grace_period_remaining`,
`staticcall_u256`) returns `MalformedReturn` exactly when a successful
external call returns fewer bytes than the expected number of 32-byte words
(for the derived `grace_period_remaining`: per sub-query, short-circuiting);
longer return data is accepted, with the decoded fact given by fixed word
slices, and two worlds whose relevant call results differ only by appended
excess bytes produce identical facts. -/
theorem claim_C10_positional_decoders :
    (∀ (sel : String → Nat) (world : World) (sources : FactSources)
        (gcap now : Nat) (pid : Nat) (out : List Nat),
      world sources.state_view
        (natToBeBytes 4 (sel "getSlot0(bytes32)") ++ (natToBeBytes 32 pid)) = .ok out →
      out.length < 32 * 4 →
      (OnchainFactsProvider.new sel sources gcap now).get_slot0 sel world pid
        = .error .MalformedReturn) ∧
    (∀ (sel : String → Nat) (world : World) (sources : FactSources)
        (gcap now : Nat) (pid : Nat) (out : List Nat),
      world sources.state_view
        (natToBeBytes 4 (sel "getSlot0(bytes32)") ++ (natToBeBytes 32 pid)) = .ok out →
      32 * 4 ≤ out.length →
      (OnchainFactsProvider.new sel sources gcap now).get_slot0 sel world pid
        = .ok ⟨beBytesToNat (out.take 32), decode_i24 ((out.drop 32).take 32), decode_u24 ((out.drop 64).take 32), decode_u24 ((out.drop 96).take 32)⟩) ∧
    (∀ (sel : String → Nat) (w1 w2 : World) (sources : FactSources)
        (gcap now : Nat) (pid : Nat) (out extra : List Nat),
      w1 sources.state_view
        (natToBeBytes 4 (sel "getSlot0(bytes32)") ++ (natToBeBytes 32 pid)) = .ok out →
      w2 sources.state_view
        (natToBeBytes 4 (sel "getSlot0(bytes32)") ++ (natToBeBytes 32 pid)) = .ok (out ++ extra) →
      32 * 4 ≤ out.length →
      (OnchainFactsProvider.new sel sources gcap now).get_slot0 sel w2 pid
        = (OnchainFactsProvider.new sel sources gcap now).get_slot0 sel w1 pid) ∧
    (∀ (sel : String → Nat) (world : World) (sources : FactSources)
        (gcap now : Nat) (pid : Nat) (out : List Nat),
      world sources.vts_orchestrator
        (natToBeBytes 4 (sel "positionToCheckpoint(bytes32)") ++ (natToBeBytes 32 pid)) = .ok out →
      out.length < 32 * 4 →
      (OnchainFactsProvider.new sel sources gcap now).is_rfs_closed sel world pid
        = .error .MalformedReturn) ∧
    (∀ (sel : String → Nat) (world : World) (sources : FactSources)
        (gcap now : Nat) (pid : Nat) (out : List Nat),
      world sources.vts_orchestrator
        (natToBeBytes 4 (sel "positionToCheckpoint(bytes32)") ++ (natToBeBytes 32 pid)) = .ok out →
      32 * 4 ≤ out.length →
      (OnchainFactsProvider.new sel sources gcap now).is_rfs_closed sel world pid
        = .ok (!(beBytesToNat ((out.drop 32).take 32) != 0))) ∧
    (∀ (sel : String → Nat) (w1 w2 : World) (sources : FactSources)
        (gcap now : Nat) (pid : Nat) (out extra : List Nat),
      w1 sources.vts_orchestrator
        (natToBeBytes 4 (sel "positionToCheckpoint(bytes32)") ++ (natToBeBytes 32 pid)) = .ok out →
      w2 sources.vts_orchestrator
        (natToBeBytes 4 (sel "positionToCheckpoint(bytes32)") ++ (natToBeBytes 32 pid)) = .ok (out ++ extra) →
      32 * 4 ≤ out.length →
      (OnchainFactsProvider.new sel sources gcap now).is_rfs_closed sel w2 pid
        = (OnchainFactsProvider.new sel sources gcap now).is_rfs_closed sel w1 pid) ∧
    (∀ (sel : String → Nat) (world : World) (sources : FactSources)
        (gcap now : Nat) (lcc owner : Nat) (out : List Nat),
      world sources.liquidity_hub
        (natToBeBytes 4 (sel "settleQueue(address,address)") ++ (abiAddress lcc ++ abiAddress owner)) = .ok out →
      out.length < 32 →
      (OnchainFactsProvider.new sel sources gcap now).queue_amount sel world lcc owner
        = .error .MalformedReturn) ∧
    (∀ (sel : String → Nat) (world : World) (sources : FactSources)
        (gcap now : Nat) (lcc owner : Nat) (out : List Nat),
      world sources.liquidity_hub
        (natToBeBytes 4 (sel "settleQueue(address,address)") ++ (abiAddress lcc ++ abiAddress owner)) = .ok out →
      32 ≤ out.length →
      (OnchainFactsProvider.new sel sources gcap now).queue_amount sel world lcc owner
        = .ok (beBytesToNat (out.take 32))) ∧
    (∀ (sel : String → Nat) (w1 w2 : World) (sources : FactSources)
        (gcap now : Nat) (lcc owner : Nat) (out extra : List Nat),
      w1 sources.liquidity_hub
        (natToBeBytes 4 (sel "settleQueue(address,address)") ++ (abiAddress lcc ++ abiAddress owner)) = .ok out →
      w2 sources.liquidity_hub
        (natToBeBytes 4 (sel "settleQueue(address,address)") ++ (abiAddress lcc ++ abiAddress owner)) = .ok (out ++ extra) →
      32 ≤ out.length →
      (OnchainFactsProvider.new sel sources gcap now).queue_amount sel w2 lcc owner
        = (OnchainFactsProvider.new sel sources gcap now).queue_amount sel w1 lcc owner) ∧
    (∀ (sel : String → Nat) (world : World) (sources : FactSources)
        (gcap now : Nat) (lcc : Nat) (out : List Nat),
      world sources.liquidity_hub
        (natToBeBytes 4 (sel "reserveOfUnderlying(address)") ++ (abiAddress lcc)) = .ok out →
      out.length < 32 →
      (OnchainFactsProvider.new sel sources gcap now).reserve_of sel world lcc
        = .error .MalformedReturn) ∧
    (∀ (sel : String → Nat) (world : World) (sources : FactSources)
        (gcap now : Nat) (lcc : Nat) (out : List Nat),
      world sources.liquidity_hub
        (natToBeBytes 4 (sel "reserveOfUnderlying(address)") ++ (abiAddress lcc)) = .ok out →
      32 ≤ out.length →
      (OnchainFactsProvider.new sel sources gcap now).reserve_of sel world lcc
        = .ok (beBytesToNat (out.take 32))) ∧
    (∀ (sel : String → Nat) (w1 w2 : World) (sources : FactSources)
        (gcap now : Nat) (lcc : Nat) (out extra : List Nat),
      w1 sources.liquidity_hub
        (natToBeBytes 4 (sel "reserveOfUnderlying(address)") ++ (abiAddress lcc)) = .ok out →
      w2 sources.liquidity_hub
        (natToBeBytes 4 (sel "reserveOfUnderlying(address)") ++ (abiAddress lcc)) = .ok (out ++ extra) →
      32 ≤ out.length →
      (OnchainFactsProvider.new sel sources gcap now).reserve_of sel w2 lcc
        = (OnchainFactsProvider.new sel sources gcap now).reserve_of sel w1 lcc) ∧
    (∀ (sel : String → Nat) (world : World) (sources : FactSources)
        (gcap now : Nat) (pid : Nat) (out : List Nat),
      world sources.vts_orchestrator
        (natToBeBytes 4 (sel "getPositionSettledAmounts(bytes32)") ++ (natToBeBytes 32 pid)) = .ok out →
      out.length < 32 * 2 →
      (OnchainFactsProvider.new sel sources gcap now).get_settled_amounts sel world pid
        = .error .MalformedReturn) ∧
    (∀ (sel : String → Nat) (world : World) (sources : FactSources)
        (gcap now : Nat) (pid : Nat) (out : List Nat),
      world sources.vts_orchestrator
        (natToBeBytes 4 (sel "getPositionSettledAmounts(bytes32)") ++ (natToBeBytes 32 pid)) = .ok out →
      32 * 2 ≤ out.length →
      (OnchainFactsProvider.new sel sources gcap now).get_settled_amounts sel world pid
        = .ok (beBytesToNat (out.take 32), beBytesToNat ((out.drop 32).take 32))) ∧
    (∀ (sel : String → Nat) (w1 w2 : World) (sources : FactSources)
        (gcap now : Nat) (pid : Nat) (out extra : List Nat),
      w1 sources.vts_orchestrator
        (natToBeBytes 4 (sel "getPositionSettledAmounts(bytes32)") ++ (natToBeBytes 32 pid)) = .ok out →
      w2 sources.vts_orchestrator
        (natToBeBytes 4 (sel "getPositionSettledAmounts(bytes32)") ++ (natToBeBytes 32 pid)) = .ok (out ++ extra) →
      32 * 2 ≤ out.length →
      (OnchainFactsProvider.new sel sources gcap now).get_settled_amounts sel w2 pid
        = (OnchainFactsProvider.new sel sources gcap now).get_settled_amounts sel w1 pid) ∧
    (∀ (sel : String → Nat) (world : World) (sources : FactSources)
        (gcap now : Nat) (pid : Nat) (out : List Nat),
      world sources.vts_orchestrator
        (natToBeBytes 4 (sel "getCommitmentMaxima(bytes32)") ++ (natToBeBytes 32 pid)) = .ok out →
      out.length < 32 * 2 →
      (OnchainFactsProvider.new sel sources gcap now).get_commitment_maxima sel world pid
        = .error .MalformedReturn) ∧
    (∀ (sel : String → Nat) (world : World) (sources : FactSources)
        (gcap now : Nat) (pid : Nat) (out : List Nat),
      world sources.vts_orchestrator
        (natToBeBytes 4 (sel "getCommitmentMaxima(bytes32)") ++ (natToBeBytes 32 pid)) = .ok out →
      32 * 2 ≤ out.length →
      (OnchainFactsProvider.new sel sources gcap now).get_commitment_maxima sel world pid
        = .ok (beBytesToNat (out.take 32), beBytesToNat ((out.drop 32).take 32))) ∧
    (∀ (sel : String → Nat) (w1 w2 : World) (sources : FactSources)
        (gcap now : Nat) (pid : Nat) (out extra : List Nat),
      w1 sources.vts_orchestrator
        (natToBeBytes 4 (sel "getCommitmentMaxima(bytes32)") ++ (natToBeBytes 32 pid)) = .ok out →
      w2 sources.vts_orchestrator
        (natToBeBytes 4 (sel "getCommitmentMaxima(bytes32)") ++ (natToBeBytes 32 pid)) = .ok (out ++ extra) →
      32 * 2 ≤ out.length →
      (OnchainFactsProvider.new sel sources gcap now).get_commitment_maxima sel w2 pid
        = (OnchainFactsProvider.new sel sources gcap now).get_commitment_maxima sel w1 pid) ∧
    (∀ (sel : String → Nat) (world : World) (sources : FactSources)
        (gcap now target selector : Nat) (args out : List Nat),
      (target, selector) ∈ (OnchainFactsProvider.new sel sources gcap now).allowlist →
      world target (natToBeBytes 4 selector ++ args) = .ok out →
      out.length < 32 →
      (OnchainFactsProvider.new sel sources gcap now).staticcall_u256 sel world
          target selector args = .error .MalformedReturn) ∧
    (∀ (sel : String → Nat) (world : World) (sources : FactSources)
        (gcap now target selector : Nat) (args out : List Nat),
      (target, selector) ∈ (OnchainFactsProvider.new sel sources gcap now).allowlist →
      world target (natToBeBytes 4 selector ++ args) = .ok out →
      32 ≤ out.length →
      (OnchainFactsProvider.new sel sources gcap now).staticcall_u256 sel world
          target selector args = .ok (beBytesToNat (out.take 32))) ∧
    (∀ (sel : String → Nat) (w1 w2 : World) (sources : FactSources)
        (gcap now target selector : Nat) (args out extra : List Nat),
      (target, selector) ∈ (OnchainFactsProvider.new sel sources gcap now).allowlist →
      w1 target (natToBeBytes 4 selector ++ args) = .ok out →
      w2 target (natToBeBytes 4 selector ++ args) = .ok (out ++ extra) →
      32 ≤ out.length →
      (OnchainFactsProvider.new sel sources gcap now).staticcall_u256 sel w2
          target selector args
        = (OnchainFactsProvider.new sel sources gcap now).staticcall_u256 sel w1
            target selector args) ∧
    (∀ (sel : String → Nat) (world : World) (sources : FactSources)
        (gcap now pid : Nat) (cp : List Nat),
      world sources.vts_orchestrator
        (natToBeBytes 4 (sel "positionToCheckpoint(bytes32)") ++ natToBeBytes 32 pid) = .ok cp →
      cp.length < 32 * 4 →
      (OnchainFactsProvider.new sel sources gcap now).grace_period_remaining sel world pid = .error .MalformedReturn) ∧
    (∀ (sel : String → Nat) (world : World) (sources : FactSources)
        (gcap now pid : Nat) (cp : List Nat),
      world sources.vts_orchestrator
        (natToBeBytes 4 (sel "positionToCheckpoint(bytes32)") ++ natToBeBytes 32 pid) = .ok cp →
      32 * 4 ≤ cp.length →
      beBytesToNat ((cp.drop 32).take 32) = 0 →
      (OnchainFactsProvider.new sel sources gcap now).grace_period_remaining sel world pid = .ok U64_MAX) ∧
    (∀ (sel : String → Nat) (world : World) (sources : FactSources)
        (gcap now pid : Nat) (cp pos_out : List Nat),
      world sources.vts_orchestrator
        (natToBeBytes 4 (sel "positionToCheckpoint(bytes32)") ++ natToBeBytes 32 pid) = .ok cp →
      32 * 4 ≤ cp.length →
      beBytesToNat ((cp.drop 32).take 32) ≠ 0 →
      world sources.vts_orchestrator
        (natToBeBytes 4 (sel "getPosition(bytes32)") ++ natToBeBytes 32 pid) = .ok pos_out →
      pos_out.length < 64 →
      (OnchainFactsProvider.new sel sources gcap now).grace_period_remaining sel world pid = .error .MalformedReturn) ∧
    (∀ (sel : String → Nat) (world : World) (sources : FactSources)
        (gcap now pid : Nat) (cp pos_out pool_out : List Nat),
      world sources.vts_orchestrator
        (natToBeBytes 4 (sel "positionToCheckpoint(bytes32)") ++ natToBeBytes 32 pid) = .ok cp →
      32 * 4 ≤ cp.length →
      beBytesToNat ((cp.drop 32).take 32) ≠ 0 →
      world sources.vts_orchestrator
        (natToBeBytes 4 (sel "getPosition(bytes32)") ++ natToBeBytes 32 pid) = .ok pos_out →
      64 ≤ pos_out.length →
      world sources.vts_orchestrator
        (natToBeBytes 4 (sel "getPool(bytes32)") ++ natToBeBytes 32 (beBytesToNat ((pos_out.drop 32).take 32))) = .ok pool_out →
      pool_out.length < 32 * 14 →
      (OnchainFactsProvider.new sel sources gcap now).grace_period_remaining sel world pid = .error .MalformedReturn) ∧
    (∀ (sel : String → Nat) (world : World) (sources : FactSources)
        (gcap now pid : Nat) (cp pos_out pool_out : List Nat),
      world sources.vts_orchestrator
        (natToBeBytes 4 (sel "positionToCheckpoint(bytes32)") ++ natToBeBytes 32 pid) = .ok cp →
      32 * 4 ≤ cp.length →
      beBytesToNat ((cp.drop 32).take 32) ≠ 0 →
      world sources.vts_orchestrator
        (natToBeBytes 4 (sel "getPosition(bytes32)") ++ natToBeBytes 32 pid) = .ok pos_out →
      64 ≤ pos_out.length →
      world sources.vts_orchestrator
        (natToBeBytes 4 (sel "getPool(bytes32)") ++ natToBeBytes 32 (beBytesToNat ((pos_out.drop 32).take 32))) = .ok pool_out →
      32 * 14 ≤ pool_out.length →
      (OnchainFactsProvider.new sel sources gcap now).grace_period_remaining sel world pid = .ok (graceRemaining now cp pool_out)) ∧
    (∀ (sel : String → Nat) (w1 w2 : World) (sources : FactSources)
        (gcap now pid : Nat) (cp pos_out pool_out e1 e2 e3 : List Nat),
      w1 sources.vts_orchestrator
        (natToBeBytes 4 (sel "positionToCheckpoint(bytes32)") ++ natToBeBytes 32 pid) = .ok cp →
      w1 sources.vts_orchestrator
        (natToBeBytes 4 (sel "getPosition(bytes32)") ++ natToBeBytes 32 pid) = .ok pos_out →
      w1 sources.vts_orchestrator
        (natToBeBytes 4 (sel "getPool(bytes32)") ++ natToBeBytes 32 (beBytesToNat ((pos_out.drop 32).take 32))) = .ok pool_out →
      w2 sources.vts_orchestrator
        (natToBeBytes 4 (sel "positionToCheckpoint(bytes32)") ++ natToBeBytes 32 pid) = .ok (cp ++ e1) →
      w2 sources.vts_orchestrator
        (natToBeBytes 4 (sel "getPosition(bytes32)") ++ natToBeBytes 32 pid) = .ok (pos_out ++ e2) →
      w2 sources.vts_orchestrator
        (natToBeBytes 4 (sel "getPool(bytes32)") ++ natToBeBytes 32 (beBytesToNat ((pos_out.drop 32).take 32))) = .ok (pool_out ++ e3) →
      32 * 4 ≤ cp.length →
      beBytesToNat ((cp.drop 32).take 32) ≠ 0 →
      64 ≤ pos_out.length →
      32 * 14 ≤ pool_out.length →
      (OnchainFactsProvider.new sel sources gcap now).grace_period_remaining sel w2 pid = (OnchainFactsProvider.new sel sources gcap now).grace_period_remaining sel w1 pid) := by
  refine ⟨?_, ?_, ?_, ?_, ?_, ?_, ?_, ?_, ?_, ?_, ?_, ?_, ?_, ?_, ?_, ?_, ?_, ?_, ?_, ?_, ?_, ?_, ?_, ?_, ?_, ?_, ?_⟩
  · intro sel world sources gcap now pid out hcall hshort
    rw [get_slot0_spec sel world sources gcap now pid out hcall]
    rw [if_pos hshort]
  · intro sel world sources gcap now pid out hcall hlong
    rw [get_slot0_spec sel world sources gcap now pid out hcall]
    rw [if_neg (by omega)]
  · intro sel w1 w2 sources gcap now pid out extra h1 h2 hlong
    rw [get_slot0_spec sel w2 sources gcap now pid (out ++ extra) h2]
    rw [get_slot0_spec sel w1 sources gcap now pid out h1]
    rw [if_neg (by simp; omega), if_neg (by omega)]
    rw [List.take_append_of_le_length (by omega), slice_append_left out extra 32 32 (by omega), slice_append_left out extra 64 32 (by omega), slice_append_left out extra 96 32 (by omega)]
  · intro sel world sources gcap now pid out hcall hshort
    rw [is_rfs_closed_spec sel world sources gcap now pid out hcall]
    rw [if_pos hshort]
  · intro sel world sources gcap now pid out hcall hlong
    rw [is_rfs_closed_spec sel world sources gcap now pid out hcall]
    rw [if_neg (by omega)]
  · intro sel w1 w2 sources gcap now pid out extra h1 h2 hlong
    rw [is_rfs_closed_spec sel w2 sources gcap now pid (out ++ extra) h2]
    rw [is_rfs_closed_spec sel w1 sources gcap now pid out h1]
    rw [if_neg (by simp; omega), if_neg (by omega)]
    rw [slice_append_left out extra 32 32 (by omega)]
  · intro sel world sources gcap now lcc owner out hcall hshort
    rw [queue_amount_spec sel world sources gcap now lcc owner out hcall]
    rw [if_pos hshort]
  · intro sel world sources gcap now lcc owner out hcall hlong
    rw [queue_amount_spec sel world sources gcap now lcc owner out hcall]
    rw [if_neg (by omega)]
  · intro sel w1 w2 sources gcap now lcc owner out extra h1 h2 hlong
    rw [queue_amount_spec sel w2 sources gcap now lcc owner (out ++ extra) h2]
    rw [queue_amount_spec sel w1 sources gcap now lcc owner out h1]
    rw [if_neg (by simp; omega), if_neg (by omega)]
    rw [List.take_append_of_le_length (by omega)]
  · intro sel world sources gcap now lcc out hcall hshort
    rw [reserve_of_spec sel world sources gcap now lcc out hcall]
    rw [if_pos hshort]
  · intro sel world sources gcap now lcc out hcall hlong
    rw [reserve_of_spec sel world sources gcap now lcc out hcall]
    rw [if_neg (by omega)]
  · intro sel w1 w2 sources gcap now lcc out extra h1 h2 hlong
    rw [reserve_of_spec sel w2 sources gcap now lcc (out ++ extra) h2]
    rw [reserve_of_spec sel w1 sources gcap now lcc out h1]
    rw [if_neg (by simp; omega), if_neg (by omega)]
    rw [List.take_append_of_le_length (by omega)]
  · intro sel world sources gcap now pid out hcall hshort
    rw [get_settled_amounts_spec sel world sources gcap now pid out hcall]
    rw [if_pos hshort]
  · intro sel world sources gcap now pid out hcall hlong
    rw [get_settled_amounts_spec sel world sources gcap now pid out hcall]
    rw [if_neg (by omega)]
  · intro sel w1 w2 sources gcap now pid out extra h1 h2 hlong
    rw [get_settled_amounts_spec sel w2 sources gcap now pid (out ++ extra) h2]
    rw [get_settled_amounts_spec sel w1 sources gcap now pid out h1]
    rw [if_neg (by simp; omega), if_neg (by omega)]
    rw [List.take_append_of_le_length (by omega), slice_append_left out extra 32 32 (by omega)]
  · intro sel world sources gcap now pid out hcall hshort
    rw [get_commitment_maxima_spec sel world sources gcap now pid out hcall]
    rw [if_pos hshort]
  · intro sel world sources gcap now pid out hcall hlong
    rw [get_commitment_maxima_spec sel world sources gcap now pid out hcall]
    rw [if_neg (by omega)]
  · intro sel w1 w2 sources gcap now pid out extra h1 h2 hlong
    rw [get_commitment_maxima_spec sel w2 sources gcap now pid (out ++ extra) h2]
    rw [get_commitment_maxima_spec sel w1 sources gcap now pid out h1]
    rw [if_neg (by simp; omega), if_neg (by omega)]
    rw [List.take_append_of_le_length (by omega), slice_append_left out extra 32 32 (by omega)]
  · intro sel world sources gcap now target selector args out hmem hcall hshort
    rw [staticcall_u256_spec sel world sources gcap now target selector args out hmem hcall]
    rw [if_pos hshort]
  · intro sel world sources gcap now target selector args out hmem hcall hlong
    rw [staticcall_u256_spec sel world sources gcap now target selector args out hmem hcall]
    rw [if_neg (by omega)]
  · intro sel w1 w2 sources gcap now target selector args out extra hmem h1 h2 hlong
    rw [staticcall_u256_spec sel w2 sources gcap now target selector args (out ++ extra) hmem h2]
    rw [staticcall_u256_spec sel w1 sources gcap now target selector args out hmem h1]
    rw [if_neg (by simp; omega), if_neg (by omega)]
    rw [List.take_append_of_le_length (by omega)]
  · intro sel world sources gcap now pid cp hcp hshort
    simp only [OnchainFactsProvider.grace_period_remaining,
      OnchainFactsProvider.staticcall, OnchainFactsProvider.new]
    rw [if_pos (by simp)]
    simp only [hcp]
    rw [if_pos hshort]
  · intro sel world sources gcap now pid cp hcp hlen hzero
    simp only [OnchainFactsProvider.grace_period_remaining,
      OnchainFactsProvider.staticcall, OnchainFactsProvider.new]
    rw [if_pos (by simp)]
    simp only [hcp]
    rw [if_neg (by omega)]
    simp [hzero]
  · intro sel world sources gcap now pid cp pos_out hcp hcplen hopen hpos hposshort
    simp only [OnchainFactsProvider.grace_period_remaining,
      OnchainFactsProvider.staticcall, OnchainFactsProvider.new]
    rw [if_pos (by simp)]
    simp only [hcp]
    rw [if_neg (by omega)]
    rw [if_neg (by simpa using hopen)]
    rw [if_pos (by simp)]
    simp only [hpos]
    rw [if_pos hposshort]
  · intro sel world sources gcap now pid cp pos_out pool_out hcp hcplen hopen hpos hposlen hpool hpoolshort
    rw [grace_open_spec sel world sources gcap now pid cp pos_out pool_out hcp hcplen hopen hpos hposlen hpool]
    rw [if_pos hpoolshort]
  · intro sel world sources gcap now pid cp pos_out pool_out hcp hcplen hopen hpos hposlen hpool hpoollen
    rw [grace_open_spec sel world sources gcap now pid cp pos_out pool_out hcp hcplen hopen hpos hposlen hpool]
    rw [if_neg (by omega)]
  · intro sel w1 w2 sources gcap now pid cp pos_out pool_out e1 e2 e3 hcp1 hpos1 hpool1 hcp2 hpos2 hpool2 hcplen hopen hposlen hpoollen
    have hpool2x : w2 sources.vts_orchestrator
        (natToBeBytes 4 (sel "getPool(bytes32)")
          ++ natToBeBytes 32 (beBytesToNat ((((pos_out ++ e2)).drop 32).take 32)))
        = .ok (pool_out ++ e3) := by
      rw [slice_append_left pos_out e2 32 32 (by omega)]
      exact hpool2
    rw [grace_open_spec sel w2 sources gcap now pid (cp ++ e1) (pos_out ++ e2)
      (pool_out ++ e3) hcp2 (by simp; omega)
      (by rw [slice_append_left cp e1 32 32 (by omega)]; exact hopen)
      hpos2 (by simp; omega) hpool2x]
    rw [grace_open_spec sel w1 sources gcap now pid cp pos_out pool_out
      hcp1 hcplen hopen hpos1 hposlen hpool1]
    rw [if_neg (by simp; omega), if_neg (by omega)]
    rw [graceRemaining_ext now cp e1 pool_out e3 (by omega) (by omega)]


/-- Concrete data for the C10 witness. -/
def selC10 : String → Nat := fun s =>
  if s = "getPosition(bytes32)" then 1 else if s = "getPool(bytes32)" then 2 else 0

def srcC10 : FactSources := ⟨1, 2, 3⟩

/-- A 448-byte return blob whose second word is non-zero (open RFS). -/
def cpOpen : List Nat :=
  List.replicate 32 0 ++ (List.replicate 32 1 ++ List.replicate 384 0)

def wShort : World := fun _ _ => .ok [0]
def wZero448 : World := fun _ _ => .ok (List.replicate 448 0)
def wOpen : World := fun _ _ => .ok cpOpen
def wOpenExt : World := fun _ _ => .ok (cpOpen ++ [7])
def wPosShort : World := fun _ data =>
  if data.getD 3 0 = 1 then .ok [0] else .ok cpOpen
def wPoolShort : World := fun _ data =>
  if data.getD 3 0 = 2 then .ok [0] else .ok cpOpen

set_option maxRecDepth 20000 in
/-- Witness for C10: every conjunct instantiated at concrete worlds. -/
theorem claim_C10_witness :
    (OnchainFactsProvider.new selC10 srcC10 0 0).get_slot0 selC10 wShort 9 = .error .MalformedReturn ∧
    (OnchainFactsProvider.new selC10 srcC10 0 0).get_slot0 selC10 wOpen 9 = .ok ⟨beBytesToNat (cpOpen.take 32), decode_i24 ((cpOpen.drop 32).take 32), decode_u24 ((cpOpen.drop 64).take 32), decode_u24 ((cpOpen.drop 96).take 32)⟩ ∧
    (OnchainFactsProvider.new selC10 srcC10 0 0).get_slot0 selC10 wOpenExt 9 = (OnchainFactsProvider.new selC10 srcC10 0 0).get_slot0 selC10 wOpen 9 ∧
    (OnchainFactsProvider.new selC10 srcC10 0 0).is_rfs_closed selC10 wShort 9 = .error .MalformedReturn ∧
    (OnchainFactsProvider.new selC10 srcC10 0 0).is_rfs_closed selC10 wOpen 9 = .ok (!(beBytesToNat ((cpOpen.drop 32).take 32) != 0)) ∧
    (OnchainFactsProvider.new selC10 srcC10 0 0).is_rfs_closed selC10 wOpenExt 9 = (OnchainFactsProvider.new selC10 srcC10 0 0).is_rfs_closed selC10 wOpen 9 ∧
    (OnchainFactsProvider.new selC10 srcC10 0 0).queue_amount selC10 wShort 4 5 = .error .MalformedReturn ∧
    (OnchainFactsProvider.new selC10 srcC10 0 0).queue_amount selC10 wOpen 4 5 = .ok (beBytesToNat (cpOpen.take 32)) ∧
    (OnchainFactsProvider.new selC10 srcC10 0 0).queue_amount selC10 wOpenExt 4 5 = (OnchainFactsProvider.new selC10 srcC10 0 0).queue_amount selC10 wOpen 4 5 ∧
    (OnchainFactsProvider.new selC10 srcC10 0 0).reserve_of selC10 wShort 4 = .error .MalformedReturn ∧
    (OnchainFactsProvider.new selC10 srcC10 0 0).reserve_of selC10 wOpen 4 = .ok (beBytesToNat (cpOpen.take 32)) ∧
    (OnchainFactsProvider.new selC10 srcC10 0 0).reserve_of selC10 wOpenExt 4 = (OnchainFactsProvider.new selC10 srcC10 0 0).reserve_of selC10 wOpen 4 ∧
    (OnchainFactsProvider.new selC10 srcC10 0 0).get_settled_amounts selC10 wShort 9 = .error .MalformedReturn ∧
    (OnchainFactsProvider.new selC10 srcC10 0 0).get_settled_amounts selC10 wOpen 9 = .ok (beBytesToNat (cpOpen.take 32), beBytesToNat ((cpOpen.drop 32).take 32)) ∧
    (OnchainFactsProvider.new selC10 srcC10 0 0).get_settled_amounts selC10 wOpenExt 9 = (OnchainFactsProvider.new selC10 srcC10 0 0).get_settled_amounts selC10 wOpen 9 ∧
    (OnchainFactsProvider.new selC10 srcC10 0 0).get_commitment_maxima selC10 wShort 9 = .error .MalformedReturn ∧
    (OnchainFactsProvider.new selC10 srcC10 0 0).get_commitment_maxima selC10 wOpen 9 = .ok (beBytesToNat (cpOpen.take 32), beBytesToNat ((cpOpen.drop 32).take 32)) ∧
    (OnchainFactsProvider.new selC10 srcC10 0 0).get_commitment_maxima selC10 wOpenExt 9 = (OnchainFactsProvider.new selC10 srcC10 0 0).get_commitment_maxima selC10 wOpen 9 ∧
    (OnchainFactsProvider.new selC10 srcC10 0 0).staticcall_u256 selC10 wShort 1 0 [] = .error .MalformedReturn ∧
    (OnchainFactsProvider.new selC10 srcC10 0 0).staticcall_u256 selC10 wOpen 1 0 [] = .ok (beBytesToNat (cpOpen.take 32)) ∧
    (OnchainFactsProvider.new selC10 srcC10 0 0).staticcall_u256 selC10 wOpenExt 1 0 [] = (OnchainFactsProvider.new selC10 srcC10 0 0).staticcall_u256 selC10 wOpen 1 0 [] ∧
    (OnchainFactsProvider.new selC10 srcC10 0 0).grace_period_remaining selC10 wShort 9 = .error .MalformedReturn ∧
    (OnchainFactsProvider.new selC10 srcC10 0 0).grace_period_remaining selC10 wZero448 9 = .ok U64_MAX ∧
    (OnchainFactsProvider.new selC10 srcC10 0 0).grace_period_remaining selC10 wPosShort 9 = .error .MalformedReturn ∧
    (OnchainFactsProvider.new selC10 srcC10 0 0).grace_period_remaining selC10 wPoolShort 9 = .error .MalformedReturn ∧
    (OnchainFactsProvider.new selC10 srcC10 0 0).grace_period_remaining selC10 wOpen 9 = .ok (graceRemaining 0 cpOpen cpOpen) ∧
    (OnchainFactsProvider.new selC10 srcC10 0 0).grace_period_remaining selC10 wOpenExt 9 = (OnchainFactsProvider.new selC10 srcC10 0 0).grace_period_remaining selC10 wOpen 9 := by
  refine ⟨?_, ?_, ?_, ?_, ?_, ?_, ?_, ?_, ?_, ?_, ?_, ?_, ?_, ?_, ?_, ?_, ?_, ?_, ?_, ?_, ?_, ?_, ?_, ?_, ?_, ?_, ?_⟩
  exact claim_C10_positional_decoders.1 selC10 wShort srcC10 0 0 9 [0] (by rfl) (by decide)
  exact claim_C10_positional_decoders.2.1 selC10 wOpen srcC10 0 0 9 cpOpen (by rfl) (by decide)
  exact claim_C10_positional_decoders.2.2.1 selC10 wOpen wOpenExt srcC10 0 0 9 cpOpen [7] (by rfl) (by rfl) (by decide)
  exact claim_C10_positional_decoders.2.2.2.1 selC10 wShort srcC10 0 0 9 [0] (by rfl) (by decide)
  exact claim_C10_positional_decoders.2.2.2.2.1 selC10 wOpen srcC10 0 0 9 cpOpen (by rfl) (by decide)
  exact claim_C10_positional_decoders.2.2.2.2.2.1 selC10 wOpen wOpenExt srcC10 0 0 9 cpOpen [7] (by rfl) (by rfl) (by decide)
  exact claim_C10_positional_decoders.2.2.2.2.2.2.1 selC10 wShort srcC10 0 0 4 5 [0] (by rfl) (by decide)
  exact claim_C10_positional_decoders.2.2.2.2.2.2.2.1 selC10 wOpen srcC10 0 0 4 5 cpOpen (by rfl) (by decide)
  exact claim_C10_positional_decoders.2.2.2.2.2.2.2.2.1 selC10 wOpen wOpenExt srcC10 0 0 4 5 cpOpen [7] (by rfl) (by rfl) (by decide)
  exact claim_C10_positional_decoders.2.2.2.2.2.2.2.2.2.1 selC10 wShort srcC10 0 0 4 [0] (by rfl) (by decide)
  exact claim_C10_positional_decoders.2.2.2.2.2.2.2.2.2.2.1 selC10 wOpen srcC10 0 0 4 cpOpen (by rfl) (by decide)
  exact claim_C10_positional_decoders.2.2.2.2.2.2.2.2.2.2.2.1 selC10 wOpen wOpenExt srcC10 0 0 4 cpOpen [7] (by rfl) (by rfl) (by decide)
  exact claim_C10_positional_decoders.2.2.2.2.2.2.2.2.2.2.2.2.1 selC10 wShort srcC10 0 0 9 [0] (by rfl) (by decide)
  exact claim_C10_positional_decoders.2.2.2.2.2.2.2.2.2.2.2.2.2.1 selC10 wOpen srcC10 0 0 9 cpOpen (by rfl) (by decide)
  exact claim_C10_positional_decoders.2.2.2.2.2.2.2.2.2.2.2.2.2.2.1 selC10 wOpen wOpenExt srcC10 0 0 9 cpOpen [7] (by rfl) (by rfl) (by decide)
  exact claim_C10_positional_decoders.2.2.2.2.2.2.2.2.2.2.2.2.2.2.2.1 selC10 wShort srcC10 0 0 9 [0] (by rfl) (by decide)
  exact claim_C10_positional_decoders.2.2.2.2.2.2.2.2.2.2.2.2.2.2.2.2.1 selC10 wOpen srcC10 0 0 9 cpOpen (by rfl) (by decide)
  exact claim_C10_positional_decoders.2.2.2.2.2.2.2.2.2.2.2.2.2.2.2.2.2.1 selC10 wOpen wOpenExt srcC10 0 0 9 cpOpen [7] (by rfl) (by rfl) (by decide)
  exact claim_C10_positional_decoders.2.2.2.2.2.2.2.2.2.2.2.2.2.2.2.2.2.2.1 selC10 wShort srcC10 0 0 1 0 [] [0] (by decide) (by rfl) (by decide)
  exact claim_C10_positional_decoders.2.2.2.2.2.2.2.2.2.2.2.2.2.2.2.2.2.2.2.1 selC10 wOpen srcC10 0 0 1 0 [] cpOpen (by decide) (by rfl) (by decide)
  exact claim_C10_positional_decoders.2.2.2.2.2.2.2.2.2.2.2.2.2.2.2.2.2.2.2.2.1 selC10 wOpen wOpenExt srcC10 0 0 1 0 [] cpOpen [7] (by decide) (by rfl) (by rfl) (by decide)
  exact claim_C10_positional_decoders.2.2.2.2.2.2.2.2.2.2.2.2.2.2.2.2.2.2.2.2.2.1 selC10 wShort srcC10 0 0 9 [0] (by rfl) (by decide)
  exact claim_C10_positional_decoders.2.2.2.2.2.2.2.2.2.2.2.2.2.2.2.2.2.2.2.2.2.2.1 selC10 wZero448 srcC10 0 0 9 (List.replicate 448 0) (by rfl) (by decide) (by decide)
  exact claim_C10_positional_decoders.2.2.2.2.2.2.2.2.2.2.2.2.2.2.2.2.2.2.2.2.2.2.2.1 selC10 wPosShort srcC10 0 0 9 cpOpen [0] (by rfl) (by decide) (by decide) (by rfl) (by decide)
  exact claim_C10_positional_decoders.2.2.2.2.2.2.2.2.2.2.2.2.2.2.2.2.2.2.2.2.2.2.2.2.1 selC10 wPoolShort srcC10 0 0 9 cpOpen cpOpen [0] (by rfl) (by decide) (by decide) (by rfl) (by decide) (by rfl) (by decide)
  exact claim_C10_positional_decoders.2.2.2.2.2.2.2.2.2.2.2.2.2.2.2.2.2.2.2.2.2.2.2.2.2.1 selC10 wOpen srcC10 0 0 9 cpOpen cpOpen cpOpen (by rfl) (by decide) (by decide) (by rfl) (by decide) (by rfl) (by decide)
  exact claim_C10_positional_decoders.2.2.2.2.2.2.2.2.2.2.2.2.2.2.2.2.2.2.2.2.2.2.2.2.2.2 selC10 wOpen wOpenExt srcC10 0 0 9 cpOpen cpOpen cpOpen [7] [7] [7] (by rfl) (by rfl) (by rfl) (by rfl) (by rfl) (by rfl) (by decide) (by decide) (by decide) (by decide)


/-! ## Policy controller (`intent_policy.rs`, `utils/kernel.rs`)

`keccak256` is an uninterpreted parameter returning the 32-byte hash as a
value; the ASCII byte strings hashed by the digest construction are taken
from the source literally. -/

/-- UTF-8 bytes of an ASCII literal. -/
def strBytes (s : String) : List Nat := s.toUTF8.toList.map (fun b => b.toNat)

/-- `composite_key`: `keccak256(wallet || permissionId)`. -/
def composite_key (keccak : List Nat → Nat) (wallet permission_id : Nat) : Nat :=
  keccak (natToBeBytes 20 wallet ++ natToBeBytes 32 permission_id)

/-- `policy_intent_digest` (the EIP-712 construction of
`utils/policy_envelope.rs`). -/
def policy_intent_digest (keccak : List Nat → Nat) (chain_id : Nat)
    (verifying_contract wallet permission_id nonce deadline call_bundle_hash : Nat)
    (program_bytes : List Nat) : Nat :=
  let program_hash := keccak program_bytes
  let domain_type_hash := keccak (strBytes
    "EIP712Domain(string name,string version,uint256 chainId,address verifyingContract)")
  let domain_name_hash := keccak (strBytes "Fiet Maker Intent Policy")
  let domain_version_hash := keccak (strBytes "1")
  let domain_separator := keccak (natToBeBytes 32 domain_type_hash
    ++ natToBeBytes 32 domain_name_hash ++ natToBeBytes 32 domain_version_hash
    ++ natToBeBytes 32 chain_id
    ++ (List.replicate 12 0 ++ natToBeBytes 20 verifying_contract))
  let msg_type_hash := keccak (strBytes
    "IntentPolicyEnvelope(address wallet,bytes32 permissionId,uint256 nonce,uint64 deadline,bytes32 callBundleHash,bytes32 programHash)")
  let struct_hash := keccak (natToBeBytes 32 msg_type_hash
    ++ (List.replicate 12 0 ++ natToBeBytes 20 wallet)
    ++ natToBeBytes 32 permission_id ++ natToBeBytes 32 nonce
    ++ natToBeBytes 32 deadline ++ natToBeBytes 32 call_bundle_hash
    ++ natToBeBytes 32 program_hash)
  keccak ([0x19, 0x01] ++ natToBeBytes 32 domain_separator
    ++ natToBeBytes 32 struct_hash)

/-- The `sol_storage!` state of `IntentPolicy`: per-key mappings with EVM
zero defaults, keyed by the composite-key hash value (and `used_ids` by the
wallet address value). -/
structure IntentPolicy where
  used_ids : Nat → Nat
  nonce_of : Nat → Nat
  signer_of : Nat → Nat
  state_view_of : Nat → Nat
  vts_orchestrator_of : Nat → Nat
  liquidity_hub_of : Nat → Nat

/-- `PackedUserOperation` (ERC-4337): the nine positional fields. -/
structure UserOp where
  sender : Nat
  nonce : Nat
  initCode : List Nat
  callData : List Nat
  accountGasLimits : Nat
  preVerificationGas : Nat
  gasFees : Nat
  paymasterAndData : List Nat
  signature : List Nat

/-- The host-VM view consumed by `check_user_op_policy` (`self.vm()` plus
the uninterpreted hash/selector derivations and the external-call world). -/
structure Vm where
  keccak : List Nat → Nat
  sel : String → Nat
  world : World
  msg_sender : Nat
  block_timestamp : Nat
  chain_id : Nat
  contract_address : Nat

/-- `POLICY_SUCCESS_UINT`. -/
def POLICY_SUCCESS_UINT : Nat := 0

/-- `POLICY_FAILED_UINT`. -/
def POLICY_FAILED_UINT : Nat := 1

/-- `U256::saturating_add` (for values `< 2^256`). -/
def satAdd256 (a b : Nat) : Nat := min (a + b) (2 ^ 256 - 1)

/-- `IntentPolicy::check_user_op_policy`: the full controller sequence,
returning the verdict and the post-state. -/
def check_user_op_policy (vm : Vm) (st : IntentPolicy) (permission_id : Nat)
    (user_op : UserOp) : Nat × IntentPolicy :=
  let wallet := vm.msg_sender
  let key := composite_key vm.keccak wallet permission_id
  if st.state_view_of key = 0 then (POLICY_FAILED_UINT, st) else
  let call_data := user_op.callData
  let policy_sig_bytes := user_op.signature
  match parse_policy_envelope policy_sig_bytes with
  | none => (POLICY_FAILED_UINT, st)
  | some env =>
    if env.version ≠ 1 then (POLICY_FAILED_UINT, st) else
    if vm.block_timestamp > env.deadline then (POLICY_FAILED_UINT, st) else
    if vm.keccak call_data ≠ env.call_bundle_hash then (POLICY_FAILED_UINT, st) else
    let expected_nonce := st.nonce_of key
    if env.nonce ≠ expected_nonce then (POLICY_FAILED_UINT, st) else
    let expected_signer := st.signer_of key
    if expected_signer = 0 then (POLICY_FAILED_UINT, st) else
    let digest := policy_intent_digest vm.keccak vm.chain_id vm.contract_address
      wallet permission_id env.nonce env.deadline env.call_bundle_hash
      env.program_bytes
    match ecrecover_address vm.world digest env.signature with
    | .error _ => (POLICY_FAILED_UINT, st)
    | .ok recovered =>
      if recovered ≠ expected_signer then (POLICY_FAILED_UINT, st) else
      match decode_program env.program_bytes with
      | .error _ => (POLICY_FAILED_UINT, st)
      | .ok checks =>
        let sources : FactSources :=
          ⟨st.state_view_of key, st.vts_orchestrator_of key, st.liquidity_hub_of key⟩
        if sources.state_view = 0 ∨ sources.vts_orchestrator = 0
            ∨ sources.liquidity_hub = 0 then (POLICY_FAILED_UINT, st) else
        let facts := (OnchainFactsProvider.new vm.sel sources 200000
          vm.block_timestamp).toFactsProvider vm.sel vm.world
        match evaluate_program checks facts with
        | .error _ => (POLICY_FAILED_UINT, st)
        | .ok _ =>
          (POLICY_SUCCESS_UINT,
            { st with
              nonce_of := Function.update st.nonce_of key (satAdd256 expected_nonce 1) })

/-- `IntentPolicy::check_signature_policy`: unconditionally admit. -/
def check_signature_policy (_permission_id _sender _hash : Nat)
    (_sig : List Nat) : Nat :=
  POLICY_SUCCESS_UINT

/-! ## Claim C1: nonce and state discipline of `check_user_op_policy` -/

/-- **C1**: for every storage state, environment, permission id and user
operation, the state after `check_user_op_policy` is: on admit (`0`), the
same state with only the invoked key's nonce replaced by its saturating
successor (`U256::MAX`-capped); on reject (`1`), the state unchanged.  In
particular the nonce of every other key and every other per-key field
(`signer_of`, `state_view_of`, `vts_orchestrator_of`, `liquidity_hub_of`,
`used_ids`) is untouched on either outcome. -/
theorem claim_C1_nonce_discipline (vm : Vm) (st : IntentPolicy)
    (permission_id : Nat) (user_op : UserOp) :
    (check_user_op_policy vm st permission_id user_op).2 =
      (if (check_user_op_policy vm st permission_id user_op).1 = POLICY_SUCCESS_UINT
        then { st with
          nonce_of := Function.update st.nonce_of
            (composite_key vm.keccak vm.msg_sender permission_id)
            (satAdd256 (st.nonce_of
              (composite_key vm.keccak vm.msg_sender permission_id)) 1) }
        else st) := by
  cases hrun : check_user_op_policy vm st permission_id user_op with
  | mk v st2 =>
    unfold check_user_op_policy at hrun
    dsimp only [] at hrun
    repeat' split at hrun
    all_goals
      (injection hrun with h1 h2; subst h1; subst h2;
       simp [POLICY_SUCCESS_UINT, POLICY_FAILED_UINT])

/-! ## Claim C9: only `call_data` and the signature slice are consumed -/

/-- **C9**: two invocations of `check_user_op_policy` with the same storage,
environment and permission id, whose user-operation tuples agree on
`callData` (field 4) and `signature` (field 9) but differ arbitrarily in the
other seven fields, return the same verdict and the same post-state. -/
theorem claim_C9_calldata_signature_only (vm : Vm) (st : IntentPolicy)
    (permission_id : Nat) (op1 op2 : UserOp)
    (hcd : op1.callData = op2.callData)
    (hsig : op1.signature = op2.signature) :
    check_user_op_policy vm st permission_id op1
      = check_user_op_policy vm st permission_id op2 := by
  unfold check_user_op_policy
  rw [hcd, hsig]

/-- A concrete environment with an arbitrary world, used in the C9 witness. -/
def vmC9 : Vm :=
  { keccak := fun _ => 0, sel := fun _ => 0, world := fun _ _ => .error ()
    msg_sender := 1, block_timestamp := 0, chain_id := 1, contract_address := 2 }

/-- An empty storage state. -/
def stEmpty : IntentPolicy :=
  { used_ids := fun _ => 0, nonce_of := fun _ => 0, signer_of := fun _ => 0
    state_view_of := fun _ => 0, vts_orchestrator_of := fun _ => 0
    liquidity_hub_of := fun _ => 0 }

/-- Witness for C9: two tuples that differ in all seven other fields but
share `callData` and `signature` yield identical results. -/
theorem claim_C9_witness :
    check_user_op_policy vmC9 stEmpty 0
        ⟨1, 2, [3], [4], 5, 6, 7, [8], [9]⟩
      = check_user_op_policy vmC9 stEmpty 0
          ⟨90, 91, [92], [4], 93, 94, 95, [96], [9]⟩ :=
  claim_C9_calldata_signature_only vmC9 stEmpty 0 _ _ rfl rfl

end Fiet
